import Mathlib

/-!
Ray tracer: intersection engine and recursive caster.

A shallow embedding of `src/Object.h`, `src/Object.cpp` and `src/demo2.cpp`.

* `float` values are elements of a linearly ordered field `F`, so arithmetic is exact: there
  is no rounding, no overflow and no NaN, and a quotient by zero is `0`.  The IEEE value
  `+infinity` that a fresh `IntersectInfo` carries is the top element of `WithTop F`.
  A constant is taken at the value the program stores: `float delta = 1e-8` is the binary32
  number `11258999 / 2^50`.  The theorems are statements of this exact arithmetic; where a
  statement is meant only for inputs on which the float program neither overflows nor divides
  zero by zero, its hypotheses bound the inputs.
* The C library functions `sqrt` and `pow` are not part of the repository; the embedding
  takes them as the record `Libm F`.  Theorems that depend on what `sqrt` computes assume
  `Libm.SqrtLawful`.
* A call that leaves the C++ function without executing a `return` statement, or that
  dereferences a null `material` pointer, has no defined value: such calls evaluate to
  `none`.
* `int` counters are mathematical integers.  The increment `numBounces++` is undefined in
  C++ at `INT_MAX`; a theorem that follows the counter through an increment from an arbitrary
  value assumes it below `INT_MAX`.
-/

set_option autoImplicit false

namespace RayTracer

/-! ## Vectors (`glm::vec3`) and the C math library -/

/-- The C math library functions the program calls: `sqrt` and `pow`. -/
structure Libm (F : Type) where
  /-- the function `sqrt` -/
  sqrt : F → F
  /-- the function `pow` -/
  pow : F → F → F

/-- On non-negative arguments `sqrt` returns the non-negative square root. -/
def Libm.SqrtLawful {F : Type} [LinearOrderedField F] (m : Libm F) : Prop :=
  ∀ x : F, 0 ≤ x → 0 ≤ m.sqrt x ∧ m.sqrt x * m.sqrt x = x

/-- A `glm::vec3`. -/
structure Vec3 (F : Type) where
  x : F
  y : F
  z : F
deriving DecidableEq, Repr

namespace Vec3

variable {F : Type} [LinearOrderedField F]

/-- `glm::vec3(s)`: all three components equal `s`. -/
def splat (s : F) : Vec3 F := ⟨s, s, s⟩

/-- `a + b` -/
def add (a b : Vec3 F) : Vec3 F := ⟨a.x + b.x, a.y + b.y, a.z + b.z⟩

/-- `a - b` -/
def sub (a b : Vec3 F) : Vec3 F := ⟨a.x - b.x, a.y - b.y, a.z - b.z⟩

/-- `s * v` (also `v * s`) -/
def smul (s : F) (v : Vec3 F) : Vec3 F := ⟨s * v.x, s * v.y, s * v.z⟩

/-- `glm::dot` -/
def dot (a b : Vec3 F) : F := a.x * b.x + a.y * b.y + a.z * b.z

/-- `glm::cross` -/
def cross (a b : Vec3 F) : Vec3 F :=
  ⟨a.y * b.z - b.y * a.z, a.z * b.x - b.z * a.x, a.x * b.y - b.x * a.y⟩

/-- `glm::length`: `sqrt(dot(v, v))` -/
def length (m : Libm F) (v : Vec3 F) : F := m.sqrt (dot v v)

/-- `glm::distance(a, b)`: `length(b - a)` -/
def distance (m : Libm F) (a b : Vec3 F) : F := length m (sub b a)

/-- `glm::normalize`: `v * inversesqrt(dot(v, v))` -/
def normalize (m : Libm F) (v : Vec3 F) : Vec3 F := smul (1 / m.sqrt (dot v v)) v

end Vec3

/-! ## Data model (`Ray.h`, `Object.h`) -/

/-- Modelled from the spec: the class `Ray` of the missing header `Ray.h`, an origin and a
direction. -/
structure Ray (F : Type) where
  origin : Vec3 F
  direction : Vec3 F
deriving DecidableEq, Repr

/-- Modelled from the spec: `ray(t)`, the point `origin + t * direction`. -/
def Ray.eval {F : Type} [LinearOrderedField F] (ray : Ray F) (t : F) : Vec3 F :=
  Vec3.add ray.origin (Vec3.smul t ray.direction)

/-- The class `Material` of `Object.h`. -/
structure Material (F : Type) where
  ambient : Vec3 F
  diffuse : Vec3 F
  specular : Vec3 F
  specularExponent : F
  Klocal : F
  Kreflectivity : F
deriving DecidableEq, Repr

/-- Modelled from the spec: the class `IntersectInfo` of the missing header `Ray.h`.  `time`
may be `+infinity` (`⊤`); `material` is a pointer, `none` when null. -/
structure IntersectInfo (F : Type) where
  time : WithTop F
  hitPoint : Vec3 F
  normal : Vec3 F
  material : Option (Material F)

/-- Modelled from the spec: a default-constructed `IntersectInfo`, whose `time` is
`+infinity`. -/
def IntersectInfo.fresh {F : Type} [LinearOrderedField F] : IntersectInfo F :=
  ⟨⊤, Vec3.splat 0, Vec3.splat 0, none⟩

/-- Modelled from the spec: the class `Payload` of the missing header `Ray.h`. -/
structure Payload (F : Type) where
  color : Vec3 F
  shadowed : Bool
  numBounces : Int
deriving DecidableEq, Repr

/-- The class `Sphere`; `r_2` is the stored square of the radius. -/
structure Sphere (F : Type) where
  radius : F
  r_2 : F
  centre : Vec3 F
  material : Material F

/-- The class `Plane`: a point `p0` of the plane and the stored normal `n`. -/
structure Plane (F : Type) where
  p0 : Vec3 F
  n : Vec3 F
  material : Material F

/-- The class `Triangle`: the vertices and the stored normal. -/
structure Triangle (F : Type) where
  A : Vec3 F
  B : Vec3 F
  C : Vec3 F
  normal : Vec3 F
  material : Material F

/-- The class `AxisAlignedBox`: two opposite corners. -/
structure AxisAlignedBox (F : Type) where
  p1 : Vec3 F
  p2 : Vec3 F
  material : Material F

section Defs

variable {F : Type} [LinearOrderedField F]

/-- The constructor `Sphere::Sphere(r, c, material)`. -/
def Sphere.new (r : F) (c : Vec3 F) (material : Material F) : Sphere F :=
  ⟨r, r * r, c, material⟩

/-- The constructor `Plane::Plane(_p0, _n, material)`, which normalizes `_n`. -/
def Plane.new (m : Libm F) (p0 n : Vec3 F) (material : Material F) : Plane F :=
  ⟨p0, Vec3.normalize m n, material⟩

/-- The constructor `Triangle::Triangle(_a, _b, _c, material)`. -/
def Triangle.new (m : Libm F) (a b c : Vec3 F) (material : Material F) : Triangle F :=
  ⟨a, b, c, Vec3.normalize m (Vec3.cross (Vec3.sub b a) (Vec3.sub c a)), material⟩

/-- The constructor `AxisAlignedBox::AxisAlignedBox(_p1, _p2, material)`. -/
def AxisAlignedBox.new (p1 p2 : Vec3 F) (material : Material F) : AxisAlignedBox F :=
  ⟨p1, p2, material⟩

/-! ## `solveQuadraticEquation` (`Object.cpp`, lines 35-60) -/

/-- The intermediate `q` of the branch with two distinct roots (lines 48-50). -/
def quadraticQ (m : Libm F) (b discriminant : F) : F :=
  if b > 0 then -(1 / 2) * (b + m.sqrt discriminant) else -(1 / 2) * (b - m.sqrt discriminant)

/-- The function `solveQuadraticEquation`: `none` when it returns `false`, otherwise
`some (root0, root1)`. -/
def solveQuadraticEquation (m : Libm F) (a b c : F) : Option (F × F) :=
  let discriminant := (b * b) - (4 * a * c)
  if discriminant < 0 then none
  else
    let roots : F × F :=
      if discriminant = 0 then (-(1 / 2) * b / a, -(1 / 2) * b / a)
      else
        let q := quadraticQ m b discriminant
        (q / a, c / q)
    if roots.1 > roots.2 then some (roots.2, roots.1) else some roots

/-! ## The primitives' `Intersect` (`Object.cpp`, lines 62-370)

Each returns `some (returned value, info afterwards)`, or `none` when the call ends
without a `return` statement. -/

/-- The method `Sphere::Intersect` (lines 62-93).  For a ray of zero direction `a = 0` and the
root `-0.5 * b / a` is a quotient by zero: `0` here, not a number in the program, where both
tests `root0 < 0` let it through. -/
def Sphere.Intersect (m : Libm F) (s : Sphere F) (ray : Ray F) (info : IntersectInfo F) :
    Option (Bool × IntersectInfo F) :=
  let sphereOffset := Vec3.sub ray.origin s.centre
  let a := Vec3.dot ray.direction ray.direction
  let b := 2 * Vec3.dot ray.direction sphereOffset
  let c := Vec3.dot sphereOffset sphereOffset - s.r_2
  match solveQuadraticEquation m a b c with
  | none => some (false, info)
  | some (root0, root1) =>
    if root0 < 0 then
      if root1 < 0 then some (false, info)
      else
        let hitPoint := ray.eval root1
        some (true, ⟨(root1 : F), hitPoint, Vec3.normalize m (Vec3.sub hitPoint s.centre),
          some s.material⟩)
    else
      let hitPoint := ray.eval root0
      some (true, ⟨(root0 : F), hitPoint, Vec3.normalize m (Vec3.sub hitPoint s.centre),
        some s.material⟩)

/-- The method `Plane::Intersect` (lines 96-118).  When the ray is not near-parallel and
`timeOfIntersect > 0` fails, control reaches the closing brace of the function without a
`return` statement: the result is `none`. -/
def Plane.Intersect (m : Libm F) (p : Plane F) (ray : Ray F) (info : IntersectInfo F) :
    Option (Bool × IntersectInfo F) :=
  let denominator := Vec3.dot ray.direction p.n
  if |denominator| < 1 / 1000000 then some (false, info)
  else
    let rayDist := Vec3.sub p.p0 ray.origin
    let timeOfIntersect := Vec3.dot rayDist p.n / denominator
    if timeOfIntersect > 0 then
      some (true, ⟨(timeOfIntersect : F), ray.eval timeOfIntersect, Vec3.normalize m p.n,
        some p.material⟩)
    else none

/-- The method `Triangle::Intersect` (lines 122-189).  The two divisions by `denom` are not
guarded: `denom` is zero for collinear vertices, and in float arithmetic also for very thin
triangles; `s` and `t` are then not numbers in the program, and neither test rejects them. -/
def Triangle.Intersect (m : Libm F) (tr : Triangle F) (ray : Ray F) (info : IntersectInfo F) :
    Option (Bool × IntersectInfo F) :=
  let N := tr.normal
  let collisionDot := Vec3.dot N ray.direction
  if |collisionDot| < 1 / 1000000 then some (false, info)
  else
    let numerator := -1 * Vec3.dot N (Vec3.sub ray.origin tr.A)
    let timeOfIntersect := numerator / collisionDot
    if timeOfIntersect < 0 then some (false, info)
    else
      let P := ray.eval timeOfIntersect
      let u := Vec3.sub tr.B tr.A
      let v := Vec3.sub tr.C tr.A
      let w := Vec3.sub P tr.A
      let uu := Vec3.dot u u
      let uv := Vec3.dot u v
      let vv := Vec3.dot v v
      let wu := Vec3.dot w u
      let wv := Vec3.dot w v
      let denom := (uv * uv) - (uu * vv)
      let s := ((uv * wv) - (vv * wu)) / denom
      if s < 0 ∨ s > 1 then some (false, info)
      else
        let t := ((uv * wu) - (uu * wv)) / denom
        if t < 0 ∨ (s + t) > 1 then some (false, info)
        else
          some (true, ⟨(timeOfIntersect : F), ray.eval timeOfIntersect, Vec3.normalize m N,
            some tr.material⟩)

/-- One of the six face blocks of `AxisAlignedBox::Intersect` (for instance lines 212-235):
`N` is the face normal, `facePoint` the point the block subtracts the ray origin from, and
`inside` the block's test on the point `P`.  The threshold is the value of
`float delta = 1e-8` (line 208), the binary32 number nearest to `10^-8`, which is
`11258999 / 2^50 = 11258999 / 1125899906842624`. -/
def AxisAlignedBox.face (m : Libm F) (material : Material F) (ray : Ray F) (N facePoint : Vec3 F)
    (inside : Vec3 F → Bool) (info : IntersectInfo F) : IntersectInfo F :=
  let denominator := Vec3.dot ray.direction N
  if |denominator| < 11258999 / 1125899906842624 then info
  else
    let rayDist := Vec3.sub facePoint ray.origin
    let timeOfIntersect := Vec3.dot rayDist N / denominator
    if timeOfIntersect > 0 then
      let P := ray.eval timeOfIntersect
      if inside P then
        if (timeOfIntersect : WithTop F) < info.time then
          ⟨(timeOfIntersect : F), ray.eval timeOfIntersect, Vec3.normalize m N, some material⟩
        else info
      else info
    else info

/-- The face blocks of `AxisAlignedBox::Intersect` (lines 193-362): the front, top, left,
right, back and bottom face in this order; the result is `info` after the last block.  Each
test ends with an equality `==` between the computed coordinate of `P` on the face's axis and
the face coordinate: in exact arithmetic it holds whenever the block reaches it, in the
program only when the float evaluation of `ray(t)` reproduces the face coordinate exactly. -/
def AxisAlignedBox.faces (m : Libm F) (bx : AxisAlignedBox F) (ray : Ray F)
    (info : IntersectInfo F) : IntersectInfo F :=
  let minX := min bx.p1.x bx.p2.x
  let maxX := max bx.p1.x bx.p2.x
  let minY := min bx.p1.y bx.p2.y
  let maxY := max bx.p1.y bx.p2.y
  let minZ := min bx.p1.z bx.p2.z
  let maxZ := max bx.p1.z bx.p2.z
  let info := AxisAlignedBox.face m bx.material ray ⟨0, 0, 1⟩
    ⟨minX + maxX / 2, minY + maxY / 2, maxZ⟩
    (fun P => P.x ≤ maxX ∧ P.x ≥ minX ∧ P.y ≤ maxY ∧ P.y ≥ minY ∧ P.z = maxZ) info
  let info := AxisAlignedBox.face m bx.material ray ⟨0, 1, 0⟩
    ⟨minX + maxX / 2, maxY, minZ + maxZ / 2⟩
    (fun P => P.x ≤ maxX ∧ P.x ≥ minX ∧ P.y = maxY ∧ P.z ≤ maxZ ∧ P.z ≥ minZ) info
  let info := AxisAlignedBox.face m bx.material ray ⟨-1, 0, 0⟩
    ⟨minX, minY + maxY / 2, minZ + maxZ / 2⟩
    (fun P => P.x = minX ∧ P.y ≤ maxY ∧ P.y ≥ minY ∧ P.z ≤ maxZ ∧ P.z ≥ minZ) info
  let info := AxisAlignedBox.face m bx.material ray ⟨1, 0, 0⟩
    ⟨maxX, minY + maxY / 2, minZ + maxZ / 2⟩
    (fun P => P.x = maxX ∧ P.y ≤ maxY ∧ P.y ≥ minY ∧ P.z ≤ maxZ ∧ P.z ≥ minZ) info
  let info := AxisAlignedBox.face m bx.material ray ⟨0, 0, -1⟩
    ⟨minX + maxX / 2, minY + maxY / 2, minZ⟩
    (fun P => P.x ≤ maxX ∧ P.x ≥ minX ∧ P.y ≤ maxY ∧ P.y ≥ minY ∧ P.z = minZ) info
  let info := AxisAlignedBox.face m bx.material ray ⟨0, -1, 0⟩
    ⟨minX + maxX / 2, minY, minZ + maxZ / 2⟩
    (fun P => P.x ≤ maxX ∧ P.x ≥ minX ∧ P.y = minY ∧ P.z ≤ maxZ ∧ P.z ≥ minZ) info
  info

/-- The method `AxisAlignedBox::Intersect` (lines 191-370): the six face blocks, then the
final test `info.time < infinity` (lines 364-368). -/
def AxisAlignedBox.Intersect (m : Libm F) (bx : AxisAlignedBox F) (ray : Ray F)
    (info : IntersectInfo F) : Option (Bool × IntersectInfo F) :=
  let info := AxisAlignedBox.faces m bx ray info
  if info.time < ⊤ then some (true, info) else some (false, info)

/-! ## The scene (`demo2.cpp`) -/

/-- An element of the global vector `objects`: one of the four primitives. -/
inductive Object (F : Type) where
  | sphere (s : Sphere F)
  | plane (p : Plane F)
  | triangle (t : Triangle F)
  | box (b : AxisAlignedBox F)

/-- The virtual call `obj->Intersect(ray, info)`. -/
def Object.Intersect (m : Libm F) (obj : Object F) (ray : Ray F) (info : IntersectInfo F) :
    Option (Bool × IntersectInfo F) :=
  match obj with
  | .sphere s => s.Intersect m ray info
  | .plane p => p.Intersect m ray info
  | .triangle t => t.Intersect m ray info
  | .box b => b.Intersect m ray info

/-- The loop of `CheckIntersection` (lines 47-62) over the objects still to visit, with the
current values of `found` and `info`. -/
def CheckIntersection.loop (m : Libm F) (ray : Ray F) :
    List (Object F) → Bool → IntersectInfo F → Option (Bool × IntersectInfo F)
  | [], found, info => some (found, info)
  | obj :: rest, found, info =>
    match obj.Intersect m ray IntersectInfo.fresh with
    | none => none
    | some (true, tempInfo) =>
      if !found then CheckIntersection.loop m ray rest true tempInfo
      else if tempInfo.time < info.time then CheckIntersection.loop m ray rest found tempInfo
      else CheckIntersection.loop m ray rest found info
    | some (false, _) => CheckIntersection.loop m ray rest found info

/-- The function `CheckIntersection` (lines 43-64) over the objects of the scene. -/
def CheckIntersection (m : Libm F) (objects : List (Object F)) (ray : Ray F)
    (info : IntersectInfo F) : Option (Bool × IntersectInfo F) :=
  CheckIntersection.loop m ray objects false info

/-- The global variables of `demo2.cpp` that `CastRay` reads, and `freshPayload`, the value
of a default-constructed `Payload` (its class is declared in the missing `Ray.h`). -/
structure Globals (F : Type) where
  objects : List (Object F)
  lightPos : Vec3 F
  activateShadows : Bool
  activatePhong : Bool
  activateReflections : Bool
  maxReflections : Int
  freshPayload : Payload F

/-- The shadow test of `CastRay` (lines 84-106): the value of `payload.shadowed` after it,
`shadowed` being its value before. -/
def CastRay.shadow (m : Libm F) (g : Globals F) (hitPoint_fix lightVec : Vec3 F)
    (shadowed : Bool) : Option Bool :=
  if g.activateShadows then
    let shadowRay : Ray F := ⟨hitPoint_fix, lightVec⟩
    match CheckIntersection m g.objects shadowRay IntersectInfo.fresh with
    | none => none
    | some (shadowed, shadowInfo) =>
      let collisionDist := Vec3.distance m hitPoint_fix shadowInfo.hitPoint
      let lightDist := Vec3.distance m hitPoint_fix g.lightPos
      if shadowed then
        if collisionDist < lightDist then some true
        else some false
      else some false
  else some shadowed

/-- The Phong branch of `CastRay` (lines 109-162): the new `payload.color`. -/
def CastRay.phong (m : Libm F) (ray : Ray F) (info : IntersectInfo F) (material : Material F)
    (hitPoint_fix lightVec : Vec3 F) (shadowed : Bool) : Vec3 F :=
  let normOut := info.normal
  let normOut := if Vec3.dot lightVec normOut < 0 then Vec3.smul (-1) normOut else normOut
  let eyeVec := Vec3.normalize m (Vec3.sub ray.origin hitPoint_fix)
  let light_source_intensity : F := 1
  let specular_intensity := material.specularExponent
  let diffuse_reflectivity : F := 6 / 10
  let specular_reflectivity : F := 8 / 10
  let ambient_lighting : F := 1 / 10
  let cosine_theta := max 0 |Vec3.dot lightVec normOut|
  let cosine_alpha := max 0 (Vec3.dot
    (Vec3.sub (Vec3.smul (Vec3.dot lightVec normOut) (Vec3.smul 2 normOut)) lightVec) eyeVec)
  let diff := light_source_intensity * diffuse_reflectivity * cosine_theta
  let spec := light_source_intensity * specular_reflectivity * m.pow cosine_alpha specular_intensity
  let ambient := ambient_lighting
  let diffMat := material.diffuse
  let specMat := material.specular
  let ambMat := material.ambient
  let diff := if shadowed then 0 else diff
  let spec := if shadowed then 0 else spec
  let red_free := (diff * diffMat.x) + (spec * specMat.x) + (ambient * ambMat.x)
  let green_free := (diff * diffMat.y) + (spec * specMat.y) + (ambient * ambMat.y)
  let blue_free := (diff * diffMat.z) + (spec * specMat.z) + (ambient * ambMat.z)
  let red := max 0 (min 1 red_free)
  let green := max 0 (min 1 green_free)
  let blue := max 0 (min 1 blue_free)
  Vec3.smul material.Klocal ⟨red, green, blue⟩

/-- The local illumination of `CastRay` (lines 108-177): the new `payload.color`. -/
def CastRay.localColor (m : Libm F) (g : Globals F) (ray : Ray F) (info : IntersectInfo F)
    (material : Material F) (hitPoint_fix lightVec : Vec3 F) (payload : Payload F) : Vec3 F :=
  if g.activatePhong then
    CastRay.phong m ray info material hitPoint_fix lightVec payload.shadowed
  else if g.activateShadows then
    if payload.shadowed then Vec3.splat 0
    else Vec3.smul material.Klocal material.ambient
  else Vec3.smul material.Klocal material.ambient

set_option linter.unusedVariables false in
/-- The function `CastRay` (lines 71-202), together with the list of the values of
`numBounces` with which the nested calls of `CastRay` (line 192) are entered, outermost call
first.  The second component is `some (returned value, payload afterwards)`, or `none` when a
call made on the way has no defined value.  `info.material` is dereferenced on the hit path;
after `CheckIntersection` returned `true` it is never null (`CheckIntersection_material`).
The increment `payload.numBounces++` (line 181) is the successor of an integer here; on an
`int` it is undefined at `INT_MAX`. -/
def CastRayTrace (m : Libm F) (g : Globals F) (ray : Ray F) (payload : Payload F) :
    List Int × Option (WithTop F × Payload F) :=
  match CheckIntersection m g.objects ray IntersectInfo.fresh with
  | none => ([], none)
  | some (false, _) => ([], some (0, payload))
  | some (true, info) =>
    match info.material with
    | none => ([], none)
    | some material =>
      let hitPoint_fix := Vec3.add info.hitPoint (Vec3.smul (1 / 10) info.normal)
      let lightVec := Vec3.normalize m (Vec3.sub g.lightPos hitPoint_fix)
      match CastRay.shadow m g hitPoint_fix lightVec payload.shadowed with
      | none => ([], none)
      | some shadowed =>
        let payload : Payload F := { payload with shadowed := shadowed }
        let payload : Payload F :=
          { payload with
            color := CastRay.localColor m g ray info material hitPoint_fix lightVec payload }
        if g.activateReflections then
          let payload : Payload F := { payload with numBounces := payload.numBounces + 1 }
          if h : material.Kreflectivity > 0 ∧ payload.numBounces ≤ g.maxReflections then
            let reflDir := Vec3.normalize m (Vec3.sub ray.direction
              (Vec3.smul (Vec3.dot ray.direction info.normal) (Vec3.smul 2 info.normal)))
            let reflectionRay : Ray F := ⟨hitPoint_fix, reflDir⟩
            let refPayload : Payload F := { g.freshPayload with numBounces := payload.numBounces }
            let sub := CastRayTrace m g reflectionRay refPayload
            match sub.2 with
            | none => (payload.numBounces :: sub.1, none)
            | some (_, refPayload) =>
              (payload.numBounces :: sub.1, some (info.time,
                { payload with
                  color := Vec3.add payload.color
                    (Vec3.smul material.Kreflectivity refPayload.color) }))
          else ([], some (info.time, payload))
        else ([], some (info.time, payload))
termination_by (g.maxReflections + 1 - payload.numBounces).toNat
decreasing_by
  simp_wf
  have h2 := h.2
  simp only at h2
  omega

/-- The function `CastRay` (lines 71-202): `some (returned value, payload afterwards)`. -/
def CastRay (m : Libm F) (g : Globals F) (ray : Ray F) (payload : Payload F) :
    Option (WithTop F × Payload F) :=
  (CastRayTrace m g ray payload).2

/-- The colour `DemoDisplay` gives a pixel from the result of `CastRay` (lines 494-511):
`time` is the returned value and `payload` the payload after the call. -/
def DemoDisplay.pixelColor (time : WithTop F) (payload : Payload F) : Vec3 F :=
  let color : Vec3 F := Vec3.splat 1
  if time > 0 then
    if payload.shadowed then Vec3.smul 1 payload.color
    else
      let red := payload.color.x
      let blue := payload.color.y
      let green := payload.color.z
      ⟨red, blue, green⟩
  else color

/-- The part of the pixel loop of `DemoDisplay` that follows the construction of the ray
(lines 491-513): the colour passed to `glColor3f` for the pixel whose ray is `ray`. -/
def DemoDisplay.pixel (m : Libm F) (g : Globals F) (ray : Ray F) : Option (Vec3 F) :=
  match CastRay m g ray g.freshPayload with
  | none => none
  | some (time, payload) => some (DemoDisplay.pixelColor time payload)

/-! ## Notions used in the statements -/

/-- The call `obj->Intersect(ray, tempInfo)` on a fresh `tempInfo`, as `CheckIntersection`
makes it, returns `true` and leaves `i` in `tempInfo`. -/
def Object.Hits (m : Libm F) (ray : Ray F) (obj : Object F) (i : IntersectInfo F) : Prop :=
  obj.Intersect m ray IntersectInfo.fresh = some (true, i)

/-- The info `i` has a finite non-negative time, its hit point is the point of `ray` at that
time, and its material pointer is set. -/
def IntersectInfo.OnRay (ray : Ray F) (i : IntersectInfo F) : Prop :=
  ∃ t : F, i.time = (t : WithTop F) ∧ 0 ≤ t ∧ i.hitPoint = ray.eval t ∧ i.material.isSome

/-- The barycentric coordinate `s` that `Triangle::Intersect` computes for the point `P`
(lines 154-174). -/
def Triangle.baryS (tr : Triangle F) (P : Vec3 F) : F :=
  let u := Vec3.sub tr.B tr.A
  let v := Vec3.sub tr.C tr.A
  let w := Vec3.sub P tr.A
  let uu := Vec3.dot u u
  let uv := Vec3.dot u v
  let vv := Vec3.dot v v
  let wu := Vec3.dot w u
  let wv := Vec3.dot w v
  let denom := (uv * uv) - (uu * vv)
  ((uv * wv) - (vv * wu)) / denom

/-- The barycentric coordinate `t` that `Triangle::Intersect` computes for the point `P`
(lines 154-178). -/
def Triangle.baryT (tr : Triangle F) (P : Vec3 F) : F :=
  let u := Vec3.sub tr.B tr.A
  let v := Vec3.sub tr.C tr.A
  let w := Vec3.sub P tr.A
  let uu := Vec3.dot u u
  let uv := Vec3.dot u v
  let vv := Vec3.dot v v
  let wu := Vec3.dot w u
  let wv := Vec3.dot w v
  let denom := (uv * uv) - (uu * vv)
  ((uv * wu) - (uu * wv)) / denom

/-- The plane-intersection parameter `timeOfIntersect` of `Triangle::Intersect`
(lines 133-143). -/
def Triangle.planeTime (tr : Triangle F) (ray : Ray F) : F :=
  (-1 * Vec3.dot tr.normal (Vec3.sub ray.origin tr.A)) / Vec3.dot tr.normal ray.direction

/-- The data by which the six face blocks of `AxisAlignedBox::Intersect` differ: the face
normal, the point the block subtracts the ray origin from, and the block's test on `P`. -/
structure BoxFace (F : Type) where
  N : Vec3 F
  facePoint : Vec3 F
  inside : Vec3 F → Bool

/-- The six face blocks of `AxisAlignedBox::Intersect` in source order: front (`+Z`), top
(`+Y`), left (`-X`), right (`+X`), back (`-Z`) and bottom (`-Y`). -/
def AxisAlignedBox.faceList (bx : AxisAlignedBox F) : List (BoxFace F) :=
  let minX := min bx.p1.x bx.p2.x
  let maxX := max bx.p1.x bx.p2.x
  let minY := min bx.p1.y bx.p2.y
  let maxY := max bx.p1.y bx.p2.y
  let minZ := min bx.p1.z bx.p2.z
  let maxZ := max bx.p1.z bx.p2.z
  [⟨⟨0, 0, 1⟩, ⟨minX + maxX / 2, minY + maxY / 2, maxZ⟩,
      fun P => P.x ≤ maxX ∧ P.x ≥ minX ∧ P.y ≤ maxY ∧ P.y ≥ minY ∧ P.z = maxZ⟩,
   ⟨⟨0, 1, 0⟩, ⟨minX + maxX / 2, maxY, minZ + maxZ / 2⟩,
      fun P => P.x ≤ maxX ∧ P.x ≥ minX ∧ P.y = maxY ∧ P.z ≤ maxZ ∧ P.z ≥ minZ⟩,
   ⟨⟨-1, 0, 0⟩, ⟨minX, minY + maxY / 2, minZ + maxZ / 2⟩,
      fun P => P.x = minX ∧ P.y ≤ maxY ∧ P.y ≥ minY ∧ P.z ≤ maxZ ∧ P.z ≥ minZ⟩,
   ⟨⟨1, 0, 0⟩, ⟨maxX, minY + maxY / 2, minZ + maxZ / 2⟩,
      fun P => P.x = maxX ∧ P.y ≤ maxY ∧ P.y ≥ minY ∧ P.z ≤ maxZ ∧ P.z ≥ minZ⟩,
   ⟨⟨0, 0, -1⟩, ⟨minX + maxX / 2, minY + maxY / 2, minZ⟩,
      fun P => P.x ≤ maxX ∧ P.x ≥ minX ∧ P.y ≤ maxY ∧ P.y ≥ minY ∧ P.z = minZ⟩,
   ⟨⟨0, -1, 0⟩, ⟨minX + maxX / 2, minY, minZ + maxZ / 2⟩,
      fun P => P.x ≤ maxX ∧ P.x ≥ minX ∧ P.y = minY ∧ P.z ≤ maxZ ∧ P.z ≥ minZ⟩]

/-- The parameter `timeOfIntersect` that a face block computes for the ray. -/
def BoxFace.time (f : BoxFace F) (ray : Ray F) : F :=
  Vec3.dot (Vec3.sub f.facePoint ray.origin) f.N / Vec3.dot ray.direction f.N

/-- A face block accepts the ray: the ray is not near-parallel to the face normal,
`timeOfIntersect > 0`, and the point `P` passes the block's test (the three nested
conditions that guard the comparison with `info.time`). -/
def BoxFace.Accepts (f : BoxFace F) (ray : Ray F) : Prop :=
  ¬ (|Vec3.dot ray.direction f.N| < 11258999 / 1125899906842624) ∧ f.time ray > 0 ∧
    f.inside (ray.eval (f.time ray)) = true

/-- The material the primitive was constructed with. -/
def Object.material : Object F → Material F
  | .sphere s => s.material
  | .plane p => p.material
  | .triangle t => t.material
  | .box b => b.material

/-- Every channel of the colour lies in `[0, 1]`. -/
def Vec3.InUnit (v : Vec3 F) : Prop :=
  (0 ≤ v.x ∧ v.x ≤ 1) ∧ (0 ≤ v.y ∧ v.y ≤ 1) ∧ (0 ≤ v.z ∧ v.z ≤ 1)

/-- Every coordinate of the vector `v` is at most `B` in absolute value. -/
def Vec3.Within (B : F) (v : Vec3 F) : Prop :=
  |v.x| ≤ B ∧ |v.y| ≤ B ∧ |v.z| ≤ B

/-- The weights of the material are non-negative and sum to at most one. -/
def Material.Balanced (mat : Material F) : Prop :=
  0 ≤ mat.Klocal ∧ 0 ≤ mat.Kreflectivity ∧ mat.Klocal + mat.Kreflectivity ≤ 1

/-- Clamping of a colour channel to `[0, 1]`. -/
def clamp01 (x : F) : F := max 0 (min 1 x)

/-- The Phong colour as the specification words it, for the surface normal `N`, the unit
vector `L` towards the light and the view vector `V`: the normal is flipped to face the light,
the diffuse term is `0.6 |dot(L, N)|`, the specular term is `0.8 max(0, dot(R, V))^e` for the
reflected light vector `R = 2 N (L . N) - L` and the specular exponent `e`, both terms are zero
when the point is shadowed, and the colour is `Klocal` times the channel-wise clamped sum
`diff * diffuse + spec * specular + 0.1 * ambient`. -/
def phongSpec (m : Libm F) (material : Material F) (N L V : Vec3 F) (shadowed : Bool) : Vec3 F :=
  let Nf := if Vec3.dot L N < 0 then Vec3.smul (-1) N else N
  let R := Vec3.sub (Vec3.smul (2 * Vec3.dot L Nf) Nf) L
  let diff := if shadowed then 0 else 6 / 10 * |Vec3.dot L N|
  let spec := if shadowed then 0
    else 8 / 10 * m.pow (max 0 (Vec3.dot R V)) material.specularExponent
  Vec3.smul material.Klocal
    ⟨clamp01 (diff * material.diffuse.x + spec * material.specular.x + 1 / 10 * material.ambient.x),
     clamp01 (diff * material.diffuse.y + spec * material.specular.y + 1 / 10 * material.ambient.y),
     clamp01 (diff * material.diffuse.z + spec * material.specular.z + 1 / 10 * material.ambient.z)⟩

end Defs

/-! ## Sample data for the concrete instances -/

/-- A math library on `ℚ` whose `sqrt` is exact on squares of rationals and whose `pow`
is exact for the exponent one. -/
def ratLibm : Libm ℚ :=
  ⟨fun q => (Nat.sqrt q.num.toNat : ℚ) / (Nat.sqrt q.den : ℚ), fun x _ => x⟩

/-- The material `whiteAbsorb` of `DemoDisplay` (lines 224-230). -/
def whiteAbsorb {F : Type} [LinearOrderedField F] : Material F :=
  ⟨⟨1, 1, 1⟩, ⟨1, 1, 1⟩, ⟨1, 1, 1⟩, 1, 1, 0⟩

/-- The material `mirror` of `DemoDisplay` (lines 264-270). -/
def mirror {F : Type} [LinearOrderedField F] : Material F :=
  ⟨⟨1, 1, 1⟩, ⟨1, 1, 1⟩, ⟨1, 1, 1⟩, 50, 0, 1⟩

/-- The material `shinyGreen` of `DemoDisplay` (lines 232-238). -/
def shinyGreen {F : Type} [LinearOrderedField F] : Material F :=
  ⟨⟨0, 1, 0⟩, ⟨0, 1, 0⟩, ⟨1, 1, 1⟩, 50, 4 / 5, 1 / 5⟩

/-- The material `greyMirror` of `DemoDisplay` (lines 272-278). -/
def greyMirror {F : Type} [LinearOrderedField F] : Material F :=
  ⟨⟨1 / 2, 1 / 2, 1 / 2⟩, ⟨1 / 2, 1 / 2, 1 / 2⟩, ⟨1, 1, 1⟩, 50, 2 / 5, 3 / 5⟩

/-- A scene of two facing unit spheres, `greyMirror` at the origin and `shinyGreen` at
`(0, 0, 10)`, with reflections enabled, flat shading, no shadows and `maxReflections = 2`. -/
def facingSpheres : Globals ℚ :=
  ⟨[.sphere (Sphere.new 1 ⟨0, 0, 0⟩ greyMirror), .sphere (Sphere.new 1 ⟨0, 0, 10⟩ shinyGreen)],
    ⟨0, 10, 0⟩, false, false, true, 2, ⟨⟨0, 0, 0⟩, false, 0⟩⟩

/-! ## Theorems -/

/-! ### The primitives: every reported hit lies on the ray -/

section
variable {F : Type} [LinearOrderedField F]

theorem Sphere_Intersect_onRay (m : Libm F) (s : Sphere F) (ray : Ray F)
    (info i : IntersectInfo F) (h : s.Intersect m ray info = some (true, i)) : i.OnRay ray := by
  unfold Sphere.Intersect at h
  simp only at h
  split at h
  · simp at h
  · rename_i root0 root1 _
    split_ifs at h with h0 h1
    · simp at h
    · simp only [Option.some.injEq, Prod.mk.injEq, true_and] at h
      subst h
      exact ⟨root1, rfl, not_lt.mp h1, rfl, rfl⟩
    · simp only [Option.some.injEq, Prod.mk.injEq, true_and] at h
      subst h
      exact ⟨root0, rfl, not_lt.mp h0, rfl, rfl⟩

theorem Plane_Intersect_onRay (m : Libm F) (p : Plane F) (ray : Ray F)
    (info i : IntersectInfo F) (h : p.Intersect m ray info = some (true, i)) : i.OnRay ray := by
  unfold Plane.Intersect at h
  simp only at h
  split_ifs at h with h0 h1
  · simp at h
  · simp only [Option.some.injEq, Prod.mk.injEq, true_and] at h
    subst h
    exact ⟨_, rfl, le_of_lt h1, rfl, rfl⟩

theorem Triangle_Intersect_onRay (m : Libm F) (tr : Triangle F) (ray : Ray F)
    (info i : IntersectInfo F) (h : tr.Intersect m ray info = some (true, i)) : i.OnRay ray := by
  unfold Triangle.Intersect at h
  simp only at h
  split_ifs at h with h0 h1 h2 h3
  · simp at h
  · simp at h
  · simp at h
  · simp at h
  · simp only [Option.some.injEq, Prod.mk.injEq, true_and] at h
    subst h
    exact ⟨_, rfl, not_lt.mp h1, rfl, rfl⟩

theorem Triangle_Intersect_isSome (m : Libm F) (tr : Triangle F) (ray : Ray F)
    (info : IntersectInfo F) : (tr.Intersect m ray info).isSome := by
  unfold Triangle.Intersect
  simp only
  split_ifs <;> rfl

theorem AxisAlignedBox.face_cases (m : Libm F) (material : Material F) (ray : Ray F)
    (N facePoint : Vec3 F) (inside : Vec3 F → Bool) (info : IntersectInfo F) :
    AxisAlignedBox.face m material ray N facePoint inside info = info ∨
    ∃ t : F, 0 < t ∧ (t : WithTop F) < info.time ∧
      AxisAlignedBox.face m material ray N facePoint inside info =
        ⟨(t : F), ray.eval t, Vec3.normalize m N, some material⟩ := by
  unfold AxisAlignedBox.face
  simp only
  split_ifs with h0 h1 h2 h3
  · exact Or.inl rfl
  · exact Or.inr ⟨_, h1, h3, rfl⟩
  · exact Or.inl rfl
  · exact Or.inl rfl
  · exact Or.inl rfl

theorem AxisAlignedBox.face_onRay (m : Libm F) (material : Material F) (ray : Ray F)
    (N facePoint : Vec3 F) (inside : Vec3 F → Bool) (info : IntersectInfo F)
    (h : info.time = ⊤ ∨ info.OnRay ray) :
    (AxisAlignedBox.face m material ray N facePoint inside info).time = ⊤ ∨
      (AxisAlignedBox.face m material ray N facePoint inside info).OnRay ray := by
  rcases AxisAlignedBox.face_cases m material ray N facePoint inside info with h1 | ⟨t, ht, _, h1⟩
  · rw [h1]; exact h
  · rw [h1]; exact Or.inr ⟨t, rfl, le_of_lt ht, rfl, rfl⟩

theorem AxisAlignedBox.faces_onRay (m : Libm F) (bx : AxisAlignedBox F) (ray : Ray F)
    (info : IntersectInfo F) (hinfo : info.time = ⊤) :
    (bx.faces m ray info).time = ⊤ ∨ (bx.faces m ray info).OnRay ray := by
  unfold AxisAlignedBox.faces
  simp only
  iterate 6 apply AxisAlignedBox.face_onRay
  exact Or.inl hinfo

theorem AxisAlignedBox_Intersect_onRay (m : Libm F) (bx : AxisAlignedBox F) (ray : Ray F)
    (info i : IntersectInfo F) (hinfo : info.time = ⊤)
    (h : bx.Intersect m ray info = some (true, i)) : i.OnRay ray := by
  unfold AxisAlignedBox.Intersect at h
  simp only at h
  split_ifs at h with h0
  · simp only [Option.some.injEq, Prod.mk.injEq, true_and] at h
    rcases AxisAlignedBox.faces_onRay m bx ray info hinfo with h1 | h1
    · rw [h1] at h0; exact absurd h0 (lt_irrefl _)
    · rw [← h]; exact h1
  · simp at h

theorem AxisAlignedBox_Intersect_isSome (m : Libm F) (bx : AxisAlignedBox F) (ray : Ray F)
    (info : IntersectInfo F) : (bx.Intersect m ray info).isSome := by
  unfold AxisAlignedBox.Intersect
  simp only
  split_ifs <;> rfl

theorem Object.Hits_onRay (m : Libm F) (ray : Ray F) (obj : Object F) (i : IntersectInfo F)
    (h : obj.Hits m ray i) : i.OnRay ray := by
  cases obj with
  | sphere s => exact Sphere_Intersect_onRay m s ray _ i h
  | plane p => exact Plane_Intersect_onRay m p ray _ i h
  | triangle t => exact Triangle_Intersect_onRay m t ray _ i h
  | box b => exact AxisAlignedBox_Intersect_onRay m b ray _ i rfl h

/-! ### `CheckIntersection` -/

theorem CheckIntersection.loop_mem (m : Libm F) (ray : Ray F) (rest : List (Object F)) :
    ∀ (found : Bool) (info : IntersectInfo F) (found' : Bool) (info' : IntersectInfo F),
    CheckIntersection.loop m ray rest found info = some (found', info') →
      (found' = found ∧ info' = info) ∨ (found' = true ∧ ∃ obj ∈ rest, obj.Hits m ray info') := by
  induction rest with
  | nil =>
    intro found info found' info' h
    simp only [CheckIntersection.loop, Option.some.injEq, Prod.mk.injEq] at h
    exact Or.inl ⟨h.1.symm, h.2.symm⟩
  | cons obj rest ih =>
    intro found info found' info' h
    have lift : ∀ {fd : Bool} {inf : IntersectInfo F},
        ((found' = fd ∧ info' = inf) ∨ (found' = true ∧ ∃ o ∈ rest, o.Hits m ray info')) →
        (found' = fd ∧ info' = inf) ∨
          (found' = true ∧ ∃ o ∈ obj :: rest, o.Hits m ray info') := by
      intro fd inf hh
      rcases hh with hh | ⟨h1, o, ho, h2⟩
      · exact Or.inl hh
      · exact Or.inr ⟨h1, o, List.mem_cons_of_mem _ ho, h2⟩
    unfold CheckIntersection.loop at h
    split at h
    · simp at h
    · rename_i tempInfo hres
      have hhit : obj.Hits m ray tempInfo := hres
      split_ifs at h with h1 h2
      · rcases lift (ih _ _ _ _ h) with ⟨h3, h4⟩ | h3
        · exact Or.inr ⟨h3, obj, List.mem_cons_self _ _, h4 ▸ hhit⟩
        · exact Or.inr h3
      · rcases lift (ih _ _ _ _ h) with ⟨h3, h4⟩ | h3
        · have hf : found = true := by simpa using h1
          exact Or.inr ⟨h3.trans hf, obj, List.mem_cons_self _ _, h4 ▸ hhit⟩
        · exact Or.inr h3
      · exact lift (ih _ _ _ _ h)
    · exact lift (ih _ _ _ _ h)

theorem CheckIntersection_onRay (m : Libm F) (objects : List (Object F)) (ray : Ray F)
    (info i : IntersectInfo F) (h : CheckIntersection m objects ray info = some (true, i)) :
    i.OnRay ray := by
  rcases CheckIntersection.loop_mem m ray objects false info true i h with ⟨h1, _⟩ | ⟨_, o, _, h2⟩
  · exact absurd h1 (by decide)
  · exact Object.Hits_onRay m ray o i h2

theorem CheckIntersection_material (m : Libm F) (objects : List (Object F)) (ray : Ray F)
    (info i : IntersectInfo F) (h : CheckIntersection m objects ray info = some (true, i)) :
    i.material.isSome := by
  obtain ⟨_, _, _, _, h4⟩ := CheckIntersection_onRay m objects ray info i h
  exact h4

theorem CheckIntersection.loop_spec (m : Libm F) (ray : Ray F) (rest : List (Object F)) :
    ∀ (found : Bool) (info : IntersectInfo F),
    (∀ obj ∈ rest, (obj.Intersect m ray IntersectInfo.fresh).isSome) →
    ∃ found' info', CheckIntersection.loop m ray rest found info = some (found', info') ∧
      ((found' = found ∧ info' = info ∧
          ∀ o ∈ rest, ∀ i, o.Hits m ray i → found = true ∧ info.time ≤ i.time) ∨
       (found' = true ∧ ∃ pre obj post, rest = pre ++ obj :: post ∧ obj.Hits m ray info' ∧
          (found = true → info'.time < info.time) ∧
          (∀ o ∈ pre, ∀ i, o.Hits m ray i → info'.time < i.time) ∧
          (∀ o ∈ post, ∀ i, o.Hits m ray i → info'.time ≤ i.time))) := by
  induction rest with
  | nil =>
    intro found info _
    exact ⟨found, info, rfl, Or.inl ⟨rfl, rfl, by simp⟩⟩
  | cons obj rest ih =>
    intro found info hret
    have hobj := hret obj (List.mem_cons_self _ _)
    have hrest : ∀ o ∈ rest, (o.Intersect m ray IntersectInfo.fresh).isSome :=
      fun o ho => hret o (List.mem_cons_of_mem _ ho)
    obtain ⟨⟨b, tempInfo⟩, hres⟩ := Option.isSome_iff_exists.mp hobj
    cases b with
    | false =>
      obtain ⟨found', info', hloop, hspec⟩ := ih found info hrest
      refine ⟨found', info', ?_, ?_⟩
      · simp only [CheckIntersection.loop, hres]; exact hloop
      · rcases hspec with ⟨h1, h2, h3⟩ | ⟨h1, pre, o, post, h2, h3, h4, h5, h6⟩
        · refine Or.inl ⟨h1, h2, ?_⟩
          intro o ho i hi
          rcases List.mem_cons.mp ho with rfl | ho
          · simp [Object.Hits, hres] at hi
          · exact h3 o ho i hi
        · refine Or.inr ⟨h1, obj :: pre, o, post, by simp [h2], h3, h4, ?_, h6⟩
          intro o' ho' i hi
          rcases List.mem_cons.mp ho' with rfl | ho'
          · simp [Object.Hits, hres] at hi
          · exact h5 o' ho' i hi
    | true =>
      have hhit : obj.Hits m ray tempInfo := hres
      have huniq : ∀ i, obj.Hits m ray i → i = tempInfo := by
        intro i hi
        have := hi.symm.trans hres
        simpa using this
      cases found with
      | false =>
        obtain ⟨found', info', hloop, hspec⟩ := ih true tempInfo hrest
        refine ⟨found', info', ?_, Or.inr ?_⟩
        · simp only [CheckIntersection.loop, hres]; simpa using hloop
        · rcases hspec with ⟨h1, h2, h3⟩ | ⟨h1, pre, o, post, h2, h3, h4, h5, h6⟩
          · subst h2
            refine ⟨h1, [], obj, rest, rfl, hhit, by simp, by simp, ?_⟩
            intro o ho i hi
            exact (h3 o ho i hi).2
          · refine ⟨h1, obj :: pre, o, post, by simp [h2], h3, by simp, ?_, h6⟩
            intro o' ho' i hi
            rcases List.mem_cons.mp ho' with rfl | ho'
            · rw [huniq i hi]; exact h4 rfl
            · exact h5 o' ho' i hi
      | true =>
        by_cases hlt : tempInfo.time < info.time
        · obtain ⟨found', info', hloop, hspec⟩ := ih true tempInfo hrest
          refine ⟨found', info', ?_, Or.inr ?_⟩
          · simp only [CheckIntersection.loop, hres]; simpa [hlt] using hloop
          · rcases hspec with ⟨h1, h2, h3⟩ | ⟨h1, pre, o, post, h2, h3, h4, h5, h6⟩
            · subst h2
              refine ⟨h1, [], obj, rest, rfl, hhit, fun _ => hlt, by simp, ?_⟩
              intro o ho i hi
              exact (h3 o ho i hi).2
            · refine ⟨h1, obj :: pre, o, post, by simp [h2], h3,
                fun _ => lt_trans (h4 rfl) hlt, ?_, h6⟩
              intro o' ho' i hi
              rcases List.mem_cons.mp ho' with rfl | ho'
              · rw [huniq i hi]; exact h4 rfl
              · exact h5 o' ho' i hi
        · obtain ⟨found', info', hloop, hspec⟩ := ih true info hrest
          refine ⟨found', info', ?_, ?_⟩
          · simp only [CheckIntersection.loop, hres]; simpa [hlt] using hloop
          · rcases hspec with ⟨h1, h2, h3⟩ | ⟨h1, pre, o, post, h2, h3, h4, h5, h6⟩
            · refine Or.inl ⟨h1, h2, ?_⟩
              intro o ho i hi
              rcases List.mem_cons.mp ho with rfl | ho
              · rw [huniq i hi]; exact ⟨rfl, not_lt.mp hlt⟩
              · exact h3 o ho i hi
            · refine Or.inr ⟨h1, obj :: pre, o, post, by simp [h2], h3, h4, ?_, h6⟩
              intro o' ho' i hi
              rcases List.mem_cons.mp ho' with rfl | ho'
              · rw [huniq i hi]; exact lt_of_lt_of_le (h4 rfl) (not_lt.mp hlt)
              · exact h5 o' ho' i hi

end

section
variable {F : Type} [LinearOrderedField F]

end

section
variable {F : Type} [LinearOrderedField F]

theorem IntersectInfo.OnRay.time_nonneg {ray : Ray F} {i : IntersectInfo F} (h : i.OnRay ray) :
    ∃ t : F, i.time = (t : WithTop F) ∧ 0 ≤ t := by
  obtain ⟨t, h1, h2, _, _⟩ := h
  exact ⟨t, h1, h2⟩

theorem IntersectInfo.OnRay.hitPoint_eq {ray : Ray F} {i : IntersectInfo F} (h : i.OnRay ray) :
    ∃ t : F, i.time = (t : WithTop F) ∧
      i.hitPoint = Vec3.add ray.origin (Vec3.smul t ray.direction) := by
  obtain ⟨t, h1, _, h3, _⟩ := h
  exact ⟨t, h1, h3⟩

/-- C4 as amended. For a ray and a primitive whose stored coordinates (a stored normal
included) are at most `10^6` in absolute value, the range in which no float operation of the
call overflows: whenever `Intersect` returns `true`, the reported hit point is the ray
evaluated at the reported time, `origin + time * direction`.  For the sphere (given a
direction of squared length at least `10^-6`, so that the quadratic is not degenerate), the
plane and the triangle this holds for every `IntersectInfo` passed in; for the box it holds
for an `IntersectInfo` passed in with `time = +infinity`. -/
theorem Intersect_hitPoint_on_ray (m : Libm F) (ray : Ray F) :
    ray.origin.Within 1000000 → ray.direction.Within 1000000 →
    (∀ (s : Sphere F) (info i : IntersectInfo F),
      s.centre.Within 1000000 → |s.r_2| ≤ 1000000000000 →
      1 / 1000000 ≤ Vec3.dot ray.direction ray.direction →
      s.Intersect m ray info = some (true, i) →
      ∃ t : F, i.time = (t : WithTop F) ∧
        i.hitPoint = Vec3.add ray.origin (Vec3.smul t ray.direction)) ∧
    (∀ (p : Plane F) (info i : IntersectInfo F),
      p.p0.Within 1000000 → p.n.Within 1000000 →
      p.Intersect m ray info = some (true, i) →
      ∃ t : F, i.time = (t : WithTop F) ∧
        i.hitPoint = Vec3.add ray.origin (Vec3.smul t ray.direction)) ∧
    (∀ (tr : Triangle F) (info i : IntersectInfo F),
      tr.A.Within 1000000 → tr.B.Within 1000000 → tr.C.Within 1000000 →
      tr.normal.Within 1000000 →
      tr.Intersect m ray info = some (true, i) →
      ∃ t : F, i.time = (t : WithTop F) ∧
        i.hitPoint = Vec3.add ray.origin (Vec3.smul t ray.direction)) ∧
    (∀ (bx : AxisAlignedBox F) (info i : IntersectInfo F),
      bx.p1.Within 1000000 → bx.p2.Within 1000000 → info.time = ⊤ →
      bx.Intersect m ray info = some (true, i) →
      ∃ t : F, i.time = (t : WithTop F) ∧
        i.hitPoint = Vec3.add ray.origin (Vec3.smul t ray.direction)) :=
  -- The bounds keep the statement to the inputs on which the program's float arithmetic
  -- neither overflows nor divides zero by zero; exact arithmetic does not need them.
  fun _ _ =>
    ⟨fun s info i _ _ _ h => (Sphere_Intersect_onRay m s ray info i h).hitPoint_eq,
     fun p info i _ _ h => (Plane_Intersect_onRay m p ray info i h).hitPoint_eq,
     fun tr info i _ _ _ _ h => (Triangle_Intersect_onRay m tr ray info i h).hitPoint_eq,
     fun bx info i _ _ hinfo h =>
      (AxisAlignedBox_Intersect_onRay m bx ray info i hinfo h).hitPoint_eq⟩

end

section
variable {F : Type} [LinearOrderedField F]

/-! ### `solveQuadraticEquation` -/

theorem Libm.SqrtLawful.sqrt_pos {m : Libm F} (hm : m.SqrtLawful) {x : F} (hx : 0 < x) :
    0 < m.sqrt x := by
  obtain ⟨h1, h2⟩ := hm x (le_of_lt hx)
  rcases eq_or_lt_of_le h1 with h | h
  · rw [← h] at h2; simp at h2; exact absurd h2.symm (ne_of_gt hx)
  · exact h

theorem Libm.SqrtLawful.sqrt_zero {m : Libm F} (hm : m.SqrtLawful) : m.sqrt 0 = 0 := by
  obtain ⟨_, h2⟩ := hm 0 le_rfl
  exact mul_self_eq_zero.mp h2

theorem Libm.SqrtLawful.sqrt_mul_self {m : Libm F} (hm : m.SqrtLawful) {r : F} (hr : 0 ≤ r) :
    m.sqrt (r * r) = r := by
  obtain ⟨h1, h2⟩ := hm (r * r) (mul_self_nonneg r)
  exact (mul_self_inj h1 hr).mp h2

theorem quadraticQ_ne_zero (m : Libm F) (hm : m.SqrtLawful) (b d : F) (hd : 0 < d) :
    quadraticQ m b d ≠ 0 := by
  have hs := hm.sqrt_pos hd
  unfold quadraticQ
  split_ifs with hb
  · have : b + m.sqrt d > 0 := add_pos hb hs
    intro h
    have : b + m.sqrt d = 0 := by linarith
    linarith
  · have hb' : b ≤ 0 := not_lt.mp hb
    intro h
    have : b - m.sqrt d = 0 := by linarith
    linarith

theorem solveQuadraticEquation_none (m : Libm F) (a b c : F) (hd : b * b - 4 * a * c < 0) :
    solveQuadraticEquation m a b c = none := by
  unfold solveQuadraticEquation
  simp only [hd, if_true]

theorem solveQuadraticEquation_some (m : Libm F) (hm : m.SqrtLawful) (a b c : F) (ha : a ≠ 0)
    (hd : 0 ≤ b * b - 4 * a * c) :
    solveQuadraticEquation m a b c =
      some (min ((-b - m.sqrt (b * b - 4 * a * c)) / (2 * a))
              ((-b + m.sqrt (b * b - 4 * a * c)) / (2 * a)),
            max ((-b - m.sqrt (b * b - 4 * a * c)) / (2 * a))
              ((-b + m.sqrt (b * b - 4 * a * c)) / (2 * a))) := by
  have sort : ∀ x y : F, (if x > y then some (y, x) else some (x, y)) = some (min x y, max x y) := by
    intro x y
    split_ifs with h
    · rw [min_eq_right (le_of_lt h), max_eq_left (le_of_lt h)]
    · rw [min_eq_left (not_lt.mp h), max_eq_right (not_lt.mp h)]
  obtain ⟨hs0, hss⟩ := hm _ hd
  unfold solveQuadraticEquation
  simp only [not_lt.mpr hd, if_false]
  have h2a : (2 : F) * a ≠ 0 := mul_ne_zero two_ne_zero ha
  by_cases hz : b * b - 4 * a * c = 0
  · have e : -(1 / 2) * b / a = -b / (2 * a) := by
      rw [div_eq_div_iff ha h2a]; ring
    simp only [hz, if_true, hm.sqrt_zero, gt_iff_lt, lt_self_iff_false, if_false, sub_zero,
      add_zero, min_self, max_self, e]
  · simp only [hz, if_false]
    have hpos : 0 < b * b - 4 * a * c := lt_of_le_of_ne hd (Ne.symm hz)
    have hq := quadraticQ_ne_zero m hm b _ hpos
    rw [sort]
    unfold quadraticQ at hq ⊢
    split_ifs at hq ⊢ with hb
    · have e1 : -(1 / 2) * (b + m.sqrt (b * b - 4 * a * c)) / a =
          (-b - m.sqrt (b * b - 4 * a * c)) / (2 * a) := by
        rw [div_eq_div_iff ha h2a]; ring
      have e2 : c / (-(1 / 2) * (b + m.sqrt (b * b - 4 * a * c))) =
          (-b + m.sqrt (b * b - 4 * a * c)) / (2 * a) := by
        rw [div_eq_div_iff hq h2a]; linear_combination (1 / 2) * hss
      rw [e1, e2]
    · have e1 : -(1 / 2) * (b - m.sqrt (b * b - 4 * a * c)) / a =
          (-b + m.sqrt (b * b - 4 * a * c)) / (2 * a) := by
        rw [div_eq_div_iff ha h2a]; ring
      have e2 : c / (-(1 / 2) * (b - m.sqrt (b * b - 4 * a * c))) =
          (-b - m.sqrt (b * b - 4 * a * c)) / (2 * a) := by
        rw [div_eq_div_iff hq h2a]; linear_combination (1 / 2) * hss
      rw [e1, e2, min_comm, max_comm]

end

section
variable {F : Type} [LinearOrderedField F]

/-- C5. For `a ≠ 0`, `solveQuadraticEquation` returns `true` exactly when
`a*t^2 + b*t + c = 0` has a root, which is exactly when `b^2 - 4ac ≥ 0`; the roots it then
returns are in ascending order, are the two numbers `(-b - sqrt D)/(2a)` and
`(-b + sqrt D)/(2a)` sorted, solve the equation, and both equal `-b/(2a)` when `D = 0`; in the
branch with two distinct roots the intermediate `q` is not zero. -/
theorem solveQuadraticEquation_roots (m : Libm F) (hm : m.SqrtLawful) (a b c : F) (ha : a ≠ 0) :
    ((solveQuadraticEquation m a b c).isSome ↔ ∃ t : F, a * t * t + b * t + c = 0) ∧
    ((solveQuadraticEquation m a b c).isSome ↔ 0 ≤ b * b - 4 * a * c) ∧
    (∀ root0 root1 : F, solveQuadraticEquation m a b c = some (root0, root1) →
      root0 ≤ root1 ∧
      root0 = min ((-b - m.sqrt (b * b - 4 * a * c)) / (2 * a))
                ((-b + m.sqrt (b * b - 4 * a * c)) / (2 * a)) ∧
      root1 = max ((-b - m.sqrt (b * b - 4 * a * c)) / (2 * a))
                ((-b + m.sqrt (b * b - 4 * a * c)) / (2 * a)) ∧
      a * root0 * root0 + b * root0 + c = 0 ∧ a * root1 * root1 + b * root1 + c = 0 ∧
      (b * b - 4 * a * c = 0 → root0 = -b / (2 * a) ∧ root1 = -b / (2 * a))) ∧
    (0 < b * b - 4 * a * c → quadraticQ m b (b * b - 4 * a * c) ≠ 0) := by
  have h2a : (2 : F) * a ≠ 0 := mul_ne_zero two_ne_zero ha
  have hiff : (solveQuadraticEquation m a b c).isSome ↔ 0 ≤ b * b - 4 * a * c := by
    constructor
    · intro h
      by_contra hd
      rw [solveQuadraticEquation_none m a b c (not_le.mp hd)] at h
      simp at h
    · intro hd
      rw [solveQuadraticEquation_some m hm a b c ha hd]; rfl
  have hroot : ∀ s : F, s * s = b * b - 4 * a * c → ∀ r : F,
      (r = (-b - s) / (2 * a) ∨ r = (-b + s) / (2 * a)) → a * r * r + b * r + c = 0 := by
    intro s hs r hr
    have key : 4 * a * (a * r * r + b * r + c) = 0 := by
      rcases hr with hr | hr
      · have : r * (2 * a) = -b - s := by rw [hr]; field_simp
        linear_combination (2 * a * r + b - s) * this + hs
      · have : r * (2 * a) = -b + s := by rw [hr]; field_simp
        linear_combination (2 * a * r + b + s) * this + hs
    rcases mul_eq_zero.mp key with h | h
    · exact absurd h (mul_ne_zero four_ne_zero ha)
    · exact h
  refine ⟨?_, hiff, ?_, fun hd => quadraticQ_ne_zero m hm b _ hd⟩
  · rw [hiff]
    constructor
    · intro hd
      exact ⟨_, hroot _ (hm _ hd).2 _ (Or.inl rfl)⟩
    · rintro ⟨t, ht⟩
      have : b * b - 4 * a * c = (2 * a * t + b) * (2 * a * t + b) := by
        linear_combination (-4 * a) * ht
      rw [this]; exact mul_self_nonneg _
  · intro root0 root1 h
    have hd : 0 ≤ b * b - 4 * a * c := hiff.mp (by rw [h]; rfl)
    rw [solveQuadraticEquation_some m hm a b c ha hd] at h
    simp only [Option.some.injEq, Prod.mk.injEq] at h
    obtain ⟨h0, h1⟩ := h
    refine ⟨?_, h0.symm, h1.symm, ?_, ?_, ?_⟩
    · rw [← h0, ← h1]; exact min_le_max
    · apply hroot _ (hm _ hd).2
      rw [← h0]; exact min_choice _ _
    · apply hroot _ (hm _ hd).2
      rw [← h1]; exact max_choice _ _
    · intro hz
      rw [← h0, ← h1, hz, hm.sqrt_zero]
      simp
end

theorem realLibm_sqrtLawful : (Libm.mk Real.sqrt (fun x y => x ^ y) : Libm ℝ).SqrtLawful :=
  fun x hx => ⟨Real.sqrt_nonneg x, Real.mul_self_sqrt hx⟩

/-- C5 at `t^2 - 1 = 0` over the real numbers with the real square root. -/
theorem solveQuadraticEquation_roots_witness :
    (1 : ℝ) ≠ 0 ∧
    ((solveQuadraticEquation (Libm.mk Real.sqrt (fun x y => x ^ y)) (1 : ℝ) 0 (-1)).isSome ↔
      ∃ t : ℝ, 1 * t * t + 0 * t + -1 = 0) :=
  ⟨one_ne_zero, (solveQuadraticEquation_roots (Libm.mk Real.sqrt (fun x y => x ^ y))
    realLibm_sqrtLawful (1 : ℝ) 0 (-1) one_ne_zero).1⟩

section
variable {F : Type} [LinearOrderedField F]

/-! ### `Sphere::Intersect` -/

end

section
variable {F : Type} [LinearOrderedField F]

theorem Sphere_Intersect_of_roots (m : Libm F) (s : Sphere F) (ray : Ray F)
    (info : IntersectInfo F) (root0 root1 : F)
    (h : solveQuadraticEquation m (Vec3.dot ray.direction ray.direction)
      (2 * Vec3.dot ray.direction (Vec3.sub ray.origin s.centre))
      (Vec3.dot (Vec3.sub ray.origin s.centre) (Vec3.sub ray.origin s.centre) - s.r_2) =
        some (root0, root1)) :
    (0 ≤ root0 → s.Intersect m ray info = some (true, ⟨(root0 : F), ray.eval root0,
      Vec3.normalize m (Vec3.sub (ray.eval root0) s.centre), some s.material⟩)) ∧
    (root0 < 0 → 0 ≤ root1 → s.Intersect m ray info = some (true, ⟨(root1 : F), ray.eval root1,
      Vec3.normalize m (Vec3.sub (ray.eval root1) s.centre), some s.material⟩)) ∧
    (root0 < 0 → root1 < 0 → s.Intersect m ray info = some (false, info)) := by
  unfold Sphere.Intersect
  simp only [h]
  refine ⟨fun h0 => ?_, fun h0 h1 => ?_, fun h0 h1 => ?_⟩
  · rw [if_neg (not_lt.mpr h0)]
  · rw [if_pos h0, if_neg (not_lt.mpr h1)]
  · rw [if_pos h0, if_pos h1]

end

section
variable {F : Type} [LinearOrderedField F]

end

section
variable {F : Type} [LinearOrderedField F]

/-! ### `Plane::Intersect` -/

theorem Plane_Intersect_of_parallel (m : Libm F) (p : Plane F) (ray : Ray F)
    (info : IntersectInfo F) (h : |Vec3.dot ray.direction p.n| < 1 / 1000000) :
    p.Intersect m ray info = some (false, info) := by
  unfold Plane.Intersect
  simp only [h, if_true]

/-- C8. When the ray direction is exactly perpendicular to the stored plane normal, and more
generally whenever `|dot(direction, n)| < 1e-6`, `Plane::Intersect` returns `false` and leaves
the info unchanged, for every ray origin. -/
theorem Plane_Intersect_parallel_miss (m : Libm F) (p : Plane F) (direction : Vec3 F)
    (info : IntersectInfo F) :
    (Vec3.dot direction p.n = 0 →
      ∀ origin : Vec3 F, p.Intersect m ⟨origin, direction⟩ info = some (false, info)) ∧
    (|Vec3.dot direction p.n| < 1 / 1000000 →
      ∀ origin : Vec3 F, p.Intersect m ⟨origin, direction⟩ info = some (false, info)) := by
  refine ⟨fun h origin => ?_, fun h origin => ?_⟩
  · apply Plane_Intersect_of_parallel
    show |Vec3.dot direction p.n| < 1 / 1000000
    rw [h, abs_zero]; positivity
  · exact Plane_Intersect_of_parallel m p ⟨origin, direction⟩ info h

/-- C9. For a plane with a unit stored normal `n` and a ray with `|dot(direction, n)| ≥ 1e-6`
whose plane parameter `t = dot(p0 - origin, n) / dot(direction, n)` is positive,
`Plane::Intersect` returns `true` with time `t` and normal `n`, and the reported hit point
lies on the plane. -/
theorem Plane_Intersect_hit (m : Libm F) (hm : m.SqrtLawful) (p : Plane F) (ray : Ray F)
    (info : IntersectInfo F) (hunit : Vec3.dot p.n p.n = 1)
    (hden : 1 / 1000000 ≤ |Vec3.dot ray.direction p.n|)
    (ht : 0 < Vec3.dot (Vec3.sub p.p0 ray.origin) p.n / Vec3.dot ray.direction p.n) :
    ∃ i, p.Intersect m ray info = some (true, i) ∧
      i.time = ((Vec3.dot (Vec3.sub p.p0 ray.origin) p.n / Vec3.dot ray.direction p.n : F) :
        WithTop F) ∧
      i.normal = p.n ∧
      Vec3.dot (Vec3.sub i.hitPoint p.p0) p.n = 0 := by
  have hne : Vec3.dot ray.direction p.n ≠ 0 := by
    intro h0
    rw [h0, abs_zero] at hden
    exact absurd hden (not_le.mpr (by positivity))
  refine ⟨⟨((Vec3.dot (Vec3.sub p.p0 ray.origin) p.n / Vec3.dot ray.direction p.n : F) :
      WithTop F), ray.eval (Vec3.dot (Vec3.sub p.p0 ray.origin) p.n / Vec3.dot ray.direction p.n),
      Vec3.normalize m p.n, some p.material⟩, ?_, rfl, ?_, ?_⟩
  · unfold Plane.Intersect
    simp only [not_lt.mpr hden, if_false, gt_iff_lt, ht, if_true]
  · show Vec3.normalize m p.n = p.n
    unfold Vec3.normalize
    rw [hunit]
    have : m.sqrt 1 = 1 := by
      have := hm.sqrt_mul_self (zero_le_one (α := F))
      rwa [mul_one] at this
    rw [this]
    simp [Vec3.smul]
  · show Vec3.dot (Vec3.sub (ray.eval _) p.p0) p.n = 0
    have key : Vec3.dot (Vec3.sub p.p0 ray.origin) p.n / Vec3.dot ray.direction p.n *
        Vec3.dot ray.direction p.n = Vec3.dot (Vec3.sub p.p0 ray.origin) p.n :=
      div_mul_cancel₀ _ hne
    generalize Vec3.dot (Vec3.sub p.p0 ray.origin) p.n / Vec3.dot ray.direction p.n = t at key
    simp only [Ray.eval, Vec3.dot, Vec3.sub, Vec3.add, Vec3.smul] at key ⊢
    linear_combination key

end

/-- C8 at a ray that starts in the plane `z = 0` and runs inside it. -/
theorem Plane_Intersect_parallel_miss_witness :
    (Plane.mk ⟨0, 0, 0⟩ ⟨0, 0, 1⟩ whiteAbsorb : Plane ℚ).Intersect ratLibm
      ⟨⟨3, 4, 0⟩, ⟨1, 0, 0⟩⟩ IntersectInfo.fresh = some (false, IntersectInfo.fresh) :=
  (Plane_Intersect_parallel_miss ratLibm (Plane.mk ⟨0, 0, 0⟩ ⟨0, 0, 1⟩ whiteAbsorb) ⟨1, 0, 0⟩
    IntersectInfo.fresh).1 (by simp [Vec3.dot]) ⟨3, 4, 0⟩

/-- C9 over the real numbers: the back wall `z = 0` seen from `(0, 0, 5)` along `-z`. -/
theorem Plane_Intersect_hit_witness :
    ∃ i, (Plane.mk ⟨0, 0, 0⟩ ⟨0, 0, 1⟩ whiteAbsorb : Plane ℝ).Intersect
        (Libm.mk Real.sqrt (fun x y => x ^ y)) ⟨⟨0, 0, 5⟩, ⟨0, 0, -1⟩⟩ IntersectInfo.fresh =
          some (true, i) ∧
      i.time = ((Vec3.dot (Vec3.sub ⟨0, 0, 0⟩ ⟨0, 0, 5⟩) ⟨0, 0, 1⟩ /
        Vec3.dot ⟨0, 0, -1⟩ ⟨0, 0, 1⟩ : ℝ) : WithTop ℝ) ∧
      i.normal = ⟨0, 0, 1⟩ ∧
      Vec3.dot (Vec3.sub i.hitPoint ⟨0, 0, 0⟩) ⟨0, 0, 1⟩ = 0 :=
  Plane_Intersect_hit (Libm.mk Real.sqrt (fun x y => x ^ y)) realLibm_sqrtLawful
    (Plane.mk ⟨0, 0, 0⟩ ⟨0, 0, 1⟩ whiteAbsorb) ⟨⟨0, 0, 5⟩, ⟨0, 0, -1⟩⟩ IntersectInfo.fresh
    (by simp [Vec3.dot]) (by simp [Vec3.dot]; norm_num) (by simp [Vec3.dot, Vec3.sub])

theorem Plane_Intersect_no_return {F : Type} [LinearOrderedField F] (m : Libm F) (p : Plane F)
    (ray : Ray F) (info : IntersectInfo F)
    (hden : 1 / 1000000 ≤ |Vec3.dot ray.direction p.n|)
    (ht : Vec3.dot (Vec3.sub p.p0 ray.origin) p.n / Vec3.dot ray.direction p.n ≤ 0) :
    p.Intersect m ray info = none := by
  unfold Plane.Intersect
  simp only [not_lt.mpr hden, if_false, gt_iff_lt, not_lt.mpr ht]

/-- C10. The back wall of scene 1 (`p0 = (0, 0, 0)`, `n = (0, 0, 1)`) and the ray from
`(0, 0, 1)` with direction `(0, 0, 1)`: the ray is not near-parallel and the plane parameter
is `-1`, so `Plane::Intersect` reaches the end of its body without a `return` statement and
yields no defined result, where the claim requires the value `false`. -/
theorem Plane_Intersect_behind_undefined :
    |Vec3.dot (⟨0, 0, 1⟩ : Vec3 ℚ) ⟨0, 0, 1⟩| ≥ 1 / 1000000 ∧
    Vec3.dot (Vec3.sub ⟨0, 0, 0⟩ ⟨0, 0, 1⟩) (⟨0, 0, 1⟩ : Vec3 ℚ) /
      Vec3.dot (⟨0, 0, 1⟩ : Vec3 ℚ) ⟨0, 0, 1⟩ = -1 ∧
    (Plane.new ratLibm ⟨0, 0, 0⟩ ⟨0, 0, 1⟩ mirror).Intersect ratLibm
      ⟨⟨0, 0, 1⟩, ⟨0, 0, 1⟩⟩ IntersectInfo.fresh = none ∧
    (Plane.new ratLibm ⟨0, 0, 0⟩ ⟨0, 0, 1⟩ mirror).Intersect ratLibm
      ⟨⟨0, 0, 1⟩, ⟨0, 0, 1⟩⟩ IntersectInfo.fresh ≠ some (false, IntersectInfo.fresh) := by
  have hn : (Plane.new ratLibm ⟨0, 0, 0⟩ ⟨0, 0, 1⟩ mirror) =
      (Plane.mk ⟨0, 0, 0⟩ ⟨0, 0, 1⟩ mirror : Plane ℚ) := by
    simp [Plane.new, Vec3.normalize, Vec3.smul, Vec3.dot, ratLibm]
  have h : (Plane.new ratLibm ⟨0, 0, 0⟩ ⟨0, 0, 1⟩ mirror).Intersect ratLibm
      ⟨⟨0, 0, 1⟩, ⟨0, 0, 1⟩⟩ IntersectInfo.fresh = none := by
    rw [hn]
    apply Plane_Intersect_no_return <;> norm_num [Vec3.dot, Vec3.sub]
  refine ⟨by simp [Vec3.dot]; norm_num, by simp [Vec3.dot, Vec3.sub], h, ?_⟩
  rw [h]; simp

section
variable {F : Type} [LinearOrderedField F]

/-! ### `CastRay`: the chain of nested calls -/

theorem CastRayTrace_calls_cases (m : Libm F) (g : Globals F) (ray : Ray F)
    (payload : Payload F) :
    (CastRayTrace m g ray payload).1 = [] ∨
    (g.activateReflections = true ∧ payload.numBounces + 1 ≤ g.maxReflections ∧
      ∃ (ray' : Ray F) (payload' : Payload F),
        payload'.numBounces = payload.numBounces + 1 ∧
        (CastRayTrace m g ray payload).1 =
          (payload.numBounces + 1) :: (CastRayTrace m g ray' payload').1) := by
  rw [CastRayTrace]
  simp only []
  repeat' split
  all_goals first
    | exact Or.inl rfl
    | exact Or.inr ⟨by assumption, (by assumption : _ ∧ _).2, _, _, rfl, rfl⟩

theorem CastRayTrace_calls (m : Libm F) (g : Globals F) :
    ∀ (n : Nat) (ray : Ray F) (payload : Payload F),
      (g.maxReflections + 1 - payload.numBounces).toNat = n →
      List.Chain (fun a b => b = a + 1) payload.numBounces (CastRayTrace m g ray payload).1 ∧
      (∀ x ∈ (CastRayTrace m g ray payload).1, x ≤ g.maxReflections) ∧
      (g.activateReflections = false → (CastRayTrace m g ray payload).1 = []) := by
  intro n
  induction n using Nat.strong_induction_on with
  | _ n ih =>
    intro ray payload hn
    rcases CastRayTrace_calls_cases m g ray payload with h | ⟨hr, hb, ray', payload', hp, h⟩
    · rw [h]; simp
    · obtain ⟨ih1, ih2, -⟩ := ih ((g.maxReflections + 1 - payload'.numBounces).toNat)
        (by rw [← hn, hp]; omega) ray' payload' rfl
      rw [h]
      refine ⟨List.Chain.cons rfl (hp ▸ ih1), ?_, ?_⟩
      · intro x hx
        rcases List.mem_cons.mp hx with rfl | hx
        · exact hb
        · exact ih2 x hx
      · intro hf; rw [hf] at hr; exact absurd hr (by decide)

theorem chain_succ_length (l : List Int) :
    ∀ (a M : Int), List.Chain (fun a b => b = a + 1) a l → (∀ x ∈ l, x ≤ M) → a ≤ M →
      a + l.length ≤ M ∧ ∀ x ∈ l, a < x := by
  induction l with
  | nil => intro a M _ _ h; simp [h]
  | cons b l ih =>
    intro a M hc hM _
    rw [List.chain_cons] at hc
    obtain ⟨hb, hc⟩ := hc
    have hbM : b ≤ M := hM b (List.mem_cons_self _ _)
    obtain ⟨h1, h2⟩ := ih b M hc (fun x hx => hM x (List.mem_cons_of_mem _ hx)) hbM
    constructor
    · simp only [List.length_cons, Nat.cast_add, Nat.cast_one]; omega
    · intro x hx
      rcases List.mem_cons.mp hx with rfl | hx
      · omega
      · have := h2 x hx; omega

end

section
variable {F : Type} [LinearOrderedField F]

theorem CheckIntersection_isSome (m : Libm F) (objects : List (Object F)) (ray : Ray F)
    (info : IntersectInfo F)
    (hret : ∀ obj ∈ objects, (obj.Intersect m ray IntersectInfo.fresh).isSome) :
    (CheckIntersection m objects ray info).isSome := by
  obtain ⟨found, info', h, _⟩ := CheckIntersection.loop_spec m ray objects false info hret
  unfold CheckIntersection
  rw [h]; rfl

theorem CastRay_shadow_isSome (m : Libm F) (g : Globals F) (hitPoint_fix lightVec : Vec3 F)
    (shadowed : Bool)
    (hret : ∀ ray' : Ray F, ∀ obj ∈ g.objects, (obj.Intersect m ray' IntersectInfo.fresh).isSome) :
    (CastRay.shadow m g hitPoint_fix lightVec shadowed).isSome := by
  unfold CastRay.shadow
  split_ifs with h
  · have := CheckIntersection_isSome m g.objects ⟨hitPoint_fix, lightVec⟩ IntersectInfo.fresh
      (hret _)
    simp only []
    split
    · rename_i heq; rw [heq] at this; simp at this
    · split_ifs <;> rfl
  · rfl

theorem CastRayTrace_isSome (m : Libm F) (g : Globals F)
    (hret : ∀ ray' : Ray F, ∀ obj ∈ g.objects, (obj.Intersect m ray' IntersectInfo.fresh).isSome) :
    ∀ (n : Nat) (ray : Ray F) (payload : Payload F),
      (g.maxReflections + 1 - payload.numBounces).toNat = n →
      (CastRayTrace m g ray payload).2.isSome := by
  intro n
  induction n using Nat.strong_induction_on with
  | _ n ih =>
    intro ray payload hn
    have hci := CheckIntersection_isSome m g.objects ray IntersectInfo.fresh (hret ray)
    rw [CastRayTrace]
    simp only []
    split
    · rename_i heq; rw [heq] at hci; simp at hci
    · rfl
    · rename_i info heq
      have hmat := CheckIntersection_material m g.objects ray _ info heq
      split
      · rename_i heq2; rw [heq2] at hmat; simp at hmat
      · have hsh := CastRay_shadow_isSome m g
          (Vec3.add info.hitPoint (Vec3.smul (1 / 10) info.normal))
          (Vec3.normalize m (Vec3.sub g.lightPos
            (Vec3.add info.hitPoint (Vec3.smul (1 / 10) info.normal)))) payload.shadowed hret
        split
        · rename_i heq3; rw [heq3] at hsh; simp at hsh
        · split_ifs with hr hb
          · have hb2 : payload.numBounces + 1 ≤ g.maxReflections := hb.2
            split
            · rename_i heq4
              have := ih ((g.maxReflections + 1 - (payload.numBounces + 1)).toNat)
                (by rw [← hn]; omega)
                ⟨Vec3.add info.hitPoint (Vec3.smul (1 / 10) info.normal),
                  Vec3.normalize m (Vec3.sub ray.direction
                    (Vec3.smul (Vec3.dot ray.direction info.normal) (Vec3.smul 2 info.normal)))⟩
                ⟨g.freshPayload.color, g.freshPayload.shadowed, payload.numBounces + 1⟩ rfl
              rw [heq4] at this; simp at this
            · rfl
          · rfl
          · rfl

/-- C2. `CastRay` is a total function.  Started from a payload with `numBounces = 0` and with
`maxReflections ≥ 0`, the chain of nested `CastRay` calls has at most `maxReflections` links;
each nested call is entered with `numBounces` one larger than the call that makes it, so with
a value that is positive and at most `maxReflections`; with reflections disabled no nested
call is made; and when every `Intersect` call of the scene returns, `CastRay` returns a
value. -/
theorem CastRay_recursion_depth (m : Libm F) (g : Globals F) (ray : Ray F) (payload : Payload F)
    (h0 : payload.numBounces = 0) (hmax : 0 ≤ g.maxReflections) :
    ((CastRayTrace m g ray payload).1.length : Int) ≤ g.maxReflections ∧
    List.Chain (fun a b => b = a + 1) 0 (CastRayTrace m g ray payload).1 ∧
    (∀ x ∈ (CastRayTrace m g ray payload).1, 0 < x ∧ x ≤ g.maxReflections) ∧
    (g.activateReflections = false → (CastRayTrace m g ray payload).1 = []) ∧
    ((∀ ray' : Ray F, ∀ obj ∈ g.objects, (obj.Intersect m ray' IntersectInfo.fresh).isSome) →
      (CastRay m g ray payload).isSome) := by
  obtain ⟨h1, h2, h3⟩ := CastRayTrace_calls m g _ ray payload rfl
  rw [h0] at h1
  obtain ⟨h4, h5⟩ := chain_succ_length _ 0 g.maxReflections h1 h2 hmax
  refine ⟨by omega, h1, fun x hx => ⟨h5 x hx, h2 x hx⟩, h3, fun hret => ?_⟩
  exact CastRayTrace_isSome m g hret _ ray payload rfl

end

/-! ### `CastRay`: unfolding lemmas and a concrete run -/

theorem ratLibm_sqrt_one : ratLibm.sqrt 1 = 1 := by
  simp [ratLibm]

theorem ratLibm_sqrt_four : ratLibm.sqrt 4 = 2 := by
  have h1 : ((4 : ℚ).num).toNat = 4 := rfl
  have h2 : (4 : ℚ).den = 1 := rfl
  have h3 : Nat.sqrt 4 = 2 := Nat.sqrt_eq 2
  simp only [ratLibm, h1, h2, h3]
  norm_num

theorem mirrorSphere_primary :
    (Sphere.new 1 ⟨0, 0, 0⟩ mirror).Intersect ratLibm ⟨⟨0, 0, 5⟩, ⟨0, 0, -1⟩⟩ IntersectInfo.fresh =
      some (true, ⟨((4 : ℚ) : WithTop ℚ), ⟨0, 0, 1⟩, ⟨0, 0, 1⟩, some mirror⟩) := by
  have hs : solveQuadraticEquation ratLibm (1 : ℚ) (-10) 24 = some (4, 6) := by
    unfold solveQuadraticEquation quadraticQ
    norm_num [ratLibm_sqrt_four]
  unfold Sphere.Intersect
  norm_num [Sphere.new, Vec3.dot, Vec3.sub, hs, Ray.eval, Vec3.add, Vec3.smul, Vec3.normalize,
    ratLibm_sqrt_one]

theorem mirrorSphere_reflected :
    (Sphere.new 1 ⟨0, 0, 0⟩ mirror).Intersect ratLibm ⟨⟨0, 0, 11 / 10⟩, ⟨0, 0, 1⟩⟩
      IntersectInfo.fresh = some (false, IntersectInfo.fresh) := by
  have hs : solveQuadraticEquation ratLibm (1 : ℚ) (11 / 5) (21 / 100) =
      some (-(21 / 10), -(1 / 10)) := by
    unfold solveQuadraticEquation quadraticQ
    norm_num [ratLibm_sqrt_four]
  unfold Sphere.Intersect
  norm_num [Sphere.new, Vec3.dot, Vec3.sub, hs]

section
variable {F : Type} [LinearOrderedField F]

theorem CastRayTrace_miss (m : Libm F) (g : Globals F) (ray : Ray F) (payload : Payload F)
    (i : IntersectInfo F)
    (h : CheckIntersection m g.objects ray IntersectInfo.fresh = some (false, i)) :
    CastRayTrace m g ray payload = ([], some (0, payload)) := by
  rw [CastRayTrace]
  simp only [h]

theorem CastRayTrace_hit_reflect (m : Libm F) (g : Globals F) (ray : Ray F) (payload : Payload F)
    (info : IntersectInfo F) (material : Material F) (shadowed : Bool)
    (calls : List Int) (t : WithTop F) (refPayload : Payload F)
    (hhit : CheckIntersection m g.objects ray IntersectInfo.fresh = some (true, info))
    (hmat : info.material = some material)
    (hsh : CastRay.shadow m g (Vec3.add info.hitPoint (Vec3.smul (1 / 10) info.normal))
      (Vec3.normalize m (Vec3.sub g.lightPos
        (Vec3.add info.hitPoint (Vec3.smul (1 / 10) info.normal)))) payload.shadowed =
        some shadowed)
    (hrefl : g.activateReflections = true) (hK : material.Kreflectivity > 0)
    (hb : payload.numBounces + 1 ≤ g.maxReflections)
    (hsub : CastRayTrace m g
      ⟨Vec3.add info.hitPoint (Vec3.smul (1 / 10) info.normal),
        Vec3.normalize m (Vec3.sub ray.direction
          (Vec3.smul (Vec3.dot ray.direction info.normal) (Vec3.smul 2 info.normal)))⟩
      ⟨g.freshPayload.color, g.freshPayload.shadowed, payload.numBounces + 1⟩ =
        (calls, some (t, refPayload))) :
    CastRayTrace m g ray payload =
      ((payload.numBounces + 1) :: calls, some (info.time,
        ⟨Vec3.add
          (CastRay.localColor m g ray info material
            (Vec3.add info.hitPoint (Vec3.smul (1 / 10) info.normal))
            (Vec3.normalize m (Vec3.sub g.lightPos
              (Vec3.add info.hitPoint (Vec3.smul (1 / 10) info.normal))))
            ⟨payload.color, shadowed, payload.numBounces⟩)
          (Vec3.smul material.Kreflectivity refPayload.color),
         shadowed, payload.numBounces + 1⟩)) := by
  rw [CastRayTrace]
  simp only [hhit, hmat, hsh, hrefl, if_true, hK, hb, and_self, dite_true, hsub]

theorem CastRayTrace_hit_local (m : Libm F) (g : Globals F) (ray : Ray F) (payload : Payload F)
    (info : IntersectInfo F) (material : Material F) (shadowed : Bool)
    (hhit : CheckIntersection m g.objects ray IntersectInfo.fresh = some (true, info))
    (hmat : info.material = some material)
    (hsh : CastRay.shadow m g (Vec3.add info.hitPoint (Vec3.smul (1 / 10) info.normal))
      (Vec3.normalize m (Vec3.sub g.lightPos
        (Vec3.add info.hitPoint (Vec3.smul (1 / 10) info.normal)))) payload.shadowed =
        some shadowed)
    (hno : g.activateReflections = false ∨
      ¬ (material.Kreflectivity > 0 ∧ payload.numBounces + 1 ≤ g.maxReflections)) :
    CastRayTrace m g ray payload =
      ([], some (info.time,
        ⟨CastRay.localColor m g ray info material
            (Vec3.add info.hitPoint (Vec3.smul (1 / 10) info.normal))
            (Vec3.normalize m (Vec3.sub g.lightPos
              (Vec3.add info.hitPoint (Vec3.smul (1 / 10) info.normal))))
            ⟨payload.color, shadowed, payload.numBounces⟩,
         shadowed,
         if g.activateReflections then payload.numBounces + 1 else payload.numBounces⟩)) := by
  rw [CastRayTrace]
  simp only [hhit, hmat, hsh]
  by_cases hr : g.activateReflections = true
  · have hno' := hno.resolve_left (by simp [hr])
    simp only [hr, if_true, hno', dite_false]
  · simp only [hr, if_false]
    rfl

end

section
variable {F : Type} [LinearOrderedField F]

theorem CastRay_shadow_off (m : Libm F) (g : Globals F) (hitPoint_fix lightVec : Vec3 F)
    (shadowed : Bool) (h : g.activateShadows = false) :
    CastRay.shadow m g hitPoint_fix lightVec shadowed = some shadowed := by
  unfold CastRay.shadow
  simp only [h, Bool.false_eq_true, if_false]

end

/-- A run with one nested call: the ray from `(0, 0, 5)` towards `-z` hits a unit mirror
sphere at time 4, and the reflected ray leaves the scene. -/
theorem CastRayTrace_mirrorSphere :
    CastRayTrace ratLibm
      ⟨[.sphere (Sphere.new 1 ⟨0, 0, 0⟩ mirror)], ⟨0, 0, 10⟩, false, false, true, 5,
        ⟨⟨0, 0, 0⟩, false, 0⟩⟩
      ⟨⟨0, 0, 5⟩, ⟨0, 0, -1⟩⟩ ⟨⟨0, 0, 0⟩, false, 0⟩ =
    ([1], some (((4 : ℚ) : WithTop ℚ), ⟨⟨0, 0, 0⟩, false, 1⟩)) := by
  have hdir : Vec3.normalize ratLibm (Vec3.sub (⟨0, 0, -1⟩ : Vec3 ℚ)
      (Vec3.smul (Vec3.dot ⟨0, 0, -1⟩ ⟨0, 0, 1⟩) (Vec3.smul 2 ⟨0, 0, 1⟩))) = ⟨0, 0, 1⟩ := by
    norm_num [Vec3.normalize, Vec3.sub, Vec3.smul, Vec3.dot, ratLibm_sqrt_one]
  have hfix : Vec3.add (⟨0, 0, 1⟩ : Vec3 ℚ) (Vec3.smul (1 / 10) ⟨0, 0, 1⟩) = ⟨0, 0, 11 / 10⟩ := by
    norm_num [Vec3.add, Vec3.smul]
  have hsub := CastRayTrace_miss ratLibm
    ⟨[.sphere (Sphere.new 1 ⟨0, 0, 0⟩ mirror)], ⟨0, 0, 10⟩, false, false, true, 5,
      ⟨⟨0, 0, 0⟩, false, 0⟩⟩
    ⟨⟨0, 0, 11 / 10⟩, ⟨0, 0, 1⟩⟩ ⟨⟨0, 0, 0⟩, false, 1⟩ IntersectInfo.fresh
    (by simp only [CheckIntersection, CheckIntersection.loop, Object.Intersect,
      mirrorSphere_reflected])
  have h := CastRayTrace_hit_reflect ratLibm
    ⟨[.sphere (Sphere.new 1 ⟨0, 0, 0⟩ mirror)], ⟨0, 0, 10⟩, false, false, true, 5,
      ⟨⟨0, 0, 0⟩, false, 0⟩⟩
    ⟨⟨0, 0, 5⟩, ⟨0, 0, -1⟩⟩ ⟨⟨0, 0, 0⟩, false, 0⟩
    ⟨((4 : ℚ) : WithTop ℚ), ⟨0, 0, 1⟩, ⟨0, 0, 1⟩, some mirror⟩ mirror false [] 0
    ⟨⟨0, 0, 0⟩, false, 1⟩
    (by simp only [CheckIntersection, CheckIntersection.loop, Object.Intersect,
      mirrorSphere_primary, Bool.not_false, if_true])
    rfl (CastRay_shadow_off _ _ _ _ _ rfl)
    rfl (by norm_num [mirror]) (by decide)
    (by simp only [hfix, hdir, zero_add]; exact hsub)
  rw [h]
  simp only [CastRay.localColor, Bool.false_eq_true, if_false, mirror, Vec3.smul, Vec3.add,
    zero_mul, one_mul, mul_zero, add_zero, zero_add, List.cons.injEq]

/-- C2 at a unit mirror sphere with `maxReflections = 5`: the run makes exactly one nested
call, entered with `numBounces = 1`, and the bound holds. -/
theorem CastRay_recursion_depth_witness :
    (CastRayTrace ratLibm
        ⟨[.sphere (Sphere.new 1 ⟨0, 0, 0⟩ mirror)], ⟨0, 0, 10⟩, false, false, true, 5,
          ⟨⟨0, 0, 0⟩, false, 0⟩⟩
        ⟨⟨0, 0, 5⟩, ⟨0, 0, -1⟩⟩ ⟨⟨0, 0, 0⟩, false, 0⟩).1 = [1] ∧
    ((CastRayTrace ratLibm
        ⟨[.sphere (Sphere.new 1 ⟨0, 0, 0⟩ mirror)], ⟨0, 0, 10⟩, false, false, true, 5,
          ⟨⟨0, 0, 0⟩, false, 0⟩⟩
        ⟨⟨0, 0, 5⟩, ⟨0, 0, -1⟩⟩ ⟨⟨0, 0, 0⟩, false, 0⟩).1.length : Int) ≤ 5 :=
  ⟨by rw [CastRayTrace_mirrorSphere],
   (CastRay_recursion_depth ratLibm
    ⟨[.sphere (Sphere.new 1 ⟨0, 0, 0⟩ mirror)], ⟨0, 0, 10⟩, false, false, true, 5,
      ⟨⟨0, 0, 0⟩, false, 0⟩⟩
    ⟨⟨0, 0, 5⟩, ⟨0, 0, -1⟩⟩ ⟨⟨0, 0, 0⟩, false, 0⟩ rfl (by decide)).1⟩

/-! ### `Triangle::Intersect` -/

section
variable {F : Type} [LinearOrderedField F]

theorem Vec3.normalize_neg (m : Libm F) (v : Vec3 F) :
    Vec3.normalize m (Vec3.smul (-1) v) = Vec3.smul (-1) (Vec3.normalize m v) := by
  have h : Vec3.dot (Vec3.smul (-1) v) (Vec3.smul (-1) v) = Vec3.dot v v := by
    simp only [Vec3.dot, Vec3.smul]; ring
  simp only [Vec3.normalize, h]
  simp only [Vec3.smul, Vec3.mk.injEq]
  refine ⟨?_, ?_, ?_⟩ <;> ring

theorem Vec3.cross_swap (a b : Vec3 F) : Vec3.cross b a = Vec3.smul (-1) (Vec3.cross a b) := by
  simp only [Vec3.cross, Vec3.smul, Vec3.mk.injEq]
  refine ⟨?_, ?_, ?_⟩ <;> ring

theorem Triangle_new_swap (m : Libm F) (A B C : Vec3 F) (material : Material F) :
    Triangle.new m A C B material =
      ⟨A, C, B, Vec3.smul (-1) (Triangle.new m A B C material).normal, material⟩ := by
  simp only [Triangle.new, Vec3.cross_swap (Vec3.sub B A) (Vec3.sub C A), Vec3.normalize_neg]

theorem Triangle_Intersect_eq (m : Libm F) (tr : Triangle F) (ray : Ray F)
    (info : IntersectInfo F) :
    tr.Intersect m ray info =
      if |Vec3.dot tr.normal ray.direction| < 1 / 1000000 ∨ tr.planeTime ray < 0 ∨
          tr.baryS (ray.eval (tr.planeTime ray)) < 0 ∨
          tr.baryS (ray.eval (tr.planeTime ray)) > 1 ∨
          tr.baryT (ray.eval (tr.planeTime ray)) < 0 ∨
          tr.baryS (ray.eval (tr.planeTime ray)) + tr.baryT (ray.eval (tr.planeTime ray)) > 1
      then some (false, info)
      else some (true, ⟨(tr.planeTime ray : F), ray.eval (tr.planeTime ray),
        Vec3.normalize m tr.normal, some tr.material⟩) := by
  unfold Triangle.Intersect Triangle.planeTime Triangle.baryS Triangle.baryT
  simp only []
  split_ifs <;> first | rfl | (exfalso; tauto)

theorem Triangle_swap_facts (A B C N : Vec3 F) (material : Material F) (ray : Ray F)
    (P : Vec3 F) :
    |Vec3.dot (Vec3.smul (-1) N) ray.direction| = |Vec3.dot N ray.direction| ∧
    (Triangle.mk A C B (Vec3.smul (-1) N) material).planeTime ray =
      (Triangle.mk A B C N material).planeTime ray ∧
    (Triangle.mk A C B (Vec3.smul (-1) N) material).baryS P =
      (Triangle.mk A B C N material).baryT P ∧
    (Triangle.mk A C B (Vec3.smul (-1) N) material).baryT P =
      (Triangle.mk A B C N material).baryS P := by
  have hd : ∀ w : Vec3 F, Vec3.dot (Vec3.smul (-1) N) w = -Vec3.dot N w := by
    intro w; simp only [Vec3.dot, Vec3.smul]; ring
  refine ⟨by rw [hd, abs_neg], ?_, ?_, ?_⟩
  · simp only [Triangle.planeTime, hd]
    rw [mul_neg, neg_div_neg_eq]
  · simp only [Triangle.baryS, Triangle.baryT, Vec3.dot, Vec3.sub]
    congr 1 <;> ring
  · simp only [Triangle.baryS, Triangle.baryT, Vec3.dot, Vec3.sub]
    congr 1 <;> ring

/-- C19. The triangle built with the opposite winding `(A, C, B)` returns `true` exactly when
the triangle `(A, B, C)` does, with the same time, hit point and material and the negated
normal, and returns `false` (leaving the info unchanged) exactly when `(A, B, C)` does; the
stored normals of the two are opposite, so a hit is reported for either sign of
`dot(normal, direction)`. -/
theorem Triangle_Intersect_double_sided (m : Libm F) (A B C : Vec3 F) (material : Material F)
    (ray : Ray F) (info : IntersectInfo F) :
    (Triangle.new m A C B material).normal =
      Vec3.smul (-1) (Triangle.new m A B C material).normal ∧
    (∀ i : IntersectInfo F,
      (Triangle.new m A B C material).Intersect m ray info = some (true, i) →
        (Triangle.new m A C B material).Intersect m ray info =
          some (true, ⟨i.time, i.hitPoint, Vec3.smul (-1) i.normal, i.material⟩)) ∧
    (∀ i : IntersectInfo F,
      (Triangle.new m A C B material).Intersect m ray info = some (true, i) →
        (Triangle.new m A B C material).Intersect m ray info =
          some (true, ⟨i.time, i.hitPoint, Vec3.smul (-1) i.normal, i.material⟩)) ∧
    ((Triangle.new m A B C material).Intersect m ray info = some (false, info) ↔
      (Triangle.new m A C B material).Intersect m ray info = some (false, info)) := by
  have hnew := Triangle_new_swap m A B C material
  have hT : Triangle.new m A B C material =
      ⟨A, B, C, (Triangle.new m A B C material).normal, material⟩ := rfl
  generalize (Triangle.new m A B C material).normal = N at hnew hT ⊢
  obtain ⟨f1, f2, f3, f4⟩ := Triangle_swap_facts A B C N material ray
    (ray.eval ((Triangle.mk A B C N material).planeTime ray))
  have e1 := Triangle_Intersect_eq m (Triangle.mk A B C N material) ray info
  have e2 := Triangle_Intersect_eq m (Triangle.mk A C B (Vec3.smul (-1) N) material) ray info
  simp only [f2] at f3 f4 e2
  simp only [f1, f2, f3, f4, Vec3.normalize_neg] at e2
  simp only [] at e1
  generalize (Triangle.mk A B C N material).planeTime ray = pt at e1 e2
  generalize (Triangle.mk A B C N material).baryS (ray.eval pt) = S at e1 e2
  generalize (Triangle.mk A B C N material).baryT (ray.eval pt) = T at e1 e2
  have hcond : (|Vec3.dot N ray.direction| < 1 / 1000000 ∨ pt < 0 ∨ T < 0 ∨ T > 1 ∨ S < 0 ∨
      T + S > 1) ↔ (|Vec3.dot N ray.direction| < 1 / 1000000 ∨ pt < 0 ∨ S < 0 ∨ S > 1 ∨ T < 0 ∨
      S + T > 1) := by
    constructor
    · intro h
      by_contra hc
      push_neg at hc
      obtain ⟨c1, c2, c3, c4, c5, c6⟩ := hc
      rcases h with h | h | h | h | h | h <;> linarith
    · intro h
      by_contra hc
      push_neg at hc
      obtain ⟨c1, c2, c3, c4, c5, c6⟩ := hc
      rcases h with h | h | h | h | h | h <;> linarith
  simp only [hcond] at e2
  rw [hnew, hT, e1, e2]
  by_cases hc : |Vec3.dot N ray.direction| < 1 / 1000000 ∨ pt < 0 ∨ S < 0 ∨ S > 1 ∨ T < 0 ∨
      S + T > 1
  · simp only [hc, if_true]
    refine ⟨trivial, ?_, ?_, trivial⟩
    · intro i hi; simp at hi
    · intro i hi; simp at hi
  · simp only [hc, if_false]
    refine ⟨trivial, ?_, ?_, ?_⟩
    · intro i hi
      simp only [Option.some.injEq, Prod.mk.injEq, true_and] at hi
      subst hi
      rfl
    · intro i hi
      simp only [Option.some.injEq, Prod.mk.injEq, true_and] at hi
      subst hi
      have : Vec3.smul (-1) (Vec3.smul (-1) (Vec3.normalize m N)) = Vec3.normalize m N := by
        simp only [Vec3.smul, neg_mul, one_mul, neg_neg]
      simp only [this]
    · constructor <;> intro h <;> simp at h

end

section
variable {F : Type} [LinearOrderedField F]

end

/-! ### `AxisAlignedBox::Intersect` -/

section
variable {F : Type} [LinearOrderedField F]

/-- C20. `AxisAlignedBox::Intersect` depends on the stored corners only through the per-axis
minimum and maximum: two boxes with the same material whose corner pairs have the same
minima and maxima give the same returned value and the same info (time, hit point, normal)
for every ray and every info passed in; in particular the corners may be swapped. -/
theorem AxisAlignedBox_Intersect_corner_order (m : Libm F) (p1 p2 q1 q2 : Vec3 F)
    (material : Material F) (ray : Ray F) (info : IntersectInfo F)
    (hx : min p1.x p2.x = min q1.x q2.x ∧ max p1.x p2.x = max q1.x q2.x)
    (hy : min p1.y p2.y = min q1.y q2.y ∧ max p1.y p2.y = max q1.y q2.y)
    (hz : min p1.z p2.z = min q1.z q2.z ∧ max p1.z p2.z = max q1.z q2.z) :
    (AxisAlignedBox.new p1 p2 material).Intersect m ray info =
      (AxisAlignedBox.new q1 q2 material).Intersect m ray info ∧
    (AxisAlignedBox.new p2 p1 material).Intersect m ray info =
      (AxisAlignedBox.new p1 p2 material).Intersect m ray info := by
  constructor
  · simp only [AxisAlignedBox.Intersect, AxisAlignedBox.faces, AxisAlignedBox.new, hx.1, hx.2,
      hy.1, hy.2, hz.1, hz.2]
  · simp only [AxisAlignedBox.Intersect, AxisAlignedBox.faces, AxisAlignedBox.new,
      min_comm p2.x p1.x, max_comm p2.x p1.x, min_comm p2.y p1.y, max_comm p2.y p1.y,
      min_comm p2.z p1.z, max_comm p2.z p1.z]

end

/-- C20 at the box of scene 5 and the same box with its corners listed the other way round
and mixed. -/
theorem AxisAlignedBox_Intersect_corner_order_witness :
    (AxisAlignedBox.new (⟨-50, -50, 100⟩ : Vec3 ℚ) ⟨-20, -20, 70⟩ whiteAbsorb).Intersect ratLibm
        ⟨⟨0, 0, 200⟩, ⟨0, 0, -1⟩⟩ IntersectInfo.fresh =
      (AxisAlignedBox.new (⟨-20, -50, 70⟩ : Vec3 ℚ) ⟨-50, -20, 100⟩ whiteAbsorb).Intersect ratLibm
        ⟨⟨0, 0, 200⟩, ⟨0, 0, -1⟩⟩ IntersectInfo.fresh :=
  (AxisAlignedBox_Intersect_corner_order ratLibm ⟨-50, -50, 100⟩ ⟨-20, -20, 70⟩ ⟨-20, -50, 70⟩
    ⟨-50, -20, 100⟩ whiteAbsorb ⟨⟨0, 0, 200⟩, ⟨0, 0, -1⟩⟩ IntersectInfo.fresh
    (by norm_num) (by norm_num) (by norm_num)).1

section
variable {F : Type} [LinearOrderedField F]

theorem AxisAlignedBox.faces_eq_foldl (m : Libm F) (bx : AxisAlignedBox F) (ray : Ray F)
    (info : IntersectInfo F) :
    bx.faces m ray info =
      bx.faceList.foldl
        (fun info f => AxisAlignedBox.face m bx.material ray f.N f.facePoint f.inside info) info :=
  rfl

theorem AxisAlignedBox.face_of_accepts (m : Libm F) (material : Material F) (ray : Ray F)
    (f : BoxFace F) (info : IntersectInfo F) :
    (f.Accepts ray ∧ (f.time ray : WithTop F) < info.time →
      AxisAlignedBox.face m material ray f.N f.facePoint f.inside info =
        ⟨(f.time ray : F), ray.eval (f.time ray), Vec3.normalize m f.N, some material⟩) ∧
    (¬ (f.Accepts ray ∧ (f.time ray : WithTop F) < info.time) →
      AxisAlignedBox.face m material ray f.N f.facePoint f.inside info = info) := by
  unfold AxisAlignedBox.face BoxFace.Accepts BoxFace.time
  simp only []
  constructor
  · rintro ⟨⟨h1, h2, h3⟩, h4⟩
    rw [if_neg h1, if_pos h2, if_pos h3, if_pos h4]
  · intro h
    split_ifs with h1 h2 h3 h4
    · rfl
    · exact absurd ⟨⟨h1, h2, h3⟩, h4⟩ h
    · rfl
    · rfl
    · rfl

theorem AxisAlignedBox.face_time_lt_top (m : Libm F) (material : Material F) (ray : Ray F)
    (f : BoxFace F) (info : IntersectInfo F) :
    (AxisAlignedBox.face m material ray f.N f.facePoint f.inside info).time < ⊤ ↔
      (info.time < ⊤ ∨ f.Accepts ray) := by
  obtain ⟨h1, h2⟩ := AxisAlignedBox.face_of_accepts m material ray f info
  by_cases hc : f.Accepts ray ∧ (f.time ray : WithTop F) < info.time
  · rw [h1 hc]
    exact ⟨fun _ => Or.inr hc.1, fun _ => WithTop.coe_lt_top _⟩
  · rw [h2 hc]
    constructor
    · exact Or.inl
    · rintro (h | h)
      · exact h
      · have : info.time ≤ (f.time ray : WithTop F) := not_lt.mp (fun hlt => hc ⟨h, hlt⟩)
        exact lt_of_le_of_lt this (WithTop.coe_lt_top _)

theorem AxisAlignedBox.foldl_time_lt_top (m : Libm F) (material : Material F) (ray : Ray F)
    (l : List (BoxFace F)) :
    ∀ info : IntersectInfo F,
      (l.foldl (fun info f => AxisAlignedBox.face m material ray f.N f.facePoint f.inside info)
        info).time < ⊤ ↔ (info.time < ⊤ ∨ ∃ f ∈ l, f.Accepts ray) := by
  induction l with
  | nil => intro info; simp
  | cons f l ih =>
    intro info
    rw [List.foldl_cons, ih, AxisAlignedBox.face_time_lt_top]
    constructor
    · rintro ((h | h) | ⟨f', hf', h⟩)
      · exact Or.inl h
      · exact Or.inr ⟨f, List.mem_cons_self _ _, h⟩
      · exact Or.inr ⟨f', List.mem_cons_of_mem _ hf', h⟩
    · rintro (h | ⟨f', hf', h⟩)
      · exact Or.inl (Or.inl h)
      · rcases List.mem_cons.mp hf' with rfl | hf'
        · exact Or.inl (Or.inr h)
        · exact Or.inr ⟨f', hf', h⟩

theorem AxisAlignedBox_Intersect_true_iff (m : Libm F) (bx : AxisAlignedBox F) (ray : Ray F)
    (info : IntersectInfo F) :
    (∃ i, bx.Intersect m ray info = some (true, i)) ↔
      (info.time < ⊤ ∨ ∃ f ∈ bx.faceList, f.Accepts ray) := by
  rw [← AxisAlignedBox.foldl_time_lt_top m bx.material ray, ← AxisAlignedBox.faces_eq_foldl]
  unfold AxisAlignedBox.Intersect
  simp only []
  split_ifs with h
  · exact ⟨fun _ => h, fun _ => ⟨_, rfl⟩⟩
  · constructor
    · rintro ⟨i, hi⟩; simp at hi
    · intro h'; exact absurd h' h

theorem AxisAlignedBox.faces_of_not_accepts (m : Libm F) (bx : AxisAlignedBox F) (ray : Ray F)
    (info : IntersectInfo F) (h : ∀ f ∈ bx.faceList, ¬ f.Accepts ray) :
    bx.faces m ray info = info := by
  rw [AxisAlignedBox.faces_eq_foldl]
  generalize bx.faceList = l at h
  induction l generalizing info with
  | nil => rfl
  | cons f l ih =>
    rw [List.foldl_cons,
      (AxisAlignedBox.face_of_accepts m bx.material ray f info).2
        (fun hc => h f (List.mem_cons_self _ _) hc.1)]
    exact ih info (fun f' hf' => h f' (List.mem_cons_of_mem _ hf'))

/-- C13 as amended. Called with an `IntersectInfo` whose time is `+infinity`, as
`CheckIntersection` calls it, `AxisAlignedBox::Intersect` returns `true` exactly when one of
the six face blocks accepts the ray.  For an arbitrary `IntersectInfo` it returns `true`
exactly when a face block accepts the ray or the time passed in was already finite. -/
theorem AxisAlignedBox_Intersect_accepted_face (m : Libm F) (bx : AxisAlignedBox F) (ray : Ray F)
    (info : IntersectInfo F) (hfresh : info.time = ⊤) :
    ((∃ i, bx.Intersect m ray info = some (true, i)) ↔ ∃ f ∈ bx.faceList, f.Accepts ray) ∧
    (∀ info' : IntersectInfo F, (∃ i, bx.Intersect m ray info' = some (true, i)) ↔
      (info'.time < ⊤ ∨ ∃ f ∈ bx.faceList, f.Accepts ray)) := by
  refine ⟨?_, fun info' => AxisAlignedBox_Intersect_true_iff m bx ray info'⟩
  rw [AxisAlignedBox_Intersect_true_iff, hfresh]
  simp

end

/-- C13 fails for an `IntersectInfo` that is not fresh: for the box with corners
`(-1, -1, -1)` and `(1, 1, 1)`, the ray from `(0, 0, 5)` with direction `(0, 0, 1)`, which
points away from the box, and an `IntersectInfo` whose time is `0`, no face block accepts the
ray and the call still returns `true`, with the info untouched. -/
theorem AxisAlignedBox_Intersect_stale_info :
    (∀ f ∈ (AxisAlignedBox.new (⟨-1, -1, -1⟩ : Vec3 ℚ) ⟨1, 1, 1⟩ whiteAbsorb).faceList,
      ¬ f.Accepts ⟨⟨0, 0, 5⟩, ⟨0, 0, 1⟩⟩) ∧
    (AxisAlignedBox.new (⟨-1, -1, -1⟩ : Vec3 ℚ) ⟨1, 1, 1⟩ whiteAbsorb).Intersect ratLibm
      ⟨⟨0, 0, 5⟩, ⟨0, 0, 1⟩⟩ ⟨((0 : ℚ) : WithTop ℚ), ⟨0, 0, 0⟩, ⟨0, 0, 0⟩, none⟩ =
      some (true, ⟨((0 : ℚ) : WithTop ℚ), ⟨0, 0, 0⟩, ⟨0, 0, 0⟩, none⟩) := by
  have hno : ∀ f ∈ (AxisAlignedBox.new (⟨-1, -1, -1⟩ : Vec3 ℚ) ⟨1, 1, 1⟩ whiteAbsorb).faceList,
      ¬ f.Accepts ⟨⟨0, 0, 5⟩, ⟨0, 0, 1⟩⟩ := by
    intro f hf
    simp only [AxisAlignedBox.faceList, AxisAlignedBox.new, List.mem_cons, List.mem_singleton,
      List.not_mem_nil, or_false] at hf
    rcases hf with rfl | rfl | rfl | rfl | rfl | rfl <;>
      norm_num [BoxFace.Accepts, BoxFace.time, Vec3.dot, Vec3.sub]
  refine ⟨hno, ?_⟩
  unfold AxisAlignedBox.Intersect
  rw [AxisAlignedBox.faces_of_not_accepts _ _ _ _ hno]
  simp only [WithTop.coe_lt_top, if_true]

section
variable {F : Type} [LinearOrderedField F]

theorem AxisAlignedBox.face_skip (m : Libm F) (material : Material F) (ray : Ray F)
    (N facePoint : Vec3 F) (inside : Vec3 F → Bool) (info : IntersectInfo F)
    (h : |Vec3.dot ray.direction N| < 11258999 / 1125899906842624) :
    AxisAlignedBox.face m material ray N facePoint inside info = info := by
  unfold AxisAlignedBox.face
  simp only [h, if_true]

theorem AxisAlignedBox.face_hit (m : Libm F) (material : Material F) (ray : Ray F)
    (N facePoint : Vec3 F) (inside : Vec3 F → Bool) (info : IntersectInfo F) (t : F)
    (ht : Vec3.dot (Vec3.sub facePoint ray.origin) N / Vec3.dot ray.direction N = t)
    (h1 : ¬ |Vec3.dot ray.direction N| < 11258999 / 1125899906842624) (h2 : 0 < t)
    (h3 : inside (ray.eval t) = true) (h4 : (t : WithTop F) < info.time) :
    AxisAlignedBox.face m material ray N facePoint inside info =
      ⟨(t : F), ray.eval t, Vec3.normalize m N, some material⟩ := by
  unfold AxisAlignedBox.face
  simp only [ht]
  rw [if_neg h1, if_pos h2, if_pos h3, if_pos h4]

theorem AxisAlignedBox.face_keep (m : Libm F) (material : Material F) (ray : Ray F)
    (N facePoint : Vec3 F) (inside : Vec3 F → Bool) (info : IntersectInfo F) (t : F)
    (ht : Vec3.dot (Vec3.sub facePoint ray.origin) N / Vec3.dot ray.direction N = t)
    (h4 : ¬ (t : WithTop F) < info.time) :
    AxisAlignedBox.face m material ray N facePoint inside info = info := by
  unfold AxisAlignedBox.face
  simp only [ht]
  split_ifs <;> rfl

end

/-- C13 as amended, at the box of scene 5 and a primary ray of the camera, with the fresh
`IntersectInfo` that `CheckIntersection` passes. -/
theorem AxisAlignedBox_Intersect_accepted_face_witness :
    (∃ i, (AxisAlignedBox.new (⟨-50, -50, 100⟩ : Vec3 ℚ) ⟨-20, -20, 70⟩ whiteAbsorb).Intersect
        ratLibm ⟨⟨0, 0, 200⟩, ⟨0, 0, -1⟩⟩ IntersectInfo.fresh = some (true, i)) ↔
      ∃ f ∈ (AxisAlignedBox.new (⟨-50, -50, 100⟩ : Vec3 ℚ) ⟨-20, -20, 70⟩ whiteAbsorb).faceList,
        f.Accepts ⟨⟨0, 0, 200⟩, ⟨0, 0, -1⟩⟩ :=
  (AxisAlignedBox_Intersect_accepted_face ratLibm
    (AxisAlignedBox.new (⟨-50, -50, 100⟩ : Vec3 ℚ) ⟨-20, -20, 70⟩ whiteAbsorb)
    ⟨⟨0, 0, 200⟩, ⟨0, 0, -1⟩⟩ IntersectInfo.fresh rfl).1

/-! ### `CastRay`: return value, shadows and colour -/

section
variable {F : Type} [LinearOrderedField F]

theorem CastRayTrace_hit_inv (m : Libm F) (g : Globals F) (ray : Ray F) (payload : Payload F)
    (info : IntersectInfo F) (r : WithTop F) (p' : Payload F)
    (hhit : CheckIntersection m g.objects ray IntersectInfo.fresh = some (true, info))
    (hret : (CastRayTrace m g ray payload).2 = some (r, p')) :
    ∃ (material : Material F) (shadowed : Bool),
      info.material = some material ∧
      CastRay.shadow m g (Vec3.add info.hitPoint (Vec3.smul (1 / 10) info.normal))
        (Vec3.normalize m (Vec3.sub g.lightPos
          (Vec3.add info.hitPoint (Vec3.smul (1 / 10) info.normal)))) payload.shadowed =
          some shadowed ∧
      r = info.time ∧ p'.shadowed = shadowed ∧
      (((g.activateReflections = false ∨
            ¬ (material.Kreflectivity > 0 ∧ payload.numBounces + 1 ≤ g.maxReflections)) ∧
          p'.color = CastRay.localColor m g ray info material
            (Vec3.add info.hitPoint (Vec3.smul (1 / 10) info.normal))
            (Vec3.normalize m (Vec3.sub g.lightPos
              (Vec3.add info.hitPoint (Vec3.smul (1 / 10) info.normal))))
            ⟨payload.color, shadowed, payload.numBounces⟩ ∧
          p'.numBounces =
            if g.activateReflections then payload.numBounces + 1 else payload.numBounces) ∨
        (g.activateReflections = true ∧ material.Kreflectivity > 0 ∧
          payload.numBounces + 1 ≤ g.maxReflections ∧
          ∃ (t : WithTop F) (refPayload : Payload F),
            (CastRayTrace m g
              ⟨Vec3.add info.hitPoint (Vec3.smul (1 / 10) info.normal),
                Vec3.normalize m (Vec3.sub ray.direction
                  (Vec3.smul (Vec3.dot ray.direction info.normal) (Vec3.smul 2 info.normal)))⟩
              ⟨g.freshPayload.color, g.freshPayload.shadowed, payload.numBounces + 1⟩).2 =
                some (t, refPayload) ∧
            p'.color = Vec3.add
              (CastRay.localColor m g ray info material
                (Vec3.add info.hitPoint (Vec3.smul (1 / 10) info.normal))
                (Vec3.normalize m (Vec3.sub g.lightPos
                  (Vec3.add info.hitPoint (Vec3.smul (1 / 10) info.normal))))
                ⟨payload.color, shadowed, payload.numBounces⟩)
              (Vec3.smul material.Kreflectivity refPayload.color) ∧
            p'.numBounces = payload.numBounces + 1)) := by
  have hmat := CheckIntersection_material m g.objects ray _ info hhit
  obtain ⟨material, hmat⟩ := Option.isSome_iff_exists.mp hmat
  cases hsh : CastRay.shadow m g (Vec3.add info.hitPoint (Vec3.smul (1 / 10) info.normal))
      (Vec3.normalize m (Vec3.sub g.lightPos
        (Vec3.add info.hitPoint (Vec3.smul (1 / 10) info.normal)))) payload.shadowed with
  | none =>
    rw [CastRayTrace] at hret
    simp only [hhit, hmat, hsh] at hret
    simp at hret
  | some shadowed =>
    refine ⟨material, shadowed, hmat, rfl, ?_⟩
    by_cases hc : g.activateReflections = true ∧ material.Kreflectivity > 0 ∧
        payload.numBounces + 1 ≤ g.maxReflections
    · obtain ⟨c1, c2, c3⟩ := hc
      cases hsub : CastRayTrace m g
          ⟨Vec3.add info.hitPoint (Vec3.smul (1 / 10) info.normal),
            Vec3.normalize m (Vec3.sub ray.direction
              (Vec3.smul (Vec3.dot ray.direction info.normal) (Vec3.smul 2 info.normal)))⟩
          ⟨g.freshPayload.color, g.freshPayload.shadowed, payload.numBounces + 1⟩ with
      | mk calls res =>
        cases res with
        | none =>
          rw [CastRayTrace] at hret
          simp only [hhit, hmat, hsh, c1, if_true, c2, c3, and_self, dite_true, hsub] at hret
          simp at hret
        | some tp =>
          obtain ⟨t, refPayload⟩ := tp
          rw [CastRayTrace_hit_reflect m g ray payload info material shadowed calls t refPayload
            hhit hmat hsh c1 c2 c3 hsub] at hret
          simp only [Option.some.injEq, Prod.mk.injEq] at hret
          obtain ⟨h1, h2⟩ := hret
          subst h2
          exact ⟨h1.symm, rfl, Or.inr ⟨c1, c2, c3, t, refPayload, rfl, rfl, rfl⟩⟩
    · have hno : g.activateReflections = false ∨
          ¬ (material.Kreflectivity > 0 ∧ payload.numBounces + 1 ≤ g.maxReflections) := by
        by_cases hr : g.activateReflections = true
        · exact Or.inr (fun h => hc ⟨hr, h⟩)
        · exact Or.inl (by simpa using hr)
      rw [CastRayTrace_hit_local m g ray payload info material shadowed hhit hmat hsh hno] at hret
      simp only [Option.some.injEq, Prod.mk.injEq] at hret
      obtain ⟨h1, h2⟩ := hret
      subst h2
      exact ⟨h1.symm, rfl, Or.inl ⟨hno, rfl, rfl⟩⟩

end

theorem ratLibm_sqrt_sq (q : ℚ) (hq : 0 ≤ q) : ratLibm.sqrt (q * q) = q := by
  have hnum : 0 ≤ q.num := Rat.num_nonneg.mpr hq
  have h1 : ((q * q).num).toNat = q.num.toNat * q.num.toNat := by
    obtain ⟨n, hn⟩ := Int.eq_ofNat_of_zero_le hnum
    rw [Rat.mul_self_num, hn, ← Nat.cast_mul, Int.toNat_natCast, Int.toNat_natCast]
  have h2 : (q * q).den = q.den * q.den := Rat.mul_self_den q
  show ((Nat.sqrt ((q * q).num).toNat : ℕ) : ℚ) / ((Nat.sqrt (q * q).den : ℕ) : ℚ) = q
  rw [h1, h2, Nat.sqrt_eq, Nat.sqrt_eq]
  have h3 : ((q.num.toNat : ℕ) : ℚ) = (q.num : ℚ) := by
    have : ((q.num.toNat : ℕ) : ℤ) = q.num := Int.toNat_of_nonneg hnum
    exact_mod_cast this
  rw [h3]
  exact Rat.num_div_den q

theorem unitSphere_from_five (material : Material ℚ) :
    (Sphere.new 1 ⟨0, 0, 0⟩ material).Intersect ratLibm ⟨⟨0, 0, 5⟩, ⟨0, 0, -1⟩⟩
      IntersectInfo.fresh =
      some (true, ⟨((4 : ℚ) : WithTop ℚ), ⟨0, 0, 1⟩, ⟨0, 0, 1⟩, some material⟩) := by
  have hs : solveQuadraticEquation ratLibm (1 : ℚ) (-10) 24 = some (4, 6) := by
    unfold solveQuadraticEquation quadraticQ
    norm_num [ratLibm_sqrt_four]
  unfold Sphere.Intersect
  norm_num [Sphere.new, Vec3.dot, Vec3.sub, hs, Ray.eval, Vec3.add, Vec3.smul, Vec3.normalize,
    ratLibm_sqrt_one]

theorem unitSphere_leaving (material : Material ℚ) :
    (Sphere.new 1 ⟨0, 0, 0⟩ material).Intersect ratLibm ⟨⟨0, 0, 11 / 10⟩, ⟨0, 0, 1⟩⟩
      IntersectInfo.fresh = some (false, IntersectInfo.fresh) := by
  have hs : solveQuadraticEquation ratLibm (1 : ℚ) (11 / 5) (21 / 100) =
      some (-(21 / 10), -(1 / 10)) := by
    unfold solveQuadraticEquation quadraticQ
    norm_num [ratLibm_sqrt_four]
  unfold Sphere.Intersect
  norm_num [Sphere.new, Vec3.dot, Vec3.sub, hs]

theorem unitSphere_back_to_surface (material : Material ℚ) :
    (Sphere.new 1 ⟨0, 0, 0⟩ material).Intersect ratLibm ⟨⟨0, 0, 11 / 10⟩, ⟨0, 0, -1⟩⟩
      IntersectInfo.fresh =
      some (true, ⟨((1 / 10 : ℚ) : WithTop ℚ), ⟨0, 0, 1⟩, ⟨0, 0, 1⟩, some material⟩) := by
  have hs : solveQuadraticEquation ratLibm (1 : ℚ) (-(11 / 5)) (21 / 100) =
      some (1 / 10, 21 / 10) := by
    unfold solveQuadraticEquation quadraticQ
    norm_num [ratLibm_sqrt_four]
  unfold Sphere.Intersect
  norm_num [Sphere.new, Vec3.dot, Vec3.sub, hs, Ray.eval, Vec3.add, Vec3.smul, Vec3.normalize,
    ratLibm_sqrt_one]

theorem CheckIntersection_single (m : Libm ℚ) (obj : Object ℚ) (ray : Ray ℚ)
    (info : IntersectInfo ℚ) (b : Bool) (i : IntersectInfo ℚ)
    (h : obj.Intersect m ray IntersectInfo.fresh = some (b, i)) :
    CheckIntersection m [obj] ray info = some (b, if b then i else info) := by
  cases b <;>
    simp only [CheckIntersection, CheckIntersection.loop, h, Bool.not_false, if_true,
      Bool.false_eq_true, if_false]

section
variable {F : Type} [LinearOrderedField F]

/-- C14. If `CheckIntersection` finds no hit for the ray, `CastRay` returns `0` and leaves
the payload (colour, shadowed flag and `numBounces`) exactly as it was, whatever the
configuration. -/
theorem CastRay_miss_unchanged (m : Libm F) (g : Globals F) (ray : Ray F) (payload : Payload F)
    (i : IntersectInfo F)
    (hmiss : CheckIntersection m g.objects ray IntersectInfo.fresh = some (false, i)) :
    CastRay m g ray payload = some (0, payload) ∧
    ∀ (r : WithTop F) (p' : Payload F), CastRay m g ray payload = some (r, p') →
      r = 0 ∧ p'.color = payload.color ∧ p'.shadowed = payload.shadowed ∧
        p'.numBounces = payload.numBounces := by
  have h : CastRay m g ray payload = some (0, payload) := by
    unfold CastRay
    rw [CastRayTrace_miss m g ray payload i hmiss]
  refine ⟨h, fun r p' hr => ?_⟩
  rw [h] at hr
  simp only [Option.some.injEq, Prod.mk.injEq] at hr
  obtain ⟨h1, h2⟩ := hr
  subst h1 h2
  exact ⟨rfl, rfl, rfl, rfl⟩

end

/-- C14 at a unit sphere and a ray that leaves it. -/
theorem CastRay_miss_unchanged_witness :
    CastRay ratLibm
      ⟨[.sphere (Sphere.new 1 ⟨0, 0, 0⟩ whiteAbsorb)], ⟨0, 0, 10⟩, true, true, true, 5,
        ⟨⟨0, 0, 0⟩, false, 0⟩⟩
      ⟨⟨0, 0, 11 / 10⟩, ⟨0, 0, 1⟩⟩ ⟨⟨1 / 2, 1 / 3, 1 / 4⟩, true, 3⟩ =
    some (0, ⟨⟨1 / 2, 1 / 3, 1 / 4⟩, true, 3⟩) :=
  (CastRay_miss_unchanged ratLibm
    ⟨[.sphere (Sphere.new 1 ⟨0, 0, 0⟩ whiteAbsorb)], ⟨0, 0, 10⟩, true, true, true, 5,
      ⟨⟨0, 0, 0⟩, false, 0⟩⟩
    ⟨⟨0, 0, 11 / 10⟩, ⟨0, 0, 1⟩⟩ ⟨⟨1 / 2, 1 / 3, 1 / 4⟩, true, 3⟩ IntersectInfo.fresh
    (CheckIntersection_single _ _ _ _ _ _ (unitSphere_leaving whiteAbsorb))).1

section
variable {F : Type} [LinearOrderedField F]

theorem CastRay_shadow_on (m : Libm F) (g : Globals F) (hitPoint_fix lightVec : Vec3 F)
    (shadowed sh : Bool) (shadowInfo : IntersectInfo F) (hs : g.activateShadows = true)
    (hc : CheckIntersection m g.objects ⟨hitPoint_fix, lightVec⟩ IntersectInfo.fresh =
      some (sh, shadowInfo)) :
    CastRay.shadow m g hitPoint_fix lightVec shadowed =
      some (sh && decide (Vec3.distance m hitPoint_fix shadowInfo.hitPoint <
        Vec3.distance m hitPoint_fix g.lightPos)) := by
  unfold CastRay.shadow
  simp only [hs, if_true, hc]
  cases sh
  · simp
  · by_cases hd : Vec3.distance m hitPoint_fix shadowInfo.hitPoint <
        Vec3.distance m hitPoint_fix g.lightPos
    · simp [hd]
    · simp [hd]

/-- C16. With shadows enabled, for a ray that hits at `H` with normal `N`: the shadow ray
from the biased point `H + 0.1 N` towards the light has a defined `CheckIntersection` result,
and after `CastRay` the payload's `shadowed` flag is `true` exactly when that result is a hit
whose hit point is strictly nearer to the biased point than the light is. -/
theorem CastRay_shadowed_iff (m : Libm F) (g : Globals F) (ray : Ray F) (payload : Payload F)
    (info : IntersectInfo F) (r : WithTop F) (p' : Payload F)
    (hs : g.activateShadows = true)
    (hhit : CheckIntersection m g.objects ray IntersectInfo.fresh = some (true, info))
    (hret : CastRay m g ray payload = some (r, p')) :
    ∃ (sh : Bool) (shadowInfo : IntersectInfo F),
      CheckIntersection m g.objects
        ⟨Vec3.add info.hitPoint (Vec3.smul (1 / 10) info.normal),
          Vec3.normalize m (Vec3.sub g.lightPos
            (Vec3.add info.hitPoint (Vec3.smul (1 / 10) info.normal)))⟩
        IntersectInfo.fresh = some (sh, shadowInfo) ∧
      (p'.shadowed = true ↔
        (sh = true ∧
          Vec3.distance m (Vec3.add info.hitPoint (Vec3.smul (1 / 10) info.normal))
              shadowInfo.hitPoint <
            Vec3.distance m (Vec3.add info.hitPoint (Vec3.smul (1 / 10) info.normal))
              g.lightPos)) := by
  obtain ⟨material, shadowed, _, hsh, _, hp, _⟩ :=
    CastRayTrace_hit_inv m g ray payload info r p' hhit hret
  cases hc : CheckIntersection m g.objects
      ⟨Vec3.add info.hitPoint (Vec3.smul (1 / 10) info.normal),
        Vec3.normalize m (Vec3.sub g.lightPos
          (Vec3.add info.hitPoint (Vec3.smul (1 / 10) info.normal)))⟩
      IntersectInfo.fresh with
  | none =>
    unfold CastRay.shadow at hsh
    simp only [hs, if_true, hc] at hsh
    simp at hsh
  | some bi =>
    obtain ⟨sh, shadowInfo⟩ := bi
    refine ⟨sh, shadowInfo, rfl, ?_⟩
    rw [CastRay_shadow_on m g _ _ payload.shadowed sh shadowInfo hs hc] at hsh
    simp only [Option.some.injEq] at hsh
    rw [hp, ← hsh]
    simp

end

theorem ratLibm_length_z (z : ℚ) (hz : 0 ≤ z) : ratLibm.sqrt (0 * 0 + 0 * 0 + z * z) = z := by
  rw [show (0 : ℚ) * 0 + 0 * 0 + z * z = z * z by ring]
  exact ratLibm_sqrt_sq z hz

theorem ratLibm_length_neg_z (z : ℚ) (hz : 0 ≤ z) :
    ratLibm.sqrt (0 * 0 + 0 * 0 + -z * -z) = z := by
  rw [show (0 : ℚ) * 0 + 0 * 0 + -z * -z = z * z by ring]
  exact ratLibm_sqrt_sq z hz

/-- The scene of the two shadow runs: a unit sphere at the origin, shadows enabled, Phong and
reflections disabled, with the light at `lightPos`. -/
theorem shadowScene_run (lightZ : ℚ) (hl : lightZ < 11 / 10) :
    CastRay ratLibm
      ⟨[.sphere (Sphere.new 1 ⟨0, 0, 0⟩ whiteAbsorb)], ⟨0, 0, lightZ⟩, true, false, false, 5,
        ⟨⟨0, 0, 0⟩, false, 0⟩⟩
      ⟨⟨0, 0, 5⟩, ⟨0, 0, -1⟩⟩ ⟨⟨0, 0, 0⟩, false, 0⟩ =
    some (((4 : ℚ) : WithTop ℚ),
      ⟨if (1 : ℚ) / 10 < 11 / 10 - lightZ then ⟨0, 0, 0⟩ else ⟨1, 1, 1⟩,
        decide ((1 : ℚ) / 10 < 11 / 10 - lightZ), 0⟩) := by
  have hpos : (0 : ℚ) < 11 / 10 - lightZ := by linarith
  have hfix : Vec3.add (⟨0, 0, 1⟩ : Vec3 ℚ) (Vec3.smul (1 / 10) ⟨0, 0, 1⟩) = ⟨0, 0, 11 / 10⟩ := by
    norm_num [Vec3.add, Vec3.smul]
  have hsub : Vec3.sub (⟨0, 0, lightZ⟩ : Vec3 ℚ) ⟨0, 0, 11 / 10⟩ =
      ⟨0, 0, -(11 / 10 - lightZ)⟩ := by
    simp only [Vec3.sub, Vec3.mk.injEq]
    refine ⟨by ring, by ring, by ring⟩
  have hlv : Vec3.normalize ratLibm (⟨0, 0, -(11 / 10 - lightZ)⟩ : Vec3 ℚ) = ⟨0, 0, -1⟩ := by
    simp only [Vec3.normalize, Vec3.dot, ratLibm_length_neg_z _ (le_of_lt hpos), Vec3.smul,
      Vec3.mk.injEq]
    refine ⟨by ring, by ring, ?_⟩
    rw [mul_neg, one_div, inv_mul_cancel₀ (ne_of_gt hpos)]
  have hcd : Vec3.distance ratLibm (⟨0, 0, 11 / 10⟩ : Vec3 ℚ) ⟨0, 0, 1⟩ = 1 / 10 := by
    simp only [Vec3.distance, Vec3.length, Vec3.sub, Vec3.dot]
    rw [show (0 : ℚ) - 0 = 0 by ring, show (1 : ℚ) - 11 / 10 = -(1 / 10) by ring]
    exact ratLibm_length_neg_z _ (by norm_num)
  have hld : Vec3.distance ratLibm (⟨0, 0, 11 / 10⟩ : Vec3 ℚ) ⟨0, 0, lightZ⟩ =
      11 / 10 - lightZ := by
    simp only [Vec3.distance, Vec3.length, Vec3.sub, Vec3.dot]
    rw [show (0 : ℚ) - 0 = 0 by ring, show lightZ - 11 / 10 = -(11 / 10 - lightZ) by ring]
    exact ratLibm_length_neg_z _ (le_of_lt hpos)
  have hhit : CheckIntersection ratLibm [.sphere (Sphere.new 1 ⟨0, 0, 0⟩ whiteAbsorb)]
      ⟨⟨0, 0, 5⟩, ⟨0, 0, -1⟩⟩ IntersectInfo.fresh =
      some (true, ⟨((4 : ℚ) : WithTop ℚ), ⟨0, 0, 1⟩, ⟨0, 0, 1⟩, some whiteAbsorb⟩) :=
    CheckIntersection_single _ _ _ _ _ _ (unitSphere_from_five whiteAbsorb)
  have hshadowRay : CheckIntersection ratLibm [.sphere (Sphere.new 1 ⟨0, 0, 0⟩ whiteAbsorb)]
      ⟨⟨0, 0, 11 / 10⟩, ⟨0, 0, -1⟩⟩ IntersectInfo.fresh =
      some (true, ⟨((1 / 10 : ℚ) : WithTop ℚ), ⟨0, 0, 1⟩, ⟨0, 0, 1⟩, some whiteAbsorb⟩) :=
    CheckIntersection_single _ _ _ _ _ _ (unitSphere_back_to_surface whiteAbsorb)
  have hsh : CastRay.shadow ratLibm
      ⟨[.sphere (Sphere.new 1 ⟨0, 0, 0⟩ whiteAbsorb)], ⟨0, 0, lightZ⟩, true, false, false, 5,
        ⟨⟨0, 0, 0⟩, false, 0⟩⟩
      ⟨0, 0, 11 / 10⟩ ⟨0, 0, -1⟩ false =
      some (decide ((1 : ℚ) / 10 < 11 / 10 - lightZ)) := by
    rw [CastRay_shadow_on ratLibm _ _ _ false true _ rfl hshadowRay]
    simp only [hcd, hld, Bool.true_and]
  have h := CastRayTrace_hit_local ratLibm
    ⟨[.sphere (Sphere.new 1 ⟨0, 0, 0⟩ whiteAbsorb)], ⟨0, 0, lightZ⟩, true, false, false, 5,
      ⟨⟨0, 0, 0⟩, false, 0⟩⟩
    ⟨⟨0, 0, 5⟩, ⟨0, 0, -1⟩⟩ ⟨⟨0, 0, 0⟩, false, 0⟩
    ⟨((4 : ℚ) : WithTop ℚ), ⟨0, 0, 1⟩, ⟨0, 0, 1⟩, some whiteAbsorb⟩ whiteAbsorb
    (decide ((1 : ℚ) / 10 < 11 / 10 - lightZ))
    hhit rfl (by simp only [hfix, hsub, hlv]; exact hsh) (Or.inl rfl)
  unfold CastRay
  rw [h]
  simp only [CastRay.localColor, Bool.false_eq_true, if_false, if_true, decide_eq_true_eq,
    whiteAbsorb, Vec3.smul, Vec3.splat, one_mul]

theorem shadowScene_behind :
    CastRay ratLibm
      ⟨[.sphere (Sphere.new 1 ⟨0, 0, 0⟩ whiteAbsorb)], ⟨0, 0, -10⟩, true, false, false, 5,
        ⟨⟨0, 0, 0⟩, false, 0⟩⟩
      ⟨⟨0, 0, 5⟩, ⟨0, 0, -1⟩⟩ ⟨⟨0, 0, 0⟩, false, 0⟩ =
    some (((4 : ℚ) : WithTop ℚ), ⟨⟨0, 0, 0⟩, true, 0⟩) := by
  rw [shadowScene_run (-10) (by norm_num)]
  norm_num

theorem shadowScene_near :
    CastRay ratLibm
      ⟨[.sphere (Sphere.new 1 ⟨0, 0, 0⟩ whiteAbsorb)], ⟨0, 0, 21 / 20⟩, true, false, false, 5,
        ⟨⟨0, 0, 0⟩, false, 0⟩⟩
      ⟨⟨0, 0, 5⟩, ⟨0, 0, -1⟩⟩ ⟨⟨0, 0, 0⟩, false, 0⟩ =
    some (((4 : ℚ) : WithTop ℚ), ⟨⟨1, 1, 1⟩, false, 0⟩) := by
  rw [shadowScene_run (21 / 20) (by norm_num)]
  norm_num

/-- C16 at a unit sphere hit in `(0, 0, 1)` from above.  With the light at `(0, 0, -10)` the
sphere lies between the biased point and the light and the payload is shadowed; with the
light at `(0, 0, 21/20)`, nearer to the biased point than the sphere, it is not. -/
theorem CastRay_shadowed_iff_witness :
    (∃ (sh : Bool) (shadowInfo : IntersectInfo ℚ),
      CheckIntersection ratLibm [.sphere (Sphere.new 1 ⟨0, 0, 0⟩ whiteAbsorb)]
        ⟨Vec3.add ⟨0, 0, 1⟩ (Vec3.smul (1 / 10) ⟨0, 0, 1⟩),
          Vec3.normalize ratLibm (Vec3.sub ⟨0, 0, -10⟩
            (Vec3.add ⟨0, 0, 1⟩ (Vec3.smul (1 / 10) ⟨0, 0, 1⟩)))⟩
        IntersectInfo.fresh = some (sh, shadowInfo) ∧
      (true = true ↔
        (sh = true ∧
          Vec3.distance ratLibm (Vec3.add ⟨0, 0, 1⟩ (Vec3.smul (1 / 10) ⟨0, 0, 1⟩))
              shadowInfo.hitPoint <
            Vec3.distance ratLibm (Vec3.add ⟨0, 0, 1⟩ (Vec3.smul (1 / 10) ⟨0, 0, 1⟩))
              ⟨0, 0, -10⟩))) ∧
    CastRay ratLibm
      ⟨[.sphere (Sphere.new 1 ⟨0, 0, 0⟩ whiteAbsorb)], ⟨0, 0, 21 / 20⟩, true, false, false, 5,
        ⟨⟨0, 0, 0⟩, false, 0⟩⟩
      ⟨⟨0, 0, 5⟩, ⟨0, 0, -1⟩⟩ ⟨⟨0, 0, 0⟩, false, 0⟩ =
    some (((4 : ℚ) : WithTop ℚ), ⟨⟨1, 1, 1⟩, false, 0⟩) :=
  ⟨CastRay_shadowed_iff ratLibm
    ⟨[.sphere (Sphere.new 1 ⟨0, 0, 0⟩ whiteAbsorb)], ⟨0, 0, -10⟩, true, false, false, 5,
      ⟨⟨0, 0, 0⟩, false, 0⟩⟩
    ⟨⟨0, 0, 5⟩, ⟨0, 0, -1⟩⟩ ⟨⟨0, 0, 0⟩, false, 0⟩
    ⟨((4 : ℚ) : WithTop ℚ), ⟨0, 0, 1⟩, ⟨0, 0, 1⟩, some whiteAbsorb⟩
    ((4 : ℚ) : WithTop ℚ) ⟨⟨0, 0, 0⟩, true, 0⟩ rfl
    (CheckIntersection_single _ _ _ _ _ _ (unitSphere_from_five whiteAbsorb))
    shadowScene_behind,
   shadowScene_near⟩

section
variable {F : Type} [LinearOrderedField F]

theorem AxisAlignedBox.faces_material (m : Libm F) (bx : AxisAlignedBox F) (ray : Ray F)
    (info : IntersectInfo F) (hinfo : info.time = ⊤) :
    (bx.faces m ray info).time = ⊤ ∨ (bx.faces m ray info).material = some bx.material := by
  have step : ∀ (N fp : Vec3 F) (ins : Vec3 F → Bool) (i : IntersectInfo F),
      (i.time = ⊤ ∨ i.material = some bx.material) →
      ((AxisAlignedBox.face m bx.material ray N fp ins i).time = ⊤ ∨
        (AxisAlignedBox.face m bx.material ray N fp ins i).material = some bx.material) := by
    intro N fp ins i hi
    rcases AxisAlignedBox.face_cases m bx.material ray N fp ins i with h | ⟨t, _, _, h⟩
    · rw [h]; exact hi
    · rw [h]; exact Or.inr rfl
  unfold AxisAlignedBox.faces
  simp only
  iterate 6 apply step
  exact Or.inl hinfo

theorem Object.Hits_material (m : Libm F) (ray : Ray F) (obj : Object F) (i : IntersectInfo F)
    (h : obj.Hits m ray i) : i.material = some obj.material := by
  cases obj with
  | sphere s =>
    have h' : s.Intersect m ray IntersectInfo.fresh = some (true, i) := h
    unfold Sphere.Intersect at h'
    simp only at h'
    split at h'
    · simp at h'
    · split_ifs at h' <;> simp only [Option.some.injEq, Prod.mk.injEq, true_and] at h'
      · simp at h'
      · rw [← h']; rfl
      · rw [← h']; rfl
  | plane p =>
    have h' : p.Intersect m ray IntersectInfo.fresh = some (true, i) := h
    unfold Plane.Intersect at h'
    simp only at h'
    split_ifs at h'
    · simp at h'
    · simp only [Option.some.injEq, Prod.mk.injEq, true_and] at h'
      rw [← h']; rfl
  | triangle t =>
    have h' : t.Intersect m ray IntersectInfo.fresh = some (true, i) := h
    rw [Triangle_Intersect_eq] at h'
    split_ifs at h'
    · simp at h'
    · simp only [Option.some.injEq, Prod.mk.injEq, true_and] at h'
      rw [← h']; rfl
  | box b =>
    have h' : b.Intersect m ray IntersectInfo.fresh = some (true, i) := h
    unfold AxisAlignedBox.Intersect at h'
    simp only at h'
    split_ifs at h' with h0
    · simp only [Option.some.injEq, Prod.mk.injEq, true_and] at h'
      rcases AxisAlignedBox.faces_material m b ray IntersectInfo.fresh rfl with h1 | h1
      · rw [h1] at h0; exact absurd h0 (lt_irrefl _)
      · rw [← h']; exact h1
    · simp at h'

theorem CheckIntersection_hit_mem (m : Libm F) (objects : List (Object F)) (ray : Ray F)
    (info i : IntersectInfo F) (h : CheckIntersection m objects ray info = some (true, i)) :
    ∃ obj ∈ objects, obj.Hits m ray i := by
  rcases CheckIntersection.loop_mem m ray objects false info true i h with ⟨h1, _⟩ | ⟨_, h2⟩
  · exact absurd h1 (by decide)
  · exact h2

theorem CastRay_phong_bounds (m : Libm F) (ray : Ray F) (info : IntersectInfo F)
    (material : Material F) (hitPoint_fix lightVec : Vec3 F) (shadowed : Bool)
    (hK : 0 ≤ material.Klocal) :
    (0 ≤ (CastRay.phong m ray info material hitPoint_fix lightVec shadowed).x ∧
      (CastRay.phong m ray info material hitPoint_fix lightVec shadowed).x ≤ material.Klocal) ∧
    (0 ≤ (CastRay.phong m ray info material hitPoint_fix lightVec shadowed).y ∧
      (CastRay.phong m ray info material hitPoint_fix lightVec shadowed).y ≤ material.Klocal) ∧
    (0 ≤ (CastRay.phong m ray info material hitPoint_fix lightVec shadowed).z ∧
      (CastRay.phong m ray info material hitPoint_fix lightVec shadowed).z ≤ material.Klocal) := by
  have clamp : ∀ x : F, 0 ≤ material.Klocal * max 0 (min 1 x) ∧
      material.Klocal * max 0 (min 1 x) ≤ material.Klocal := by
    intro x
    have h0 : (0 : F) ≤ max 0 (min 1 x) := le_max_left _ _
    have h1 : max 0 (min 1 x) ≤ (1 : F) := max_le zero_le_one (min_le_left _ _)
    exact ⟨mul_nonneg hK h0, by nlinarith⟩
  unfold CastRay.phong
  simp only [Vec3.smul]
  exact ⟨clamp _, clamp _, clamp _⟩

theorem CastRay_localColor_bounds (m : Libm F) (g : Globals F) (ray : Ray F)
    (info : IntersectInfo F) (material : Material F) (hitPoint_fix lightVec : Vec3 F)
    (payload : Payload F) (hK : 0 ≤ material.Klocal)
    (hamb : g.activatePhong = false → material.ambient.InUnit) :
    (0 ≤ (CastRay.localColor m g ray info material hitPoint_fix lightVec payload).x ∧
      (CastRay.localColor m g ray info material hitPoint_fix lightVec payload).x ≤
        material.Klocal) ∧
    (0 ≤ (CastRay.localColor m g ray info material hitPoint_fix lightVec payload).y ∧
      (CastRay.localColor m g ray info material hitPoint_fix lightVec payload).y ≤
        material.Klocal) ∧
    (0 ≤ (CastRay.localColor m g ray info material hitPoint_fix lightVec payload).z ∧
      (CastRay.localColor m g ray info material hitPoint_fix lightVec payload).z ≤
        material.Klocal) := by
  unfold CastRay.localColor
  by_cases hp : g.activatePhong = true
  · simp only [hp, if_true]
    exact CastRay_phong_bounds m ray info material hitPoint_fix lightVec _ hK
  · have hp' : g.activatePhong = false := by simpa using hp
    obtain ⟨⟨ax0, ax1⟩, ⟨ay0, ay1⟩, ⟨az0, az1⟩⟩ := hamb hp'
    have amb : (0 ≤ (Vec3.smul material.Klocal material.ambient).x ∧
          (Vec3.smul material.Klocal material.ambient).x ≤ material.Klocal) ∧
        (0 ≤ (Vec3.smul material.Klocal material.ambient).y ∧
          (Vec3.smul material.Klocal material.ambient).y ≤ material.Klocal) ∧
        (0 ≤ (Vec3.smul material.Klocal material.ambient).z ∧
          (Vec3.smul material.Klocal material.ambient).z ≤ material.Klocal) := by
      simp only [Vec3.smul]
      exact ⟨⟨mul_nonneg hK ax0, by nlinarith⟩, ⟨mul_nonneg hK ay0, by nlinarith⟩,
        ⟨mul_nonneg hK az0, by nlinarith⟩⟩
    simp only [hp', Bool.false_eq_true, if_false]
    split_ifs
    · simp only [Vec3.splat]
      exact ⟨⟨le_rfl, hK⟩, ⟨le_rfl, hK⟩, ⟨le_rfl, hK⟩⟩
    · exact amb
    · exact amb

end

section
variable {F : Type} [LinearOrderedField F]

theorem Vec3.inUnit_add_smul (L c : Vec3 F) (K Kr : F)
    (hL : (0 ≤ L.x ∧ L.x ≤ K) ∧ (0 ≤ L.y ∧ L.y ≤ K) ∧ (0 ≤ L.z ∧ L.z ≤ K)) (hc : c.InUnit)
    (hKr : 0 ≤ Kr) (hsum : K + Kr ≤ 1) : (Vec3.add L (Vec3.smul Kr c)).InUnit := by
  obtain ⟨⟨lx0, lx1⟩, ⟨ly0, ly1⟩, ⟨lz0, lz1⟩⟩ := hL
  obtain ⟨⟨sx0, sx1⟩, ⟨sy0, sy1⟩, ⟨sz0, sz1⟩⟩ := hc
  simp only [Vec3.InUnit, Vec3.add, Vec3.smul]
  refine ⟨⟨?_, ?_⟩, ⟨?_, ?_⟩, ⟨?_, ?_⟩⟩
  · exact add_nonneg lx0 (mul_nonneg hKr sx0)
  · have := mul_le_of_le_one_right hKr sx1
    linarith
  · exact add_nonneg ly0 (mul_nonneg hKr sy0)
  · have := mul_le_of_le_one_right hKr sy1
    linarith
  · exact add_nonneg lz0 (mul_nonneg hKr sz0)
  · have := mul_le_of_le_one_right hKr sz1
    linarith

theorem CastRayTrace_color_inUnit (m : Libm F) (g : Globals F)
    (hmat : ∀ obj ∈ g.objects, obj.material.Balanced ∧
      (g.activatePhong = false → obj.material.ambient.InUnit))
    (hfresh : g.freshPayload.color.InUnit) :
    ∀ (n : Nat) (ray : Ray F) (payload : Payload F) (r : WithTop F) (p' : Payload F),
      (g.maxReflections + 1 - payload.numBounces).toNat = n →
      (payload.color.InUnit ∨
        ∃ info, CheckIntersection m g.objects ray IntersectInfo.fresh = some (true, info)) →
      (CastRayTrace m g ray payload).2 = some (r, p') → p'.color.InUnit := by
  intro n
  induction n using Nat.strong_induction_on with
  | _ n ih =>
    intro ray payload r p' hn hpre hret
    cases hc : CheckIntersection m g.objects ray IntersectInfo.fresh with
    | none =>
      rw [CastRayTrace] at hret
      simp only [hc] at hret
      simp at hret
    | some bi =>
      obtain ⟨b, info⟩ := bi
      cases b with
      | false =>
        rw [CastRayTrace_miss m g ray payload info hc] at hret
        simp only [Option.some.injEq, Prod.mk.injEq] at hret
        rw [← hret.2]
        rcases hpre with h | ⟨info', h⟩
        · exact h
        · rw [hc] at h; simp at h
      | true =>
        obtain ⟨material, shadowed, hm1, _, _, _, hcases⟩ :=
          CastRayTrace_hit_inv m g ray payload info r p' hc hret
        obtain ⟨obj, hobj, hhits⟩ := CheckIntersection_hit_mem m g.objects ray _ info hc
        have hmo : material = obj.material := by
          have := Object.Hits_material m ray obj info hhits
          rw [hm1] at this
          exact Option.some.inj this
        obtain ⟨⟨hK, hKr, hsum⟩, hamb⟩ := hmat obj hobj
        rw [← hmo] at hK hKr hsum hamb
        have hloc := CastRay_localColor_bounds m g ray info material
          (Vec3.add info.hitPoint (Vec3.smul (1 / 10) info.normal))
          (Vec3.normalize m (Vec3.sub g.lightPos
            (Vec3.add info.hitPoint (Vec3.smul (1 / 10) info.normal))))
          ⟨payload.color, shadowed, payload.numBounces⟩ hK hamb
        obtain ⟨⟨lx0, lx1⟩, ⟨ly0, ly1⟩, ⟨lz0, lz1⟩⟩ := hloc
        rcases hcases with ⟨_, hcol, _⟩ | ⟨_, _, hb, t, refPayload, hsub, hcol, _⟩
        · rw [hcol]
          exact ⟨⟨lx0, by linarith⟩, ⟨ly0, by linarith⟩, ⟨lz0, by linarith⟩⟩
        · have hsubcol := ih ((g.maxReflections + 1 - (payload.numBounces + 1)).toNat)
            (by rw [← hn]; omega) _
            ⟨g.freshPayload.color, g.freshPayload.shadowed, payload.numBounces + 1⟩ t refPayload
            rfl (Or.inl hfresh) hsub
          rw [hcol]
          exact Vec3.inUnit_add_smul _ _ _ _ ⟨⟨lx0, lx1⟩, ⟨ly0, ly1⟩, ⟨lz0, lz1⟩⟩ hsubcol hKr hsum

/-- C17 as amended. If every material of the scene has non-negative weights `Klocal` and
`Kreflectivity` whose sum is at most one (and, when Phong is disabled, an ambient colour
with channels in `[0, 1]`) and the colour of a default-constructed payload has its channels
in `[0, 1]`, then for every configuration and every ray that hits a primitive every channel
of `payload.color` after `CastRay` lies in `[0, 1]`. -/
theorem CastRay_color_in_unit (m : Libm F) (g : Globals F) (ray : Ray F) (payload : Payload F)
    (r : WithTop F) (p' : Payload F)
    (hmat : ∀ obj ∈ g.objects, obj.material.Balanced ∧
      (g.activatePhong = false → obj.material.ambient.InUnit))
    (hfresh : g.freshPayload.color.InUnit)
    (hhit : ∃ info, CheckIntersection m g.objects ray IntersectInfo.fresh = some (true, info))
    (hret : CastRay m g ray payload = some (r, p')) :
    (0 ≤ p'.color.x ∧ p'.color.x ≤ 1) ∧ (0 ≤ p'.color.y ∧ p'.color.y ≤ 1) ∧
      (0 ≤ p'.color.z ∧ p'.color.z ≤ 1) :=
  CastRayTrace_color_inUnit m g hmat hfresh _ ray payload r p' rfl (Or.inr hhit) hret

end

/-- C17 fails for a material whose `Klocal` exceeds one: a unit sphere with `Klocal = 2` and
white ambient colour, Phong, shadows and reflections disabled; the ray from `(0, 0, 5)`
towards `-z` hits and the payload colour becomes `(2, 2, 2)`. -/
theorem CastRay_color_exceeds_one :
    CheckIntersection ratLibm
        [.sphere (Sphere.new 1 ⟨0, 0, 0⟩ ⟨⟨1, 1, 1⟩, ⟨1, 1, 1⟩, ⟨1, 1, 1⟩, 1, 2, 0⟩)]
        ⟨⟨0, 0, 5⟩, ⟨0, 0, -1⟩⟩ IntersectInfo.fresh =
      some (true, ⟨((4 : ℚ) : WithTop ℚ), ⟨0, 0, 1⟩, ⟨0, 0, 1⟩,
        some ⟨⟨1, 1, 1⟩, ⟨1, 1, 1⟩, ⟨1, 1, 1⟩, 1, 2, 0⟩⟩) ∧
    CastRay ratLibm
      ⟨[.sphere (Sphere.new 1 ⟨0, 0, 0⟩ ⟨⟨1, 1, 1⟩, ⟨1, 1, 1⟩, ⟨1, 1, 1⟩, 1, 2, 0⟩)],
        ⟨0, 0, 10⟩, false, false, false, 5, ⟨⟨0, 0, 0⟩, false, 0⟩⟩
      ⟨⟨0, 0, 5⟩, ⟨0, 0, -1⟩⟩ ⟨⟨0, 0, 0⟩, false, 0⟩ =
      some (((4 : ℚ) : WithTop ℚ), ⟨⟨2, 2, 2⟩, false, 0⟩) ∧
    ¬ ((2 : ℚ) ≤ 1) := by
  have hhit : CheckIntersection ratLibm
      [.sphere (Sphere.new 1 ⟨0, 0, 0⟩ ⟨⟨1, 1, 1⟩, ⟨1, 1, 1⟩, ⟨1, 1, 1⟩, 1, 2, 0⟩)]
      ⟨⟨0, 0, 5⟩, ⟨0, 0, -1⟩⟩ IntersectInfo.fresh =
      some (true, ⟨((4 : ℚ) : WithTop ℚ), ⟨0, 0, 1⟩, ⟨0, 0, 1⟩,
        some ⟨⟨1, 1, 1⟩, ⟨1, 1, 1⟩, ⟨1, 1, 1⟩, 1, 2, 0⟩⟩) :=
    CheckIntersection_single _ _ _ _ _ _ (unitSphere_from_five _)
  refine ⟨hhit, ?_, by norm_num⟩
  have h := CastRayTrace_hit_local ratLibm
    ⟨[.sphere (Sphere.new 1 ⟨0, 0, 0⟩ ⟨⟨1, 1, 1⟩, ⟨1, 1, 1⟩, ⟨1, 1, 1⟩, 1, 2, 0⟩)],
      ⟨0, 0, 10⟩, false, false, false, 5, ⟨⟨0, 0, 0⟩, false, 0⟩⟩
    ⟨⟨0, 0, 5⟩, ⟨0, 0, -1⟩⟩ ⟨⟨0, 0, 0⟩, false, 0⟩
    ⟨((4 : ℚ) : WithTop ℚ), ⟨0, 0, 1⟩, ⟨0, 0, 1⟩,
      some ⟨⟨1, 1, 1⟩, ⟨1, 1, 1⟩, ⟨1, 1, 1⟩, 1, 2, 0⟩⟩
    ⟨⟨1, 1, 1⟩, ⟨1, 1, 1⟩, ⟨1, 1, 1⟩, 1, 2, 0⟩ false
    hhit rfl (CastRay_shadow_off _ _ _ _ _ rfl) (Or.inl rfl)
  unfold CastRay
  rw [h]
  simp only [CastRay.localColor, Bool.false_eq_true, if_false, Vec3.smul, mul_one]

theorem flatSphere_run (material : Material ℚ) :
    CastRay ratLibm
      ⟨[.sphere (Sphere.new 1 ⟨0, 0, 0⟩ material)], ⟨0, 0, 10⟩, false, false, false, 5,
        ⟨⟨0, 0, 0⟩, false, 0⟩⟩
      ⟨⟨0, 0, 5⟩, ⟨0, 0, -1⟩⟩ ⟨⟨0, 0, 0⟩, false, 0⟩ =
      some (((4 : ℚ) : WithTop ℚ), ⟨Vec3.smul material.Klocal material.ambient, false, 0⟩) := by
  have h := CastRayTrace_hit_local ratLibm
    ⟨[.sphere (Sphere.new 1 ⟨0, 0, 0⟩ material)],
      ⟨0, 0, 10⟩, false, false, false, 5, ⟨⟨0, 0, 0⟩, false, 0⟩⟩
    ⟨⟨0, 0, 5⟩, ⟨0, 0, -1⟩⟩ ⟨⟨0, 0, 0⟩, false, 0⟩
    ⟨((4 : ℚ) : WithTop ℚ), ⟨0, 0, 1⟩, ⟨0, 0, 1⟩, some material⟩
    material false
    (CheckIntersection_single _ _ _ _ _ _ (unitSphere_from_five _)) rfl
    (CastRay_shadow_off _ _ _ _ _ rfl) (Or.inl rfl)
  unfold CastRay
  rw [h]
  simp only [CastRay.localColor, Bool.false_eq_true, if_false]

/-- C17 as amended, at a unit sphere of a material with ambient colour `(1, 1/2, 1/4)`,
`Klocal = 4/5` and `Kreflectivity = 1/5`, Phong, shadows and reflections disabled: the ray
from `(0, 0, 5)` towards `-z` hits and the payload colour becomes `(4/5, 2/5, 1/5)`. -/
theorem CastRay_color_in_unit_witness :
    CastRay ratLibm
      ⟨[.sphere (Sphere.new 1 ⟨0, 0, 0⟩ ⟨⟨1, 1 / 2, 1 / 4⟩, ⟨1, 1, 1⟩, ⟨1, 1, 1⟩, 1, 4 / 5, 1 / 5⟩)],
        ⟨0, 0, 10⟩, false, false, false, 5, ⟨⟨0, 0, 0⟩, false, 0⟩⟩
      ⟨⟨0, 0, 5⟩, ⟨0, 0, -1⟩⟩ ⟨⟨0, 0, 0⟩, false, 0⟩ =
      some (((4 : ℚ) : WithTop ℚ), ⟨⟨4 / 5, 2 / 5, 1 / 5⟩, false, 0⟩) ∧
    ((0 ≤ (4 / 5 : ℚ) ∧ (4 / 5 : ℚ) ≤ 1) ∧ (0 ≤ (2 / 5 : ℚ) ∧ (2 / 5 : ℚ) ≤ 1) ∧
      (0 ≤ (1 / 5 : ℚ) ∧ (1 / 5 : ℚ) ≤ 1)) := by
  have hrun : CastRay ratLibm
      ⟨[.sphere (Sphere.new 1 ⟨0, 0, 0⟩ ⟨⟨1, 1 / 2, 1 / 4⟩, ⟨1, 1, 1⟩, ⟨1, 1, 1⟩, 1, 4 / 5, 1 / 5⟩)],
        ⟨0, 0, 10⟩, false, false, false, 5, ⟨⟨0, 0, 0⟩, false, 0⟩⟩
      ⟨⟨0, 0, 5⟩, ⟨0, 0, -1⟩⟩ ⟨⟨0, 0, 0⟩, false, 0⟩ =
      some (((4 : ℚ) : WithTop ℚ), ⟨⟨4 / 5, 2 / 5, 1 / 5⟩, false, 0⟩) := by
    rw [flatSphere_run]
    norm_num [Vec3.smul]
  exact ⟨hrun, CastRay_color_in_unit ratLibm
    ⟨[.sphere (Sphere.new 1 ⟨0, 0, 0⟩ ⟨⟨1, 1 / 2, 1 / 4⟩, ⟨1, 1, 1⟩, ⟨1, 1, 1⟩, 1, 4 / 5, 1 / 5⟩)],
      ⟨0, 0, 10⟩, false, false, false, 5, ⟨⟨0, 0, 0⟩, false, 0⟩⟩
    ⟨⟨0, 0, 5⟩, ⟨0, 0, -1⟩⟩ ⟨⟨0, 0, 0⟩, false, 0⟩ ((4 : ℚ) : WithTop ℚ)
    ⟨⟨4 / 5, 2 / 5, 1 / 5⟩, false, 0⟩
    (by
      intro obj hobj
      simp only [List.mem_singleton] at hobj
      subst hobj
      norm_num [Object.material, Sphere.new, Material.Balanced, Vec3.InUnit])
    (by norm_num [Vec3.InUnit])
    ⟨_, CheckIntersection_single _ _ _ _ _ _ (unitSphere_from_five _)⟩
    hrun⟩

/-! ### Unit normals -/

section
variable {F : Type} [LinearOrderedField F]

end

section
variable {F : Type} [LinearOrderedField F]

theorem AxisAlignedBox.foldl_first_min {α : Type} (m : Libm F) (material : Material F)
    (ray : Ray F) (φ : α → BoxFace F) (info0 : IntersectInfo F) (h0 : info0.time = ⊤)
    (L : List α) :
    ((∀ a ∈ L, ¬ (φ a).Accepts ray) ∧
      L.foldl (fun info a =>
        AxisAlignedBox.face m material ray (φ a).N (φ a).facePoint (φ a).inside info) info0 =
        info0) ∨
    ∃ pre a post, L = pre ++ a :: post ∧ (φ a).Accepts ray ∧
      L.foldl (fun info a =>
        AxisAlignedBox.face m material ray (φ a).N (φ a).facePoint (φ a).inside info) info0 =
        ⟨((φ a).time ray : F), ray.eval ((φ a).time ray), Vec3.normalize m (φ a).N,
          some material⟩ ∧
      (∀ b ∈ pre, (φ b).Accepts ray → (φ a).time ray < (φ b).time ray) ∧
      (∀ b ∈ post, (φ b).Accepts ray → (φ a).time ray ≤ (φ b).time ray) := by
  induction L using List.reverseRecOn with
  | nil => exact Or.inl ⟨fun a ha => absurd ha (List.not_mem_nil _), rfl⟩
  | append_singleton L c ih =>
    rw [List.foldl_append, List.foldl_cons, List.foldl_nil]
    obtain ⟨hacc, hrej⟩ := AxisAlignedBox.face_of_accepts m material ray (φ c)
      (L.foldl (fun info a =>
        AxisAlignedBox.face m material ray (φ a).N (φ a).facePoint (φ a).inside info) info0)
    rcases ih with ⟨hnone, hr⟩ | ⟨pre, a, post, hL, ha, hr, hpre, hpost⟩
    · by_cases hc : (φ c).Accepts ray
      · refine Or.inr ⟨L, c, [], rfl, hc, ?_, ?_, ?_⟩
        · rw [hacc ⟨hc, by rw [hr, h0]; exact WithTop.coe_lt_top _⟩]
        · intro b hb hbacc
          exact absurd hbacc (hnone b hb)
        · intro b hb
          exact absurd hb (List.not_mem_nil _)
      · refine Or.inl ⟨?_, ?_⟩
        · intro b hb
          rcases List.mem_append.mp hb with h | h
          · exact hnone b h
          · rw [List.mem_singleton.mp h]; exact hc
        · rw [hrej (fun h => hc h.1), hr]
    · by_cases hc : (φ c).Accepts ray ∧ (φ c).time ray < (φ a).time ray
      · refine Or.inr ⟨L, c, [], rfl, hc.1, ?_, ?_, ?_⟩
        · rw [hacc ⟨hc.1, by rw [hr]; exact WithTop.coe_lt_coe.mpr hc.2⟩]
        · intro b hb hbacc
          rw [hL] at hb
          rcases List.mem_append.mp hb with h | h
          · exact lt_trans hc.2 (hpre b h hbacc)
          · rcases List.mem_cons.mp h with h | h
            · rw [h]; exact hc.2
            · exact lt_of_lt_of_le hc.2 (hpost b h hbacc)
        · intro b hb
          exact absurd hb (List.not_mem_nil _)
      · refine Or.inr ⟨pre, a, post ++ [c], by rw [hL]; simp, ha, ?_, hpre, ?_⟩
        · rw [hrej (fun h => hc ⟨h.1, by
            have := h.2
            rw [hr] at this
            exact WithTop.coe_lt_coe.mp this⟩), hr]
        · intro b hb hbacc
          rcases List.mem_append.mp hb with h | h
          · exact hpost b h hbacc
          · rw [List.mem_singleton.mp h] at hbacc ⊢
            exact not_lt.mp (fun hlt => hc ⟨hbacc, hlt⟩)

end

section
variable {F : Type} [LinearOrderedField F]

/-- C22 as amended. With `delta = 11258999 / 2^50`, the value of `float delta = 1e-8`: a face
block whose normal `N` satisfies `|dot(direction, N)| < delta` is skipped: it leaves the
`IntersectInfo` as it found it, whatever that is, and does not accept the ray; and every hit
that the box reports for a fresh `IntersectInfo` is the hit of a face block that accepts the
ray, whose normal therefore has `|dot(direction, N)| >= delta`. -/
theorem AxisAlignedBox_face_near_parallel_skipped (m : Libm F) (bx : AxisAlignedBox F)
    (ray : Ray F) (f : BoxFace F)
    (hpar : |Vec3.dot ray.direction f.N| < 11258999 / 1125899906842624) :
    (∀ info : IntersectInfo F,
      AxisAlignedBox.face m bx.material ray f.N f.facePoint f.inside info = info) ∧
    ¬ f.Accepts ray ∧
    (∀ i, bx.Intersect m ray IntersectInfo.fresh = some (true, i) →
      ∃ f' ∈ bx.faceList, f'.Accepts ray ∧
        11258999 / 1125899906842624 ≤ |Vec3.dot ray.direction f'.N| ∧
        i = ⟨(f'.time ray : F), ray.eval (f'.time ray), Vec3.normalize m f'.N,
          some bx.material⟩) := by
  refine ⟨fun info => AxisAlignedBox.face_skip m bx.material ray f.N f.facePoint f.inside info
    hpar, fun hacc => hacc.1 hpar, ?_⟩
  intro i hi
  have hfaces : bx.faces m ray IntersectInfo.fresh = i ∧
      (bx.faces m ray IntersectInfo.fresh).time < ⊤ := by
    unfold AxisAlignedBox.Intersect at hi
    simp only at hi
    split_ifs at hi with hlt
    · simp only [Option.some.injEq, Prod.mk.injEq, true_and] at hi
      exact ⟨hi, hlt⟩
    · simp at hi
  rw [AxisAlignedBox.faces_eq_foldl] at hfaces
  rcases AxisAlignedBox.foldl_first_min m bx.material ray id IntersectInfo.fresh rfl
      bx.faceList with ⟨_, hr⟩ | ⟨pre, a, post, hL, ha, hr, _, _⟩
  · simp only [id] at hr
    rw [hr] at hfaces
    exact absurd hfaces.2 (lt_irrefl _)
  · simp only [id] at hr ha
    refine ⟨a, ?_, ha, not_lt.mp ha.1, ?_⟩
    · rw [hL]
      exact List.mem_append_right _ (List.mem_cons_self _ _)
    · rw [← hfaces.1, hr]

end

/-- C22 fails for a ray with `delta <= |dot(direction, N)| < 1e-6`: for the box with corners
`(-1, -1, -1)` and `(1, 1, 1)` and the ray from `(0, 0, 5)` with direction `(0, 0, -5e-7)`,
the front face (normal `(0, 0, 1)`) is not skipped: its block accepts the ray and supplies
the reported hit, at time `8000000` in the point `(0, 0, 1)`. -/
theorem AxisAlignedBox_face_small_angle_hit :
    |Vec3.dot (⟨0, 0, -(1 / 2000000)⟩ : Vec3 ℚ) ⟨0, 0, 1⟩| < 1 / 1000000 ∧
    (∃ f ∈ (AxisAlignedBox.new (⟨-1, -1, -1⟩ : Vec3 ℚ) ⟨1, 1, 1⟩ whiteAbsorb).faceList,
      f.N = ⟨0, 0, 1⟩ ∧ f.Accepts ⟨⟨0, 0, 5⟩, ⟨0, 0, -(1 / 2000000)⟩⟩) ∧
    (AxisAlignedBox.new (⟨-1, -1, -1⟩ : Vec3 ℚ) ⟨1, 1, 1⟩ whiteAbsorb).Intersect ratLibm
      ⟨⟨0, 0, 5⟩, ⟨0, 0, -(1 / 2000000)⟩⟩ IntersectInfo.fresh =
      some (true, ⟨((8000000 : ℚ) : WithTop ℚ), ⟨0, 0, 1⟩, ⟨0, 0, 1⟩, some whiteAbsorb⟩) := by
  have habs : |(1 : ℚ) / 2000000| = 1 / 2000000 := abs_of_pos (by norm_num)
  refine ⟨by norm_num [Vec3.dot, habs], ?_, ?_⟩
  · simp only [AxisAlignedBox.faceList]
    refine ⟨_, List.mem_cons_self _ _, rfl, ?_⟩
    norm_num [BoxFace.Accepts, BoxFace.time, Vec3.dot, Vec3.sub, Ray.eval, Vec3.add, Vec3.smul,
      habs, AxisAlignedBox.new]
  · have hnorm : Vec3.normalize ratLibm (⟨0, 0, 1⟩ : Vec3 ℚ) = ⟨0, 0, 1⟩ := by
      norm_num [Vec3.normalize, Vec3.dot, Vec3.smul, ratLibm_sqrt_one]
    have hmin : min (-1 : ℚ) 1 = -1 := by norm_num
    have hmax : max (-1 : ℚ) 1 = 1 := by norm_num
    unfold AxisAlignedBox.Intersect AxisAlignedBox.faces AxisAlignedBox.new
    simp only [hmin, hmax]
    rw [AxisAlignedBox.face_hit ratLibm whiteAbsorb ⟨⟨0, 0, 5⟩, ⟨0, 0, -(1 / 2000000)⟩⟩
      ⟨0, 0, 1⟩ _ _ IntersectInfo.fresh 8000000
      (by norm_num [Vec3.dot, Vec3.sub])
      (by norm_num [Vec3.dot, habs])
      (by norm_num)
      (by norm_num [Ray.eval, Vec3.add, Vec3.smul])
      (WithTop.coe_lt_top _)]
    rw [AxisAlignedBox.face_skip ratLibm whiteAbsorb ⟨⟨0, 0, 5⟩, ⟨0, 0, -(1 / 2000000)⟩⟩
      ⟨0, 1, 0⟩ _ _ _ (by norm_num [Vec3.dot])]
    rw [AxisAlignedBox.face_skip ratLibm whiteAbsorb ⟨⟨0, 0, 5⟩, ⟨0, 0, -(1 / 2000000)⟩⟩
      ⟨-1, 0, 0⟩ _ _ _ (by norm_num [Vec3.dot])]
    rw [AxisAlignedBox.face_skip ratLibm whiteAbsorb ⟨⟨0, 0, 5⟩, ⟨0, 0, -(1 / 2000000)⟩⟩
      ⟨1, 0, 0⟩ _ _ _ (by norm_num [Vec3.dot])]
    rw [AxisAlignedBox.face_keep ratLibm whiteAbsorb ⟨⟨0, 0, 5⟩, ⟨0, 0, -(1 / 2000000)⟩⟩
      ⟨0, 0, -1⟩ _ _ _ 12000000
      (by norm_num [Vec3.dot, Vec3.sub])
      (by
        simp only [not_lt]
        exact_mod_cast (by norm_num : (8000000 : ℚ) ≤ 12000000))]
    rw [AxisAlignedBox.face_skip ratLibm whiteAbsorb ⟨⟨0, 0, 5⟩, ⟨0, 0, -(1 / 2000000)⟩⟩
      ⟨0, -1, 0⟩ _ _ _ (by norm_num [Vec3.dot])]
    rw [hnorm]
    simp only [WithTop.coe_lt_top, if_true]
    norm_num [Ray.eval, Vec3.add, Vec3.smul]

/-- C22 as amended, at the box with corners `(-1, -1, -1)` and `(1, 1, 1)`: for the ray from
`(0, 0, 5)` with direction `(0, 0, -1)` the top face block (normal `(0, 1, 0)`) is skipped;
and the bound is sharp: for the ray from `(0, 0, 5)` with direction `(0, 0, -delta)`, where
`|dot(direction, N)| = delta` for the front face, the front face block accepts the ray. -/
theorem AxisAlignedBox_face_near_parallel_skipped_witness :
    |Vec3.dot (⟨0, 0, -1⟩ : Vec3 ℚ) ⟨0, 1, 0⟩| < 11258999 / 1125899906842624 ∧
    ¬ (BoxFace.mk (⟨0, 1, 0⟩ : Vec3 ℚ) ⟨-1 + 1 / 2, 1, -1 + 1 / 2⟩
      (fun P => P.x ≤ 1 ∧ P.x ≥ -1 ∧ P.y = 1 ∧ P.z ≤ 1 ∧ P.z ≥ -1)).Accepts
        ⟨⟨0, 0, 5⟩, ⟨0, 0, -1⟩⟩ ∧
    (BoxFace.mk (⟨0, 0, 1⟩ : Vec3 ℚ) ⟨-1 + 1 / 2, -1 + 1 / 2, 1⟩
      (fun P => P.x ≤ 1 ∧ P.x ≥ -1 ∧ P.y ≤ 1 ∧ P.y ≥ -1 ∧ P.z = 1)).Accepts
        ⟨⟨0, 0, 5⟩, ⟨0, 0, -(11258999 / 1125899906842624)⟩⟩ :=
  ⟨by norm_num [Vec3.dot],
   (AxisAlignedBox_face_near_parallel_skipped ratLibm
    (AxisAlignedBox.new (⟨-1, -1, -1⟩ : Vec3 ℚ) ⟨1, 1, 1⟩ whiteAbsorb)
    ⟨⟨0, 0, 5⟩, ⟨0, 0, -1⟩⟩
    (BoxFace.mk (⟨0, 1, 0⟩ : Vec3 ℚ) ⟨-1 + 1 / 2, 1, -1 + 1 / 2⟩
      (fun P => P.x ≤ 1 ∧ P.x ≥ -1 ∧ P.y = 1 ∧ P.z ≤ 1 ∧ P.z ≥ -1))
    (by norm_num [Vec3.dot])).2.1,
   by
    have habs : |(11258999 : ℚ) / 1125899906842624| = 11258999 / 1125899906842624 :=
      abs_of_pos (by norm_num)
    norm_num [BoxFace.Accepts, BoxFace.time, Vec3.dot, Vec3.sub, Ray.eval, Vec3.add, Vec3.smul,
      habs]⟩

/-! ### `CastRay`: local illumination and reflection -/

section
variable {F : Type} [LinearOrderedField F]

theorem CastRay_phong_eq_spec (m : Libm F) (ray : Ray F) (info : IntersectInfo F)
    (material : Material F) (hitPoint_fix lightVec : Vec3 F) (shadowed : Bool) :
    CastRay.phong m ray info material hitPoint_fix lightVec shadowed =
      phongSpec m material info.normal lightVec
        (Vec3.normalize m (Vec3.sub ray.origin hitPoint_fix)) shadowed := by
  have habs : |Vec3.dot lightVec
      (if Vec3.dot lightVec info.normal < 0 then Vec3.smul (-1) info.normal else info.normal)| =
      |Vec3.dot lightVec info.normal| := by
    split_ifs
    · have : Vec3.dot lightVec (Vec3.smul (-1) info.normal) = -Vec3.dot lightVec info.normal := by
        simp only [Vec3.dot, Vec3.smul]; ring
      rw [this, abs_neg]
    · rfl
  have hR : ∀ Nf : Vec3 F, Vec3.smul (Vec3.dot lightVec Nf) (Vec3.smul 2 Nf) =
      Vec3.smul (2 * Vec3.dot lightVec Nf) Nf := by
    intro Nf
    simp only [Vec3.smul, Vec3.mk.injEq]
    refine ⟨?_, ?_, ?_⟩ <;> ring
  have hmax : ∀ x : F, max 0 |x| = |x| := fun x => max_eq_right (abs_nonneg x)
  unfold CastRay.phong phongSpec clamp01
  simp only [habs, hR, hmax, one_mul]

theorem CastRayTrace_local_only (m : Libm F) (g : Globals F) (ray : Ray F) (payload : Payload F)
    (info : IntersectInfo F) (material : Material F) (r : WithTop F) (p' : Payload F)
    (hno : g.activateReflections = false ∨ material.Kreflectivity ≤ 0)
    (hhit : CheckIntersection m g.objects ray IntersectInfo.fresh = some (true, info))
    (hmat : info.material = some material)
    (hret : CastRay m g ray payload = some (r, p')) :
    p'.color = CastRay.localColor m g ray info material
      (Vec3.add info.hitPoint (Vec3.smul (1 / 10) info.normal))
      (Vec3.normalize m (Vec3.sub g.lightPos
        (Vec3.add info.hitPoint (Vec3.smul (1 / 10) info.normal))))
      ⟨payload.color, p'.shadowed, payload.numBounces⟩ := by
  obtain ⟨material', shadowed, hm', _, _, hsh, hcase⟩ :=
    CastRayTrace_hit_inv m g ray payload info r p' hhit hret
  rw [hmat] at hm'
  simp only [Option.some.injEq] at hm'
  subst hm'
  rcases hcase with ⟨_, hc, _⟩ | ⟨hr, hK, _⟩
  · rw [hc, hsh]
  · rcases hno with h | h
    · rw [h] at hr; simp at hr
    · exact absurd hK (not_lt.mpr h)

/-- C23. With Phong enabled and no reflection contribution, for a ray that hits at `H` with
normal `N` a primitive of material `material`: the payload colour after `CastRay` is the
Phong colour of the specification for `N`, the light vector `L = normalize(lightPos - H')` and
the view vector `V = normalize(origin - H')`, `H' = H + 0.1 N`; when the payload is shadowed
it is `Klocal * clamp01(0.1 * ambient)` per channel. -/
theorem CastRay_phong_color (m : Libm F) (g : Globals F) (ray : Ray F) (payload : Payload F)
    (info : IntersectInfo F) (material : Material F) (r : WithTop F) (p' : Payload F)
    (hphong : g.activatePhong = true)
    (hno : g.activateReflections = false ∨ material.Kreflectivity ≤ 0)
    (hhit : CheckIntersection m g.objects ray IntersectInfo.fresh = some (true, info))
    (hmat : info.material = some material)
    (hret : CastRay m g ray payload = some (r, p')) :
    p'.color = phongSpec m material info.normal
      (Vec3.normalize m (Vec3.sub g.lightPos
        (Vec3.add info.hitPoint (Vec3.smul (1 / 10) info.normal))))
      (Vec3.normalize m (Vec3.sub ray.origin
        (Vec3.add info.hitPoint (Vec3.smul (1 / 10) info.normal)))) p'.shadowed ∧
    (p'.shadowed = true →
      p'.color = Vec3.smul material.Klocal
        ⟨clamp01 (1 / 10 * material.ambient.x), clamp01 (1 / 10 * material.ambient.y),
          clamp01 (1 / 10 * material.ambient.z)⟩) := by
  have hloc := CastRayTrace_local_only m g ray payload info material r p' hno hhit hmat hret
  unfold CastRay.localColor at hloc
  simp only [hphong, if_true] at hloc
  rw [CastRay_phong_eq_spec] at hloc
  refine ⟨hloc, fun hs => ?_⟩
  rw [hloc, hs]
  simp [phongSpec]

/-- C24. With Phong disabled and no reflection contribution, for a ray that hits a primitive
of material `material`: with shadows enabled the payload colour after `CastRay` is black when
the payload is shadowed and `Klocal * ambient` otherwise; with shadows disabled it is
`Klocal * ambient`, whatever the payload passed in. -/
theorem CastRay_flat_color (m : Libm F) (g : Globals F) (ray : Ray F) (payload : Payload F)
    (info : IntersectInfo F) (material : Material F) (r : WithTop F) (p' : Payload F)
    (hphong : g.activatePhong = false)
    (hno : g.activateReflections = false ∨ material.Kreflectivity ≤ 0)
    (hhit : CheckIntersection m g.objects ray IntersectInfo.fresh = some (true, info))
    (hmat : info.material = some material)
    (hret : CastRay m g ray payload = some (r, p')) :
    (g.activateShadows = true →
      p'.color = if p'.shadowed then ⟨0, 0, 0⟩
        else Vec3.smul material.Klocal material.ambient) ∧
    (g.activateShadows = false → p'.color = Vec3.smul material.Klocal material.ambient) := by
  have hloc := CastRayTrace_local_only m g ray payload info material r p' hno hhit hmat hret
  unfold CastRay.localColor at hloc
  simp only [hphong, Bool.false_eq_true, if_false] at hloc
  refine ⟨fun hs => ?_, fun hs => ?_⟩
  · simp only [hs, if_true] at hloc
    rw [hloc]
    rfl
  · simp only [hs, Bool.false_eq_true, if_false] at hloc
    exact hloc

end

theorem ratLibm_normalize_z (z : ℚ) (hz : 0 < z) :
    Vec3.normalize ratLibm (⟨0, 0, z⟩ : Vec3 ℚ) = ⟨0, 0, 1⟩ := by
  simp only [Vec3.normalize, Vec3.dot, ratLibm_length_z _ (le_of_lt hz), Vec3.smul,
    Vec3.mk.injEq]
  refine ⟨by ring, by ring, ?_⟩
  rw [one_div, inv_mul_cancel₀ (ne_of_gt hz)]

/-- A unit sphere at the origin lit from `(0, 0, 10)`, Phong enabled, shadows and reflections
disabled, seen from `(0, 0, 5)` along `-z`: light and view vector are both `(0, 0, 1)`. -/
theorem phongSphere_run (material : Material ℚ) :
    CastRay ratLibm
      ⟨[.sphere (Sphere.new 1 ⟨0, 0, 0⟩ material)], ⟨0, 0, 10⟩, false, true, false, 5,
        ⟨⟨0, 0, 0⟩, false, 0⟩⟩
      ⟨⟨0, 0, 5⟩, ⟨0, 0, -1⟩⟩ ⟨⟨0, 0, 0⟩, false, 0⟩ =
      some (((4 : ℚ) : WithTop ℚ),
        ⟨CastRay.phong ratLibm ⟨⟨0, 0, 5⟩, ⟨0, 0, -1⟩⟩
          ⟨((4 : ℚ) : WithTop ℚ), ⟨0, 0, 1⟩, ⟨0, 0, 1⟩, some material⟩ material
          ⟨0, 0, 11 / 10⟩ ⟨0, 0, 1⟩ false, false, 0⟩) := by
  have hfix : Vec3.add (⟨0, 0, 1⟩ : Vec3 ℚ) (Vec3.smul (1 / 10) ⟨0, 0, 1⟩) = ⟨0, 0, 11 / 10⟩ := by
    norm_num [Vec3.add, Vec3.smul]
  have hlv : Vec3.normalize ratLibm (Vec3.sub (⟨0, 0, 10⟩ : Vec3 ℚ) ⟨0, 0, 11 / 10⟩) =
      ⟨0, 0, 1⟩ := by
    have : Vec3.sub (⟨0, 0, 10⟩ : Vec3 ℚ) ⟨0, 0, 11 / 10⟩ = ⟨0, 0, 89 / 10⟩ := by
      norm_num [Vec3.sub]
    rw [this]
    exact ratLibm_normalize_z _ (by norm_num)
  have h := CastRayTrace_hit_local ratLibm
    ⟨[.sphere (Sphere.new 1 ⟨0, 0, 0⟩ material)], ⟨0, 0, 10⟩, false, true, false, 5,
      ⟨⟨0, 0, 0⟩, false, 0⟩⟩
    ⟨⟨0, 0, 5⟩, ⟨0, 0, -1⟩⟩ ⟨⟨0, 0, 0⟩, false, 0⟩
    ⟨((4 : ℚ) : WithTop ℚ), ⟨0, 0, 1⟩, ⟨0, 0, 1⟩, some material⟩
    material false
    (CheckIntersection_single _ _ _ _ _ _ (unitSphere_from_five _)) rfl
    (CastRay_shadow_off _ _ _ _ _ rfl) (Or.inl rfl)
  unfold CastRay
  rw [h]
  simp only [CastRay.localColor, if_true, hfix, hlv, Bool.false_eq_true, if_false]

theorem phongSphere_color :
    CastRay.phong ratLibm ⟨⟨0, 0, 5⟩, ⟨0, 0, -1⟩⟩
      ⟨((4 : ℚ) : WithTop ℚ), ⟨0, 0, 1⟩, ⟨0, 0, 1⟩,
        some ⟨⟨1, 1 / 2, 0⟩, ⟨1 / 2, 1 / 2, 1 / 2⟩, ⟨1 / 4, 0, 0⟩, 1, 1 / 2, 0⟩⟩
      ⟨⟨1, 1 / 2, 0⟩, ⟨1 / 2, 1 / 2, 1 / 2⟩, ⟨1 / 4, 0, 0⟩, 1, 1 / 2, 0⟩
      ⟨0, 0, 11 / 10⟩ ⟨0, 0, 1⟩ false = ⟨3 / 10, 7 / 40, 3 / 20⟩ := by
  have hev : Vec3.normalize ratLibm (Vec3.sub (⟨0, 0, 5⟩ : Vec3 ℚ) ⟨0, 0, 11 / 10⟩) =
      ⟨0, 0, 1⟩ := by
    have : Vec3.sub (⟨0, 0, 5⟩ : Vec3 ℚ) ⟨0, 0, 11 / 10⟩ = ⟨0, 0, 39 / 10⟩ := by
      norm_num [Vec3.sub]
    rw [this]
    exact ratLibm_normalize_z _ (by norm_num)
  have hpow : ∀ x y : ℚ, ratLibm.pow x y = x := fun _ _ => rfl
  unfold CastRay.phong
  simp only [hev, hpow]
  norm_num [Vec3.dot, Vec3.smul, Vec3.sub]

theorem colourSphere_run :
    CastRay ratLibm
      ⟨[.sphere (Sphere.new 1 ⟨0, 0, 0⟩ ⟨⟨1, 1 / 2, 1 / 4⟩, ⟨1, 1, 1⟩, ⟨1, 1, 1⟩, 1, 4 / 5, 1 / 5⟩)],
        ⟨0, 0, 10⟩, false, false, false, 5, ⟨⟨0, 0, 0⟩, false, 0⟩⟩
      ⟨⟨0, 0, 5⟩, ⟨0, 0, -1⟩⟩ ⟨⟨0, 0, 0⟩, false, 0⟩ =
      some (((4 : ℚ) : WithTop ℚ), ⟨⟨4 / 5, 2 / 5, 1 / 5⟩, false, 0⟩) := by
  rw [flatSphere_run]
  norm_num [Vec3.smul]

/-- C23 at a unit sphere with ambient colour `(1, 1/2, 0)`, diffuse colour `(1/2, 1/2, 1/2)`,
specular colour `(1/4, 0, 0)`, specular exponent `1` and `Klocal = 1/2`, lit and seen along its
normal: `diff = 0.6`, `spec = 0.8`, and the payload colour is `(3/10, 7/40, 3/20)`. -/
theorem CastRay_phong_color_witness :
    CastRay ratLibm
      ⟨[.sphere (Sphere.new 1 ⟨0, 0, 0⟩
          ⟨⟨1, 1 / 2, 0⟩, ⟨1 / 2, 1 / 2, 1 / 2⟩, ⟨1 / 4, 0, 0⟩, 1, 1 / 2, 0⟩)],
        ⟨0, 0, 10⟩, false, true, false, 5, ⟨⟨0, 0, 0⟩, false, 0⟩⟩
      ⟨⟨0, 0, 5⟩, ⟨0, 0, -1⟩⟩ ⟨⟨0, 0, 0⟩, false, 0⟩ =
      some (((4 : ℚ) : WithTop ℚ), ⟨⟨3 / 10, 7 / 40, 3 / 20⟩, false, 0⟩) ∧
    (⟨3 / 10, 7 / 40, 3 / 20⟩ : Vec3 ℚ) =
      phongSpec ratLibm ⟨⟨1, 1 / 2, 0⟩, ⟨1 / 2, 1 / 2, 1 / 2⟩, ⟨1 / 4, 0, 0⟩, 1, 1 / 2, 0⟩
        ⟨0, 0, 1⟩
        (Vec3.normalize ratLibm (Vec3.sub ⟨0, 0, 10⟩
          (Vec3.add ⟨0, 0, 1⟩ (Vec3.smul (1 / 10) ⟨0, 0, 1⟩))))
        (Vec3.normalize ratLibm (Vec3.sub ⟨0, 0, 5⟩
          (Vec3.add ⟨0, 0, 1⟩ (Vec3.smul (1 / 10) ⟨0, 0, 1⟩)))) false := by
  have hrun : CastRay ratLibm
      ⟨[.sphere (Sphere.new 1 ⟨0, 0, 0⟩
          ⟨⟨1, 1 / 2, 0⟩, ⟨1 / 2, 1 / 2, 1 / 2⟩, ⟨1 / 4, 0, 0⟩, 1, 1 / 2, 0⟩)],
        ⟨0, 0, 10⟩, false, true, false, 5, ⟨⟨0, 0, 0⟩, false, 0⟩⟩
      ⟨⟨0, 0, 5⟩, ⟨0, 0, -1⟩⟩ ⟨⟨0, 0, 0⟩, false, 0⟩ =
      some (((4 : ℚ) : WithTop ℚ), ⟨⟨3 / 10, 7 / 40, 3 / 20⟩, false, 0⟩) := by
    rw [phongSphere_run, phongSphere_color]
  exact ⟨hrun, (CastRay_phong_color ratLibm
    ⟨[.sphere (Sphere.new 1 ⟨0, 0, 0⟩
        ⟨⟨1, 1 / 2, 0⟩, ⟨1 / 2, 1 / 2, 1 / 2⟩, ⟨1 / 4, 0, 0⟩, 1, 1 / 2, 0⟩)],
      ⟨0, 0, 10⟩, false, true, false, 5, ⟨⟨0, 0, 0⟩, false, 0⟩⟩
    ⟨⟨0, 0, 5⟩, ⟨0, 0, -1⟩⟩ ⟨⟨0, 0, 0⟩, false, 0⟩
    ⟨((4 : ℚ) : WithTop ℚ), ⟨0, 0, 1⟩, ⟨0, 0, 1⟩,
      some ⟨⟨1, 1 / 2, 0⟩, ⟨1 / 2, 1 / 2, 1 / 2⟩, ⟨1 / 4, 0, 0⟩, 1, 1 / 2, 0⟩⟩
    ⟨⟨1, 1 / 2, 0⟩, ⟨1 / 2, 1 / 2, 1 / 2⟩, ⟨1 / 4, 0, 0⟩, 1, 1 / 2, 0⟩
    ((4 : ℚ) : WithTop ℚ) ⟨⟨3 / 10, 7 / 40, 3 / 20⟩, false, 0⟩
    rfl (Or.inl rfl)
    (CheckIntersection_single _ _ _ _ _ _ (unitSphere_from_five _)) rfl hrun).1⟩

/-- C24 at a unit sphere: with shadows enabled and the light behind the sphere the payload is
shadowed and black; with shadows disabled the colour is `Klocal * ambient`. -/
theorem CastRay_flat_color_witness :
    (CastRay ratLibm
      ⟨[.sphere (Sphere.new 1 ⟨0, 0, 0⟩ whiteAbsorb)], ⟨0, 0, -10⟩, true, false, false, 5,
        ⟨⟨0, 0, 0⟩, false, 0⟩⟩
      ⟨⟨0, 0, 5⟩, ⟨0, 0, -1⟩⟩ ⟨⟨0, 0, 0⟩, false, 0⟩ =
      some (((4 : ℚ) : WithTop ℚ), ⟨⟨0, 0, 0⟩, true, 0⟩) ∧
      (⟨0, 0, 0⟩ : Vec3 ℚ) =
        if true = true then ⟨0, 0, 0⟩ else Vec3.smul whiteAbsorb.Klocal whiteAbsorb.ambient) ∧
    (CastRay ratLibm
      ⟨[.sphere (Sphere.new 1 ⟨0, 0, 0⟩ ⟨⟨1, 1 / 2, 1 / 4⟩, ⟨1, 1, 1⟩, ⟨1, 1, 1⟩, 1, 4 / 5, 1 / 5⟩)],
        ⟨0, 0, 10⟩, false, false, false, 5, ⟨⟨0, 0, 0⟩, false, 0⟩⟩
      ⟨⟨0, 0, 5⟩, ⟨0, 0, -1⟩⟩ ⟨⟨0, 0, 0⟩, false, 0⟩ =
      some (((4 : ℚ) : WithTop ℚ), ⟨⟨4 / 5, 2 / 5, 1 / 5⟩, false, 0⟩) ∧
      (⟨4 / 5, 2 / 5, 1 / 5⟩ : Vec3 ℚ) = Vec3.smul (4 / 5) ⟨1, 1 / 2, 1 / 4⟩) :=
  ⟨⟨shadowScene_behind,
    (CastRay_flat_color ratLibm
      ⟨[.sphere (Sphere.new 1 ⟨0, 0, 0⟩ whiteAbsorb)], ⟨0, 0, -10⟩, true, false, false, 5,
        ⟨⟨0, 0, 0⟩, false, 0⟩⟩
      ⟨⟨0, 0, 5⟩, ⟨0, 0, -1⟩⟩ ⟨⟨0, 0, 0⟩, false, 0⟩
      ⟨((4 : ℚ) : WithTop ℚ), ⟨0, 0, 1⟩, ⟨0, 0, 1⟩, some whiteAbsorb⟩ whiteAbsorb
      ((4 : ℚ) : WithTop ℚ) ⟨⟨0, 0, 0⟩, true, 0⟩ rfl (Or.inl rfl)
      (CheckIntersection_single _ _ _ _ _ _ (unitSphere_from_five _)) rfl
      shadowScene_behind).1 rfl⟩,
   ⟨colourSphere_run,
    (CastRay_flat_color ratLibm
      ⟨[.sphere (Sphere.new 1 ⟨0, 0, 0⟩ ⟨⟨1, 1 / 2, 1 / 4⟩, ⟨1, 1, 1⟩, ⟨1, 1, 1⟩, 1, 4 / 5, 1 / 5⟩)],
        ⟨0, 0, 10⟩, false, false, false, 5, ⟨⟨0, 0, 0⟩, false, 0⟩⟩
      ⟨⟨0, 0, 5⟩, ⟨0, 0, -1⟩⟩ ⟨⟨0, 0, 0⟩, false, 0⟩
      ⟨((4 : ℚ) : WithTop ℚ), ⟨0, 0, 1⟩, ⟨0, 0, 1⟩,
        some ⟨⟨1, 1 / 2, 1 / 4⟩, ⟨1, 1, 1⟩, ⟨1, 1, 1⟩, 1, 4 / 5, 1 / 5⟩⟩
      ⟨⟨1, 1 / 2, 1 / 4⟩, ⟨1, 1, 1⟩, ⟨1, 1, 1⟩, 1, 4 / 5, 1 / 5⟩
      ((4 : ℚ) : WithTop ℚ) ⟨⟨4 / 5, 2 / 5, 1 / 5⟩, false, 0⟩ rfl (Or.inl rfl)
      (CheckIntersection_single _ _ _ _ _ _ (unitSphere_from_five _)) rfl
      colourSphere_run).2 rfl⟩⟩

section
variable {F : Type} [LinearOrderedField F]

theorem Vec3.smul_smul_two (a : F) (N : Vec3 F) :
    Vec3.smul a (Vec3.smul 2 N) = Vec3.smul (2 * a) N := by
  simp only [Vec3.smul, Vec3.mk.injEq]
  refine ⟨?_, ?_, ?_⟩ <;> ring

/-- C25. For a ray of direction `d` that hits at `H` with normal `N` a primitive of material
`material`, with `local` the colour of the local illumination, and for `int` counters on
which the increment of line 181 does not overflow (`numBounces` and `maxReflections` below
`INT_MAX = 2147483647`).  With reflections enabled `numBounces` grows by exactly one; if
`Kreflectivity > 0` and the incremented counter is at most `maxReflections`, `CastRay` on the
sub-ray from `H + 0.1 N` with direction `normalize(d - 2 N (d . N))` and a fresh payload
carrying the incremented counter returns, and the final colour is `local + Kreflectivity *`
the colour of that payload; otherwise the final colour is `local`, and the call returns
whenever its shadow test does.  With reflections disabled `numBounces` is unchanged and the
colour is `local`. -/
theorem CastRay_reflection_step (m : Libm F) (g : Globals F) (ray : Ray F) (payload : Payload F)
    (info : IntersectInfo F) (material : Material F)
    (hhit : CheckIntersection m g.objects ray IntersectInfo.fresh = some (true, info))
    (hmat : info.material = some material) :
    -2147483648 ≤ payload.numBounces → payload.numBounces < 2147483647 →
    -2147483648 ≤ g.maxReflections → g.maxReflections < 2147483647 →
    (∀ (r : WithTop F) (p' : Payload F), CastRay m g ray payload = some (r, p') →
      (g.activateReflections = true → p'.numBounces = payload.numBounces + 1) ∧
      (g.activateReflections = true → material.Kreflectivity > 0 →
        payload.numBounces + 1 ≤ g.maxReflections →
        ∃ (t : WithTop F) (refPayload : Payload F),
          CastRay m g
            ⟨Vec3.add info.hitPoint (Vec3.smul (1 / 10) info.normal),
              Vec3.normalize m (Vec3.sub ray.direction
                (Vec3.smul (2 * Vec3.dot ray.direction info.normal) info.normal))⟩
            ⟨g.freshPayload.color, g.freshPayload.shadowed, payload.numBounces + 1⟩ =
              some (t, refPayload) ∧
          p'.color = Vec3.add
            (CastRay.localColor m g ray info material
              (Vec3.add info.hitPoint (Vec3.smul (1 / 10) info.normal))
              (Vec3.normalize m (Vec3.sub g.lightPos
                (Vec3.add info.hitPoint (Vec3.smul (1 / 10) info.normal))))
              ⟨payload.color, p'.shadowed, payload.numBounces⟩)
            (Vec3.smul material.Kreflectivity refPayload.color)) ∧
      (g.activateReflections = false ∨ material.Kreflectivity ≤ 0 ∨
          g.maxReflections < payload.numBounces + 1 →
        p'.color = CastRay.localColor m g ray info material
          (Vec3.add info.hitPoint (Vec3.smul (1 / 10) info.normal))
          (Vec3.normalize m (Vec3.sub g.lightPos
            (Vec3.add info.hitPoint (Vec3.smul (1 / 10) info.normal))))
          ⟨payload.color, p'.shadowed, payload.numBounces⟩) ∧
      (g.activateReflections = false → p'.numBounces = payload.numBounces)) ∧
    (g.activateReflections = false ∨ material.Kreflectivity ≤ 0 ∨
        g.maxReflections < payload.numBounces + 1 →
      ∀ shadowed : Bool,
        CastRay.shadow m g (Vec3.add info.hitPoint (Vec3.smul (1 / 10) info.normal))
          (Vec3.normalize m (Vec3.sub g.lightPos
            (Vec3.add info.hitPoint (Vec3.smul (1 / 10) info.normal)))) payload.shadowed =
          some shadowed →
        (CastRay m g ray payload).isSome) := by
  -- The four bounds keep the statement to the runs on which every `numBounces++` is defined
  -- in C++ (no signed overflow); the integers of the embedding do not need them.
  intro _ _ _ _
  constructor
  · intro r p' hret
    obtain ⟨material', shadowed, hm', _, _, hsh, hcase⟩ :=
      CastRayTrace_hit_inv m g ray payload info r p' hhit hret
    rw [hmat] at hm'
    simp only [Option.some.injEq] at hm'
    subst hm'
    rw [← Vec3.smul_smul_two]
    rcases hcase with ⟨hno, hc, hn⟩ | ⟨hr, hK, hb, t, refPayload, hsub, hc, hn⟩
    · refine ⟨fun h => ?_, fun h hK hb => ?_, fun _ => ?_, fun h => ?_⟩
      · rw [hn, h]; rfl
      · rcases hno with h' | h'
        · rw [h'] at h; simp at h
        · exact absurd ⟨hK, hb⟩ h'
      · rw [hc, hsh]
      · rw [hn, h]; rfl
    · refine ⟨fun _ => hn, fun _ _ _ => ⟨t, refPayload, hsub, ?_⟩, fun h => ?_, fun h => ?_⟩
      · rw [hc, hsh]
      · rcases h with h | h | h
        · rw [h] at hr; simp at hr
        · exact absurd hK (not_lt.mpr h)
        · exact absurd hb (not_le.mpr h)
      · rw [h] at hr; simp at hr
  · intro hno shadowed hsh
    have h := CastRayTrace_hit_local m g ray payload info material shadowed hhit hmat hsh
      (by
        rcases hno with h | h | h
        · exact Or.inl h
        · exact Or.inr (fun hc => absurd hc.1 (not_lt.mpr h))
        · exact Or.inr (fun hc => absurd hc.2 (not_le.mpr h)))
    unfold CastRay
    rw [h]
    rfl

/-- C26 as amended. For `int` counters on which the increment of line 181 does not overflow
(`numBounces` and `maxReflections` below `INT_MAX = 2147483647`), the values of `numBounces`
with which the nested reflection calls of `CastRay` are entered, outermost first: each is one
more than the value with which the calling `CastRay` was entered (the caller's counter after
its increment), none exceeds `maxReflections`, and no nested call is made when the
incremented counter would exceed `maxReflections`. -/
theorem CastRay_subray_counter (m : Libm F) (g : Globals F) (ray : Ray F) (payload : Payload F) :
    -2147483648 ≤ payload.numBounces → payload.numBounces < 2147483647 →
    -2147483648 ≤ g.maxReflections → g.maxReflections < 2147483647 →
    List.Chain (fun a b => b = a + 1) payload.numBounces (CastRayTrace m g ray payload).1 ∧
    (∀ x ∈ (CastRayTrace m g ray payload).1, x ≤ g.maxReflections) ∧
    (g.maxReflections < payload.numBounces + 1 → (CastRayTrace m g ray payload).1 = []) := by
  -- The four bounds keep the statement to the runs on which every `numBounces++` is defined
  -- in C++ (no signed overflow); the integers of the embedding do not need them.
  intro _ _ _ _
  obtain ⟨h1, h2, _⟩ := CastRayTrace_calls m g _ ray payload rfl
  refine ⟨h1, h2, fun hlt => ?_⟩
  cases hl : (CastRayTrace m g ray payload).1 with
  | nil => rfl
  | cons x rest =>
    rw [hl] at h1 h2
    have hx : x = payload.numBounces + 1 := (List.chain_cons.mp h1).1
    have := h2 x (List.mem_cons_self _ _)
    omega

/-- C28. If every material of the scene has non-negative weights that sum to at most one,
Phong shading is enabled and a fresh payload has its colour in `[0, 1]^3`, then whenever
`CastRay` returns for a payload whose colour lies in `[0, 1]^3` (a fresh one, for instance),
or for a ray that hits, every channel of the payload colour afterwards lies in `[0, 1]`. -/
theorem CastRay_phong_color_in_unit (m : Libm F) (g : Globals F) (ray : Ray F)
    (payload : Payload F) (r : WithTop F) (p' : Payload F)
    (hmat : ∀ obj ∈ g.objects, 0 ≤ obj.material.Klocal ∧ 0 ≤ obj.material.Kreflectivity ∧
      obj.material.Klocal + obj.material.Kreflectivity ≤ 1)
    (hphong : g.activatePhong = true)
    (hfresh : g.freshPayload.color.InUnit)
    (hpay : payload.color.InUnit ∨
      ∃ info, CheckIntersection m g.objects ray IntersectInfo.fresh = some (true, info))
    (hret : CastRay m g ray payload = some (r, p')) :
    (0 ≤ p'.color.x ∧ p'.color.x ≤ 1) ∧ (0 ≤ p'.color.y ∧ p'.color.y ≤ 1) ∧
      (0 ≤ p'.color.z ∧ p'.color.z ≤ 1) :=
  CastRayTrace_color_inUnit m g
    (fun obj hobj => ⟨hmat obj hobj, fun h => by rw [hphong] at h; simp at h⟩)
    hfresh _ ray payload r p' rfl hpay hret

end

/-! ### A run with two nested calls -/

theorem farSphere_from_five (material : Material ℚ) :
    (Sphere.new 1 ⟨0, 0, 10⟩ material).Intersect ratLibm ⟨⟨0, 0, 5⟩, ⟨0, 0, -1⟩⟩
      IntersectInfo.fresh = some (false, IntersectInfo.fresh) := by
  have hs : solveQuadraticEquation ratLibm (1 : ℚ) 10 24 = some (-6, -4) := by
    unfold solveQuadraticEquation quadraticQ
    norm_num [ratLibm_sqrt_four]
  unfold Sphere.Intersect
  norm_num [Sphere.new, Vec3.dot, Vec3.sub, hs]

theorem farSphere_from_near (material : Material ℚ) :
    (Sphere.new 1 ⟨0, 0, 10⟩ material).Intersect ratLibm ⟨⟨0, 0, 11 / 10⟩, ⟨0, 0, 1⟩⟩
      IntersectInfo.fresh =
      some (true, ⟨((79 / 10 : ℚ) : WithTop ℚ), ⟨0, 0, 9⟩, ⟨0, 0, -1⟩, some material⟩) := by
  have hs : solveQuadraticEquation ratLibm (1 : ℚ) (-(89 / 5)) (7821 / 100) =
      some (79 / 10, 99 / 10) := by
    unfold solveQuadraticEquation quadraticQ
    norm_num [ratLibm_sqrt_four]
  have ha : Vec3.dot (⟨0, 0, 1⟩ : Vec3 ℚ) ⟨0, 0, 1⟩ = 1 := by norm_num [Vec3.dot]
  have hb : 2 * Vec3.dot (⟨0, 0, 1⟩ : Vec3 ℚ) (Vec3.sub ⟨0, 0, 11 / 10⟩ ⟨0, 0, 10⟩) =
      -(89 / 5) := by norm_num [Vec3.dot, Vec3.sub]
  have hc : Vec3.dot (Vec3.sub (⟨0, 0, 11 / 10⟩ : Vec3 ℚ) ⟨0, 0, 10⟩)
      (Vec3.sub ⟨0, 0, 11 / 10⟩ ⟨0, 0, 10⟩) - 1 * 1 = 7821 / 100 := by
    norm_num [Vec3.dot, Vec3.sub]
  have hp : Ray.eval (⟨⟨0, 0, 11 / 10⟩, ⟨0, 0, 1⟩⟩ : Ray ℚ) (79 / 10) = ⟨0, 0, 9⟩ := by
    norm_num [Ray.eval, Vec3.add, Vec3.smul]
  have hn : Vec3.normalize ratLibm (Vec3.sub (⟨0, 0, 9⟩ : Vec3 ℚ) ⟨0, 0, 10⟩) = ⟨0, 0, -1⟩ := by
    norm_num [Vec3.normalize, Vec3.sub, Vec3.dot, Vec3.smul, ratLibm_sqrt_one]
  have h := (Sphere_Intersect_of_roots ratLibm (Sphere.new 1 ⟨0, 0, 10⟩ material)
    ⟨⟨0, 0, 11 / 10⟩, ⟨0, 0, 1⟩⟩ IntersectInfo.fresh (79 / 10) (99 / 10)
    (by simp only [Sphere.new, ha, hb, hc, hs])).1 (by norm_num)
  rw [h]
  simp only [Sphere.new, hp, hn]

theorem unitSphere_from_far (material : Material ℚ) :
    (Sphere.new 1 ⟨0, 0, 0⟩ material).Intersect ratLibm ⟨⟨0, 0, 89 / 10⟩, ⟨0, 0, -1⟩⟩
      IntersectInfo.fresh =
      some (true, ⟨((79 / 10 : ℚ) : WithTop ℚ), ⟨0, 0, 1⟩, ⟨0, 0, 1⟩, some material⟩) := by
  have hs : solveQuadraticEquation ratLibm (1 : ℚ) (-(89 / 5)) (7821 / 100) =
      some (79 / 10, 99 / 10) := by
    unfold solveQuadraticEquation quadraticQ
    norm_num [ratLibm_sqrt_four]
  have ha : Vec3.dot (⟨0, 0, -1⟩ : Vec3 ℚ) ⟨0, 0, -1⟩ = 1 := by norm_num [Vec3.dot]
  have hb : 2 * Vec3.dot (⟨0, 0, -1⟩ : Vec3 ℚ) (Vec3.sub ⟨0, 0, 89 / 10⟩ ⟨0, 0, 0⟩) =
      -(89 / 5) := by norm_num [Vec3.dot, Vec3.sub]
  have hc : Vec3.dot (Vec3.sub (⟨0, 0, 89 / 10⟩ : Vec3 ℚ) ⟨0, 0, 0⟩)
      (Vec3.sub ⟨0, 0, 89 / 10⟩ ⟨0, 0, 0⟩) - 1 * 1 = 7821 / 100 := by
    norm_num [Vec3.dot, Vec3.sub]
  have hp : Ray.eval (⟨⟨0, 0, 89 / 10⟩, ⟨0, 0, -1⟩⟩ : Ray ℚ) (79 / 10) = ⟨0, 0, 1⟩ := by
    norm_num [Ray.eval, Vec3.add, Vec3.smul]
  have hn : Vec3.normalize ratLibm (Vec3.sub (⟨0, 0, 1⟩ : Vec3 ℚ) ⟨0, 0, 0⟩) = ⟨0, 0, 1⟩ := by
    norm_num [Vec3.normalize, Vec3.sub, Vec3.dot, Vec3.smul, ratLibm_sqrt_one]
  have h := (Sphere_Intersect_of_roots ratLibm (Sphere.new 1 ⟨0, 0, 0⟩ material)
    ⟨⟨0, 0, 89 / 10⟩, ⟨0, 0, -1⟩⟩ IntersectInfo.fresh (79 / 10) (99 / 10)
    (by simp only [Sphere.new, ha, hb, hc, hs])).1 (by norm_num)
  rw [h]
  simp only [Sphere.new, hp, hn]

theorem farSphere_leaving (material : Material ℚ) :
    (Sphere.new 1 ⟨0, 0, 10⟩ material).Intersect ratLibm ⟨⟨0, 0, 89 / 10⟩, ⟨0, 0, -1⟩⟩
      IntersectInfo.fresh = some (false, IntersectInfo.fresh) := by
  have hs : solveQuadraticEquation ratLibm (1 : ℚ) (11 / 5) (21 / 100) =
      some (-(21 / 10), -(1 / 10)) := by
    unfold solveQuadraticEquation quadraticQ
    norm_num [ratLibm_sqrt_four]
  unfold Sphere.Intersect
  norm_num [Sphere.new, Vec3.dot, Vec3.sub, hs]

theorem CheckIntersection_pair_first (m : Libm ℚ) (obj1 obj2 : Object ℚ) (ray : Ray ℚ)
    (info i1 i2 : IntersectInfo ℚ)
    (h1 : obj1.Intersect m ray IntersectInfo.fresh = some (true, i1))
    (h2 : obj2.Intersect m ray IntersectInfo.fresh = some (false, i2)) :
    CheckIntersection m [obj1, obj2] ray info = some (true, i1) := by
  simp only [CheckIntersection, CheckIntersection.loop, h1, h2, Bool.not_false, if_true]

theorem CheckIntersection_pair_second (m : Libm ℚ) (obj1 obj2 : Object ℚ) (ray : Ray ℚ)
    (info i1 i2 : IntersectInfo ℚ)
    (h1 : obj1.Intersect m ray IntersectInfo.fresh = some (false, i1))
    (h2 : obj2.Intersect m ray IntersectInfo.fresh = some (true, i2)) :
    CheckIntersection m [obj1, obj2] ray info = some (true, i2) := by
  simp only [CheckIntersection, CheckIntersection.loop, h1, h2, Bool.not_false, if_true]

theorem facingSpheres_primary :
    CheckIntersection ratLibm facingSpheres.objects ⟨⟨0, 0, 5⟩, ⟨0, 0, -1⟩⟩ IntersectInfo.fresh =
      some (true, ⟨((4 : ℚ) : WithTop ℚ), ⟨0, 0, 1⟩, ⟨0, 0, 1⟩, some greyMirror⟩) :=
  CheckIntersection_pair_first _ _ _ _ _ _ _ (unitSphere_from_five greyMirror)
    (farSphere_from_five shinyGreen)

theorem facingSpheres_first_bounce :
    CheckIntersection ratLibm facingSpheres.objects ⟨⟨0, 0, 11 / 10⟩, ⟨0, 0, 1⟩⟩
        IntersectInfo.fresh =
      some (true, ⟨((79 / 10 : ℚ) : WithTop ℚ), ⟨0, 0, 9⟩, ⟨0, 0, -1⟩, some shinyGreen⟩) :=
  CheckIntersection_pair_second _ _ _ _ _ _ _ (unitSphere_leaving greyMirror)
    (farSphere_from_near shinyGreen)

theorem facingSpheres_second_bounce :
    CheckIntersection ratLibm facingSpheres.objects ⟨⟨0, 0, 89 / 10⟩, ⟨0, 0, -1⟩⟩
        IntersectInfo.fresh =
      some (true, ⟨((79 / 10 : ℚ) : WithTop ℚ), ⟨0, 0, 1⟩, ⟨0, 0, 1⟩, some greyMirror⟩) :=
  CheckIntersection_pair_first _ _ _ _ _ _ _ (unitSphere_from_far greyMirror)
    (farSphere_leaving shinyGreen)

/-- The innermost call of the run of `facingSpheres`: entered with `numBounces = 2`, it hits
the sphere at the origin, increments the counter to `3 > maxReflections` and makes no nested
call. -/
theorem facingSpheres_call2 :
    CastRayTrace ratLibm facingSpheres ⟨⟨0, 0, 89 / 10⟩, ⟨0, 0, -1⟩⟩ ⟨⟨0, 0, 0⟩, false, 2⟩ =
      ([], some (((79 / 10 : ℚ) : WithTop ℚ), ⟨⟨1 / 5, 1 / 5, 1 / 5⟩, false, 3⟩)) := by
  have h := CastRayTrace_hit_local ratLibm facingSpheres ⟨⟨0, 0, 89 / 10⟩, ⟨0, 0, -1⟩⟩
    ⟨⟨0, 0, 0⟩, false, 2⟩
    ⟨((79 / 10 : ℚ) : WithTop ℚ), ⟨0, 0, 1⟩, ⟨0, 0, 1⟩, some greyMirror⟩ greyMirror false
    facingSpheres_second_bounce rfl (CastRay_shadow_off _ _ _ _ _ rfl)
    (Or.inr (fun hc => absurd hc.2 (by norm_num [facingSpheres])))
  rw [h]
  norm_num [CastRay.localColor, facingSpheres, greyMirror, Vec3.smul]

/-- The middle call of the run of `facingSpheres`: entered with `numBounces = 1`, it hits the
sphere at `(0, 0, 10)` and makes the nested call `facingSpheres_call2`. -/
theorem facingSpheres_call1 :
    CastRayTrace ratLibm facingSpheres ⟨⟨0, 0, 11 / 10⟩, ⟨0, 0, 1⟩⟩ ⟨⟨0, 0, 0⟩, false, 1⟩ =
      ([2], some (((79 / 10 : ℚ) : WithTop ℚ), ⟨⟨1 / 25, 21 / 25, 1 / 25⟩, false, 2⟩)) := by
  have hdir : Vec3.normalize ratLibm (Vec3.sub (⟨0, 0, 1⟩ : Vec3 ℚ)
      (Vec3.smul (Vec3.dot ⟨0, 0, 1⟩ ⟨0, 0, -1⟩) (Vec3.smul 2 ⟨0, 0, -1⟩))) = ⟨0, 0, -1⟩ := by
    norm_num [Vec3.normalize, Vec3.sub, Vec3.smul, Vec3.dot, ratLibm_sqrt_one]
  have hfix : Vec3.add (⟨0, 0, 9⟩ : Vec3 ℚ) (Vec3.smul (1 / 10) ⟨0, 0, -1⟩) =
      ⟨0, 0, 89 / 10⟩ := by
    norm_num [Vec3.add, Vec3.smul]
  have h := CastRayTrace_hit_reflect ratLibm facingSpheres ⟨⟨0, 0, 11 / 10⟩, ⟨0, 0, 1⟩⟩
    ⟨⟨0, 0, 0⟩, false, 1⟩
    ⟨((79 / 10 : ℚ) : WithTop ℚ), ⟨0, 0, 9⟩, ⟨0, 0, -1⟩, some shinyGreen⟩ shinyGreen false []
    ((79 / 10 : ℚ) : WithTop ℚ) ⟨⟨1 / 5, 1 / 5, 1 / 5⟩, false, 3⟩
    facingSpheres_first_bounce rfl (CastRay_shadow_off _ _ _ _ _ rfl)
    rfl (by norm_num [shinyGreen]) (by norm_num [facingSpheres])
    (by simp only [hfix, hdir]; exact facingSpheres_call2)
  rw [h]
  norm_num [CastRay.localColor, facingSpheres, shinyGreen, Vec3.smul, Vec3.add]

/-- The run of `facingSpheres` on the ray from `(0, 0, 5)` with direction `(0, 0, -1)`, entered
with `numBounces = 0`: two nested calls, entered with `numBounces = 1` and `2`. -/
theorem facingSpheres_call0 :
    CastRayTrace ratLibm facingSpheres ⟨⟨0, 0, 5⟩, ⟨0, 0, -1⟩⟩ ⟨⟨0, 0, 0⟩, false, 0⟩ =
      ([1, 2], some (((4 : ℚ) : WithTop ℚ), ⟨⟨28 / 125, 88 / 125, 28 / 125⟩, false, 1⟩)) := by
  have hdir : Vec3.normalize ratLibm (Vec3.sub (⟨0, 0, -1⟩ : Vec3 ℚ)
      (Vec3.smul (Vec3.dot ⟨0, 0, -1⟩ ⟨0, 0, 1⟩) (Vec3.smul 2 ⟨0, 0, 1⟩))) = ⟨0, 0, 1⟩ := by
    norm_num [Vec3.normalize, Vec3.sub, Vec3.smul, Vec3.dot, ratLibm_sqrt_one]
  have hfix : Vec3.add (⟨0, 0, 1⟩ : Vec3 ℚ) (Vec3.smul (1 / 10) ⟨0, 0, 1⟩) = ⟨0, 0, 11 / 10⟩ := by
    norm_num [Vec3.add, Vec3.smul]
  have h := CastRayTrace_hit_reflect ratLibm facingSpheres ⟨⟨0, 0, 5⟩, ⟨0, 0, -1⟩⟩
    ⟨⟨0, 0, 0⟩, false, 0⟩
    ⟨((4 : ℚ) : WithTop ℚ), ⟨0, 0, 1⟩, ⟨0, 0, 1⟩, some greyMirror⟩ greyMirror false [2]
    ((79 / 10 : ℚ) : WithTop ℚ) ⟨⟨1 / 25, 21 / 25, 1 / 25⟩, false, 2⟩
    facingSpheres_primary rfl (CastRay_shadow_off _ _ _ _ _ rfl)
    rfl (by norm_num [greyMirror]) (by norm_num [facingSpheres])
    (by simp only [hfix, hdir]; exact facingSpheres_call1)
  rw [h]
  norm_num [CastRay.localColor, facingSpheres, greyMirror, Vec3.smul, Vec3.add]

/-- C26 fails at the run of `CastRayTrace_mirrorSphere`: `CastRay` is entered with
`numBounces = 0`, and its nested call is entered with `numBounces = 1`, not `0`. -/
theorem CastRay_subray_counter_incremented :
    (CastRayTrace ratLibm
      ⟨[.sphere (Sphere.new 1 ⟨0, 0, 0⟩ mirror)], ⟨0, 0, 10⟩, false, false, true, 5,
        ⟨⟨0, 0, 0⟩, false, 0⟩⟩
      ⟨⟨0, 0, 5⟩, ⟨0, 0, -1⟩⟩ ⟨⟨0, 0, 0⟩, false, 0⟩).1 = [1] ∧
    (CastRayTrace ratLibm
      ⟨[.sphere (Sphere.new 1 ⟨0, 0, 0⟩ mirror)], ⟨0, 0, 10⟩, false, false, true, 5,
        ⟨⟨0, 0, 0⟩, false, 0⟩⟩
      ⟨⟨0, 0, 5⟩, ⟨0, 0, -1⟩⟩ ⟨⟨0, 0, 0⟩, false, 0⟩).1 ≠
      [(Payload.mk (⟨0, 0, 0⟩ : Vec3 ℚ) false 0).numBounces] := by
  rw [CastRayTrace_mirrorSphere]
  exact ⟨rfl, by decide⟩

/-- C25 at the run of `facingSpheres_call0`: the ray hits the `greyMirror` sphere with
`numBounces = 0`, the counter becomes `1`, the nested call on the reflected ray returns with
the colour `(1/25, 21/25, 1/25)` of the `shinyGreen` sphere, and the final colour
`(28/125, 88/125, 28/125)` is the local colour `(1/5, 1/5, 1/5)` plus `Kreflectivity = 3/5`
times that colour. -/
theorem CastRay_reflection_step_witness :
    CastRay ratLibm facingSpheres ⟨⟨0, 0, 5⟩, ⟨0, 0, -1⟩⟩ ⟨⟨0, 0, 0⟩, false, 0⟩ =
      some (((4 : ℚ) : WithTop ℚ), ⟨⟨28 / 125, 88 / 125, 28 / 125⟩, false, 1⟩) ∧
    CastRay ratLibm facingSpheres ⟨⟨0, 0, 11 / 10⟩, ⟨0, 0, 1⟩⟩ ⟨⟨0, 0, 0⟩, false, 1⟩ =
      some (((79 / 10 : ℚ) : WithTop ℚ), ⟨⟨1 / 25, 21 / 25, 1 / 25⟩, false, 2⟩) ∧
    CastRay.localColor ratLibm facingSpheres ⟨⟨0, 0, 5⟩, ⟨0, 0, -1⟩⟩
        ⟨((4 : ℚ) : WithTop ℚ), ⟨0, 0, 1⟩, ⟨0, 0, 1⟩, some greyMirror⟩ greyMirror
        (Vec3.add ⟨0, 0, 1⟩ (Vec3.smul (1 / 10) ⟨0, 0, 1⟩))
        (Vec3.normalize ratLibm (Vec3.sub facingSpheres.lightPos
          (Vec3.add ⟨0, 0, 1⟩ (Vec3.smul (1 / 10) ⟨0, 0, 1⟩))))
        ⟨⟨0, 0, 0⟩, false, 0⟩ = ⟨1 / 5, 1 / 5, 1 / 5⟩ ∧
    (1 : Int) = 0 + 1 ∧
    ∃ (t : WithTop ℚ) (refPayload : Payload ℚ),
      CastRay ratLibm facingSpheres
        ⟨Vec3.add ⟨0, 0, 1⟩ (Vec3.smul (1 / 10) ⟨0, 0, 1⟩),
          Vec3.normalize ratLibm (Vec3.sub ⟨0, 0, -1⟩
            (Vec3.smul (2 * Vec3.dot ⟨0, 0, -1⟩ ⟨0, 0, 1⟩) ⟨0, 0, 1⟩))⟩
        ⟨⟨0, 0, 0⟩, false, 0 + 1⟩ = some (t, refPayload) ∧
      (⟨28 / 125, 88 / 125, 28 / 125⟩ : Vec3 ℚ) = Vec3.add
        (CastRay.localColor ratLibm facingSpheres ⟨⟨0, 0, 5⟩, ⟨0, 0, -1⟩⟩
          ⟨((4 : ℚ) : WithTop ℚ), ⟨0, 0, 1⟩, ⟨0, 0, 1⟩, some greyMirror⟩ greyMirror
          (Vec3.add ⟨0, 0, 1⟩ (Vec3.smul (1 / 10) ⟨0, 0, 1⟩))
          (Vec3.normalize ratLibm (Vec3.sub facingSpheres.lightPos
            (Vec3.add ⟨0, 0, 1⟩ (Vec3.smul (1 / 10) ⟨0, 0, 1⟩))))
          ⟨⟨0, 0, 0⟩, false, 0⟩)
        (Vec3.smul greyMirror.Kreflectivity refPayload.color) :=
  ⟨congrArg Prod.snd facingSpheres_call0, congrArg Prod.snd facingSpheres_call1,
   by norm_num [CastRay.localColor, facingSpheres, greyMirror, Vec3.smul],
   (((CastRay_reflection_step ratLibm facingSpheres ⟨⟨0, 0, 5⟩, ⟨0, 0, -1⟩⟩
      ⟨⟨0, 0, 0⟩, false, 0⟩
      ⟨((4 : ℚ) : WithTop ℚ), ⟨0, 0, 1⟩, ⟨0, 0, 1⟩, some greyMirror⟩ greyMirror
      facingSpheres_primary rfl (by decide) (by decide) (by decide) (by decide)).1
      ((4 : ℚ) : WithTop ℚ) ⟨⟨28 / 125, 88 / 125, 28 / 125⟩, false, 1⟩
      (congrArg Prod.snd facingSpheres_call0)).1 rfl),
   (((CastRay_reflection_step ratLibm facingSpheres ⟨⟨0, 0, 5⟩, ⟨0, 0, -1⟩⟩
      ⟨⟨0, 0, 0⟩, false, 0⟩
      ⟨((4 : ℚ) : WithTop ℚ), ⟨0, 0, 1⟩, ⟨0, 0, 1⟩, some greyMirror⟩ greyMirror
      facingSpheres_primary rfl (by decide) (by decide) (by decide) (by decide)).1
      ((4 : ℚ) : WithTop ℚ) ⟨⟨28 / 125, 88 / 125, 28 / 125⟩, false, 1⟩
      (congrArg Prod.snd facingSpheres_call0)).2.1 rfl
      (by norm_num [greyMirror]) (by decide))⟩

/-- C26 as amended, at the run of `facingSpheres_call0` (`maxReflections = 2`): entered with
`numBounces = 0`, the run makes two nested calls, entered with `1` and `2`; the innermost
call, entered with `2`, would increment to `3 > 2` and makes no nested call. -/
theorem CastRay_subray_counter_witness :
    (CastRayTrace ratLibm facingSpheres ⟨⟨0, 0, 5⟩, ⟨0, 0, -1⟩⟩ ⟨⟨0, 0, 0⟩, false, 0⟩).1 =
      [1, 2] ∧
    List.Chain (fun a b => b = a + 1) (0 : Int) [1, 2] ∧
    (∀ x ∈ ([1, 2] : List Int), x ≤ 2) ∧
    (CastRayTrace ratLibm facingSpheres ⟨⟨0, 0, 89 / 10⟩, ⟨0, 0, -1⟩⟩
      ⟨⟨0, 0, 0⟩, false, 2⟩).1 = [] := by
  have h0 := CastRay_subray_counter ratLibm facingSpheres ⟨⟨0, 0, 5⟩, ⟨0, 0, -1⟩⟩
    ⟨⟨0, 0, 0⟩, false, 0⟩ (by decide) (by decide) (by decide) (by decide)
  have h2 := CastRay_subray_counter ratLibm facingSpheres ⟨⟨0, 0, 89 / 10⟩, ⟨0, 0, -1⟩⟩
    ⟨⟨0, 0, 0⟩, false, 2⟩ (by decide) (by decide) (by decide) (by decide)
  rw [facingSpheres_call0] at h0
  exact ⟨by rw [facingSpheres_call0], h0.1, h0.2.1, h2.2.2 (by decide)⟩

/-- C28 at the Phong run of `phongSphere_color`: the material has `Klocal = 1/2` and
`Kreflectivity = 0`, and the payload colour `(3/10, 7/40, 3/20)` lies in `[0, 1]^3`. -/
theorem CastRay_phong_color_in_unit_witness :
    CastRay ratLibm
      ⟨[.sphere (Sphere.new 1 ⟨0, 0, 0⟩
          ⟨⟨1, 1 / 2, 0⟩, ⟨1 / 2, 1 / 2, 1 / 2⟩, ⟨1 / 4, 0, 0⟩, 1, 1 / 2, 0⟩)],
        ⟨0, 0, 10⟩, false, true, false, 5, ⟨⟨0, 0, 0⟩, false, 0⟩⟩
      ⟨⟨0, 0, 5⟩, ⟨0, 0, -1⟩⟩ ⟨⟨0, 0, 0⟩, false, 0⟩ =
      some (((4 : ℚ) : WithTop ℚ), ⟨⟨3 / 10, 7 / 40, 3 / 20⟩, false, 0⟩) ∧
    ((0 ≤ (3 / 10 : ℚ) ∧ (3 / 10 : ℚ) ≤ 1) ∧ (0 ≤ (7 / 40 : ℚ) ∧ (7 / 40 : ℚ) ≤ 1) ∧
      (0 ≤ (3 / 20 : ℚ) ∧ (3 / 20 : ℚ) ≤ 1)) := by
  have hrun : CastRay ratLibm
      ⟨[.sphere (Sphere.new 1 ⟨0, 0, 0⟩
          ⟨⟨1, 1 / 2, 0⟩, ⟨1 / 2, 1 / 2, 1 / 2⟩, ⟨1 / 4, 0, 0⟩, 1, 1 / 2, 0⟩)],
        ⟨0, 0, 10⟩, false, true, false, 5, ⟨⟨0, 0, 0⟩, false, 0⟩⟩
      ⟨⟨0, 0, 5⟩, ⟨0, 0, -1⟩⟩ ⟨⟨0, 0, 0⟩, false, 0⟩ =
      some (((4 : ℚ) : WithTop ℚ), ⟨⟨3 / 10, 7 / 40, 3 / 20⟩, false, 0⟩) := by
    rw [phongSphere_run, phongSphere_color]
  exact ⟨hrun, CastRay_phong_color_in_unit ratLibm
    ⟨[.sphere (Sphere.new 1 ⟨0, 0, 0⟩
        ⟨⟨1, 1 / 2, 0⟩, ⟨1 / 2, 1 / 2, 1 / 2⟩, ⟨1 / 4, 0, 0⟩, 1, 1 / 2, 0⟩)],
      ⟨0, 0, 10⟩, false, true, false, 5, ⟨⟨0, 0, 0⟩, false, 0⟩⟩
    ⟨⟨0, 0, 5⟩, ⟨0, 0, -1⟩⟩ ⟨⟨0, 0, 0⟩, false, 0⟩ ((4 : ℚ) : WithTop ℚ)
    ⟨⟨3 / 10, 7 / 40, 3 / 20⟩, false, 0⟩
    (by
      intro obj hobj
      simp only [List.mem_singleton] at hobj
      subst hobj
      norm_num [Object.material, Sphere.new])
    rfl (by norm_num [Vec3.InUnit]) (Or.inl (by norm_num [Vec3.InUnit])) hrun⟩

/-! ### `DemoDisplay`: the colour of a pixel -/

section
variable {F : Type} [LinearOrderedField F]

theorem DemoDisplay.pixelColor_of_pos (time : WithTop F) (payload : Payload F) (ht : 0 < time) :
    DemoDisplay.pixelColor time payload = payload.color := by
  unfold DemoDisplay.pixelColor
  simp only [gt_iff_lt, ht, if_true]
  split_ifs
  · simp [Vec3.smul]
  · rfl

/-- C27 as amended. When `CastRay` returns a time `> 0` for the ray of a pixel, the colour
`DemoDisplay` writes is the payload colour `(color.x, color.y, color.z)` with its channels in
their original order, whether the payload is shadowed or not; otherwise the pixel is white. -/
theorem DemoDisplay_pixel_color (m : Libm F) (g : Globals F) (ray : Ray F) (time : WithTop F)
    (payload : Payload F) (hret : CastRay m g ray g.freshPayload = some (time, payload)) :
    (0 < time → DemoDisplay.pixel m g ray =
      some ⟨payload.color.x, payload.color.y, payload.color.z⟩) ∧
    (0 < time → DemoDisplay.pixel m g ray = some payload.color) ∧
    (¬ 0 < time → DemoDisplay.pixel m g ray = some ⟨1, 1, 1⟩) := by
  have hp : DemoDisplay.pixel m g ray = some (DemoDisplay.pixelColor time payload) := by
    unfold DemoDisplay.pixel
    rw [hret]
  rw [hp]
  refine ⟨fun ht => ?_, fun ht => ?_, fun ht => ?_⟩
  · rw [DemoDisplay.pixelColor_of_pos _ _ ht]
  · rw [DemoDisplay.pixelColor_of_pos _ _ ht]
  · simp only [DemoDisplay.pixelColor, gt_iff_lt, ht, if_false, Vec3.splat]

end

/-- C27 fails: for a unit sphere with ambient colour `(1, 1/2, 1/4)` and `Klocal = 4/5`, Phong,
shadows and reflections disabled, the ray from `(0, 0, 5)` towards `-z` returns the time `4`
and the payload colour `(4/5, 2/5, 1/5)`, not shadowed; the pixel colour is `(4/5, 2/5, 1/5)`,
not the colour `(4/5, 1/5, 2/5)` with the last two channels swapped. -/
theorem DemoDisplay_pixel_not_swapped :
    CastRay ratLibm
      ⟨[.sphere (Sphere.new 1 ⟨0, 0, 0⟩ ⟨⟨1, 1 / 2, 1 / 4⟩, ⟨1, 1, 1⟩, ⟨1, 1, 1⟩, 1, 4 / 5, 1 / 5⟩)],
        ⟨0, 0, 10⟩, false, false, false, 5, ⟨⟨0, 0, 0⟩, false, 0⟩⟩
      ⟨⟨0, 0, 5⟩, ⟨0, 0, -1⟩⟩ ⟨⟨0, 0, 0⟩, false, 0⟩ =
      some (((4 : ℚ) : WithTop ℚ), ⟨⟨4 / 5, 2 / 5, 1 / 5⟩, false, 0⟩) ∧
    DemoDisplay.pixel ratLibm
      ⟨[.sphere (Sphere.new 1 ⟨0, 0, 0⟩ ⟨⟨1, 1 / 2, 1 / 4⟩, ⟨1, 1, 1⟩, ⟨1, 1, 1⟩, 1, 4 / 5, 1 / 5⟩)],
        ⟨0, 0, 10⟩, false, false, false, 5, ⟨⟨0, 0, 0⟩, false, 0⟩⟩
      ⟨⟨0, 0, 5⟩, ⟨0, 0, -1⟩⟩ = some ⟨4 / 5, 2 / 5, 1 / 5⟩ ∧
    DemoDisplay.pixel ratLibm
      ⟨[.sphere (Sphere.new 1 ⟨0, 0, 0⟩ ⟨⟨1, 1 / 2, 1 / 4⟩, ⟨1, 1, 1⟩, ⟨1, 1, 1⟩, 1, 4 / 5, 1 / 5⟩)],
        ⟨0, 0, 10⟩, false, false, false, 5, ⟨⟨0, 0, 0⟩, false, 0⟩⟩
      ⟨⟨0, 0, 5⟩, ⟨0, 0, -1⟩⟩ ≠ some ⟨4 / 5, 1 / 5, 2 / 5⟩ := by
  have hpix : DemoDisplay.pixel ratLibm
      ⟨[.sphere (Sphere.new 1 ⟨0, 0, 0⟩ ⟨⟨1, 1 / 2, 1 / 4⟩, ⟨1, 1, 1⟩, ⟨1, 1, 1⟩, 1, 4 / 5, 1 / 5⟩)],
        ⟨0, 0, 10⟩, false, false, false, 5, ⟨⟨0, 0, 0⟩, false, 0⟩⟩
      ⟨⟨0, 0, 5⟩, ⟨0, 0, -1⟩⟩ = some ⟨4 / 5, 2 / 5, 1 / 5⟩ := by
    unfold DemoDisplay.pixel
    rw [colourSphere_run]
    show some (DemoDisplay.pixelColor ((4 : ℚ) : WithTop ℚ) ⟨⟨4 / 5, 2 / 5, 1 / 5⟩, false, 0⟩) = _
    rw [DemoDisplay.pixelColor_of_pos _ _ (by exact_mod_cast (by norm_num : (0 : ℚ) < 4))]
  refine ⟨colourSphere_run, hpix, ?_⟩
  rw [hpix]
  simp only [ne_eq, Option.some.injEq, Vec3.mk.injEq, not_and]
  norm_num

/-- C27 as amended, at the same run: the pixel colour is the payload colour
`(4/5, 2/5, 1/5)`. -/
theorem DemoDisplay_pixel_color_witness :
    DemoDisplay.pixel ratLibm
      ⟨[.sphere (Sphere.new 1 ⟨0, 0, 0⟩ ⟨⟨1, 1 / 2, 1 / 4⟩, ⟨1, 1, 1⟩, ⟨1, 1, 1⟩, 1, 4 / 5, 1 / 5⟩)],
        ⟨0, 0, 10⟩, false, false, false, 5, ⟨⟨0, 0, 0⟩, false, 0⟩⟩
      ⟨⟨0, 0, 5⟩, ⟨0, 0, -1⟩⟩ = some ⟨4 / 5, 2 / 5, 1 / 5⟩ :=
  (DemoDisplay_pixel_color ratLibm
    ⟨[.sphere (Sphere.new 1 ⟨0, 0, 0⟩ ⟨⟨1, 1 / 2, 1 / 4⟩, ⟨1, 1, 1⟩, ⟨1, 1, 1⟩, 1, 4 / 5, 1 / 5⟩)],
      ⟨0, 0, 10⟩, false, false, false, 5, ⟨⟨0, 0, 0⟩, false, 0⟩⟩
    ⟨⟨0, 0, 5⟩, ⟨0, 0, -1⟩⟩ ((4 : ℚ) : WithTop ℚ) ⟨⟨4 / 5, 2 / 5, 1 / 5⟩, false, 0⟩
    colourSphere_run).1 (by exact_mod_cast (by norm_num : (0 : ℚ) < 4))

/-! ### `CheckIntersection` over a repeated list -/

section
variable {F : Type} [LinearOrderedField F]

theorem CheckIntersection.loop_append (m : Libm F) (ray : Ray F) (l1 l2 : List (Object F)) :
    ∀ (found : Bool) (info : IntersectInfo F),
      CheckIntersection.loop m ray (l1 ++ l2) found info =
        (CheckIntersection.loop m ray l1 found info).bind
          (fun r => CheckIntersection.loop m ray l2 r.1 r.2) := by
  induction l1 with
  | nil => intro found info; rfl
  | cons obj rest ih =>
    intro found info
    show CheckIntersection.loop m ray (obj :: (rest ++ l2)) found info = _
    rw [CheckIntersection.loop, CheckIntersection.loop]
    cases hI : obj.Intersect m ray IntersectInfo.fresh with
    | none => rfl
    | some r =>
      obtain ⟨b, tempInfo⟩ := r
      cases b
      · exact ih _ _
      · simp only []
        split_ifs
        · exact ih _ _
        · exact ih _ _
        · exact ih _ _

theorem CheckIntersection.loop_returns (m : Libm F) (ray : Ray F) (rest : List (Object F)) :
    ∀ (found : Bool) (info : IntersectInfo F) (r : Bool × IntersectInfo F),
      CheckIntersection.loop m ray rest found info = some r →
      ∀ obj ∈ rest, (obj.Intersect m ray IntersectInfo.fresh).isSome := by
  induction rest with
  | nil => intro _ _ _ _ obj hobj; exact absurd hobj (List.not_mem_nil _)
  | cons o rest ih =>
    intro found info r h obj hobj
    simp only [CheckIntersection.loop] at h
    cases hI : o.Intersect m ray IntersectInfo.fresh with
    | none => rw [hI] at h; simp at h
    | some q =>
      rw [hI] at h
      rcases List.mem_cons.mp hobj with rfl | hmem
      · rw [hI]; rfl
      · obtain ⟨b, tempInfo⟩ := q
        cases b
        · exact ih _ _ _ h obj hmem
        · simp only at h
          split_ifs at h
          · exact ih _ _ _ h obj hmem
          · exact ih _ _ _ h obj hmem
          · exact ih _ _ _ h obj hmem

theorem CheckIntersection.loop_stable (m : Libm F) (ray : Ray F) (rest : List (Object F))
    (found : Bool) (info : IntersectInfo F)
    (hret : ∀ obj ∈ rest, (obj.Intersect m ray IntersectInfo.fresh).isSome)
    (hmin : ∀ o ∈ rest, ∀ i, o.Hits m ray i → found = true ∧ info.time ≤ i.time) :
    CheckIntersection.loop m ray rest found info = some (found, info) := by
  induction rest with
  | nil => rfl
  | cons o rest ih =>
    have ih' := ih (fun obj h => hret obj (List.mem_cons_of_mem _ h))
      (fun obj h => hmin obj (List.mem_cons_of_mem _ h))
    simp only [CheckIntersection.loop]
    cases hI : o.Intersect m ray IntersectInfo.fresh with
    | none =>
      have := hret o (List.mem_cons_self _ _)
      rw [hI] at this
      simp at this
    | some q =>
      obtain ⟨b, tempInfo⟩ := q
      cases b
      · exact ih'
      · obtain ⟨hf, hle⟩ := hmin o (List.mem_cons_self _ _) tempInfo hI
        simp only [hf, Bool.not_true, Bool.false_eq_true, if_false, not_lt.mpr hle]
        rw [hf] at ih'
        exact ih'

theorem CheckIntersection_append_of_subset (m : Libm F) (L L' : List (Object F)) (ray : Ray F)
    (info : IntersectInfo F) (hsub : ∀ o ∈ L', o ∈ L) :
    CheckIntersection m (L ++ L') ray info = CheckIntersection m L ray info := by
  unfold CheckIntersection
  rw [CheckIntersection.loop_append]
  cases h : CheckIntersection.loop m ray L false info with
  | none => rfl
  | some r =>
    obtain ⟨found', info'⟩ := r
    have hret := CheckIntersection.loop_returns m ray L false info _ h
    obtain ⟨f2, i2, h2, hcase⟩ := CheckIntersection.loop_spec m ray L false info hret
    rw [h] at h2
    simp only [Option.some.injEq, Prod.mk.injEq] at h2
    rw [← h2.1, ← h2.2] at hcase
    show CheckIntersection.loop m ray L' found' info' = some (found', info')
    apply CheckIntersection.loop_stable m ray L' found' info'
      (fun o ho => hret o (hsub o ho))
    rcases hcase with ⟨hf, hi, hall⟩ | ⟨hf, pre, obj, post, hL, hhit, _, hpre, hpost⟩
    · intro o ho i hoi
      have := (hall o (hsub o ho) i hoi).1
      simp at this
    · intro o ho i hoi
      refine ⟨hf, ?_⟩
      have ho' := hsub o ho
      rw [hL] at ho'
      rcases List.mem_append.mp ho' with h1 | h1
      · exact le_of_lt (hpre o h1 i hoi)
      · rcases List.mem_cons.mp h1 with rfl | h3
        · have : i = info' := by
            unfold Object.Hits at hoi hhit
            rw [hoi] at hhit
            simp only [Option.some.injEq, Prod.mk.injEq, true_and] at hhit
            exact hhit
          rw [this]
        · exact hpost o h3 i hoi

/-- C30. `CheckIntersection` over the list `L` followed by a second copy of `L` gives the
same result as over `L` alone: the same `found` flag and the same info (time, hit point,
normal and material), and no defined value exactly when the call over `L` has none.  The
same holds for `L` followed by any number of further copies of `L`. -/
theorem CheckIntersection_duplicated_list (m : Libm F) (L : List (Object F)) (ray : Ray F)
    (info : IntersectInfo F) :
    CheckIntersection m (L ++ L) ray info = CheckIntersection m L ray info ∧
    ∀ n : Nat, CheckIntersection m (L ++ (List.replicate n L).flatten) ray info =
      CheckIntersection m L ray info := by
  refine ⟨CheckIntersection_append_of_subset m L L ray info (fun _ h => h), fun n => ?_⟩
  apply CheckIntersection_append_of_subset
  intro o ho
  obtain ⟨l, hl, hol⟩ := List.mem_flatten.mp ho
  rw [List.eq_of_mem_replicate hl] at hol
  exact hol

end

/-! ### The time and the hit point of a reported hit: concrete runs -/

/-- C4 fails for the box and an `IntersectInfo` that is not fresh: for the box with corners
`(-1, -1, -1)` and `(1, 1, 1)`, the ray from `(0, 0, 5)` with direction `(0, 0, 1)`, which
points away from the box, and an `IntersectInfo` with time `2` and hit point `(9, 9, 9)`, the
call returns `true` with the info untouched, and `(9, 9, 9)` is not
`origin + 2 * direction = (0, 0, 7)`. -/
theorem AxisAlignedBox_Intersect_stale_hitPoint :
    (AxisAlignedBox.new (⟨-1, -1, -1⟩ : Vec3 ℚ) ⟨1, 1, 1⟩ whiteAbsorb).Intersect ratLibm
      ⟨⟨0, 0, 5⟩, ⟨0, 0, 1⟩⟩ ⟨((2 : ℚ) : WithTop ℚ), ⟨9, 9, 9⟩, ⟨0, 0, 0⟩, none⟩ =
      some (true, ⟨((2 : ℚ) : WithTop ℚ), ⟨9, 9, 9⟩, ⟨0, 0, 0⟩, none⟩) ∧
    (⟨9, 9, 9⟩ : Vec3 ℚ) ≠ Vec3.add ⟨0, 0, 5⟩ (Vec3.smul 2 ⟨0, 0, 1⟩) ∧
    ¬ ∃ t : ℚ, ((2 : ℚ) : WithTop ℚ) = (t : WithTop ℚ) ∧
      (⟨9, 9, 9⟩ : Vec3 ℚ) = Vec3.add ⟨0, 0, 5⟩ (Vec3.smul t ⟨0, 0, 1⟩) := by
  have hno : ∀ f ∈ (AxisAlignedBox.new (⟨-1, -1, -1⟩ : Vec3 ℚ) ⟨1, 1, 1⟩ whiteAbsorb).faceList,
      ¬ f.Accepts ⟨⟨0, 0, 5⟩, ⟨0, 0, 1⟩⟩ := by
    intro f hf
    simp only [AxisAlignedBox.faceList, AxisAlignedBox.new, List.mem_cons, List.mem_singleton,
      List.not_mem_nil, or_false] at hf
    rcases hf with rfl | rfl | rfl | rfl | rfl | rfl <;>
      norm_num [BoxFace.Accepts, BoxFace.time, Vec3.dot, Vec3.sub]
  refine ⟨?_, ?_, ?_⟩
  · unfold AxisAlignedBox.Intersect
    rw [AxisAlignedBox.faces_of_not_accepts _ _ _ _ hno]
    simp only [WithTop.coe_lt_top, if_true]
  · norm_num [Vec3.add, Vec3.smul]
  · rintro ⟨t, _, hp⟩
    norm_num [Vec3.add, Vec3.smul] at hp

/-- C4 as amended, at the unit sphere at the origin and the ray from `(0, 0, 5)` with direction
`(0, 0, -1)`: the hit at time `4` has hit point `(0, 0, 1) = (0, 0, 5) + 4 * (0, 0, -1)`. -/
theorem Intersect_hitPoint_on_ray_witness :
    (⟨0, 0, 5⟩ : Vec3 ℚ).Within 1000000 ∧ (⟨0, 0, -1⟩ : Vec3 ℚ).Within 1000000 ∧
    (Sphere.new 1 (⟨0, 0, 0⟩ : Vec3 ℚ) whiteAbsorb).Intersect ratLibm
        ⟨⟨0, 0, 5⟩, ⟨0, 0, -1⟩⟩ IntersectInfo.fresh =
      some (true, ⟨((4 : ℚ) : WithTop ℚ), ⟨0, 0, 1⟩, ⟨0, 0, 1⟩, some whiteAbsorb⟩) ∧
    (1 : ℚ) / 1000000 ≤ Vec3.dot (⟨0, 0, -1⟩ : Vec3 ℚ) ⟨0, 0, -1⟩ ∧
    ∃ t : ℚ, ((4 : ℚ) : WithTop ℚ) = (t : WithTop ℚ) ∧
      (⟨0, 0, 1⟩ : Vec3 ℚ) = Vec3.add ⟨0, 0, 5⟩ (Vec3.smul t ⟨0, 0, -1⟩) :=
  ⟨by norm_num [Vec3.Within], by norm_num [Vec3.Within],
   unitSphere_from_five whiteAbsorb, by norm_num [Vec3.dot],
   (Intersect_hitPoint_on_ray ratLibm ⟨⟨0, 0, 5⟩, ⟨0, 0, -1⟩⟩
      (by norm_num [Vec3.Within]) (by norm_num [Vec3.Within])).1
      (Sphere.new 1 ⟨0, 0, 0⟩ whiteAbsorb) IntersectInfo.fresh _
      (by norm_num [Vec3.Within, Sphere.new]) (by norm_num [Sphere.new])
      (by norm_num [Vec3.dot]) (unitSphere_from_five whiteAbsorb)⟩

/-- C3 fails in the program at a ray of zero direction: for the unit sphere at the origin and
the ray with origin `(0, 0, 0)` and direction `(0, 0, 0)` the quadratic has `a = b = 0` and
discriminant `0`, so `solveQuadraticEquation` returns the repeated root `-0.5 * b / a`, the
quotient of zero by zero, and `Sphere::Intersect` returns `true` with that quotient as the
reported time, neither of the tests `root < 0` rejecting it.  Exact arithmetic evaluates the
quotient as `0`; in floating point it is not a number, which is not `>= 0`. -/
theorem Sphere_Intersect_zero_direction_time :
    Vec3.dot (⟨0, 0, 0⟩ : Vec3 ℚ) ⟨0, 0, 0⟩ = 0 ∧
    2 * Vec3.dot (⟨0, 0, 0⟩ : Vec3 ℚ) (Vec3.sub ⟨0, 0, 0⟩ ⟨0, 0, 0⟩) = 0 ∧
    solveQuadraticEquation ratLibm (0 : ℚ) 0 (-1) =
      some (-(1 / 2) * 0 / 0, -(1 / 2) * 0 / 0) ∧
    ∃ i, (Sphere.new 1 (⟨0, 0, 0⟩ : Vec3 ℚ) whiteAbsorb).Intersect ratLibm
        ⟨⟨0, 0, 0⟩, ⟨0, 0, 0⟩⟩ IntersectInfo.fresh = some (true, i) ∧
      i.time = ((-(1 / 2) * 0 / 0 : ℚ) : WithTop ℚ) := by
  have hs : solveQuadraticEquation ratLibm (0 : ℚ) 0 (-1) = some (0, 0) := by
    unfold solveQuadraticEquation quadraticQ
    norm_num
  refine ⟨by norm_num [Vec3.dot], by norm_num [Vec3.dot, Vec3.sub], ?_, ?_⟩
  · rw [hs]; norm_num
  · refine ⟨⟨((0 : ℚ) : WithTop ℚ), ⟨0, 0, 0⟩, ⟨0, 0, 0⟩, some whiteAbsorb⟩, ?_, ?_⟩
    · unfold Sphere.Intersect
      norm_num [Sphere.new, Vec3.dot, Vec3.sub, hs, Ray.eval, Vec3.add, Vec3.smul,
        Vec3.normalize]
    · norm_num

end RayTracer
